import Mathlib

/-! # Shallow embedding of `src/libshogun/classifier/svm/SVM.cpp`

The C++ class `CSVM` is embedded as a record of its fields together with the
fields of its base class `CKernelMachine` that the methods of `SVM.cpp` touch.
`float64_t` values are modelled by exact rationals, `int32_t` values by `Int`.
Methods are state transformers that return the outcome together with the state
of the object after the call.
-/

namespace Shogun

/-! ## Collaborators and errors -/

/-- Error classes of the core (spec section 7). -/
inductive SGError where
  | AllocationError
  | IndexOutOfRange
  | PreconditionError
  | ShapeMismatchError
  deriving DecidableEq, Repr

/-- The labels collaborator `CLabels`, as far as `SVM.cpp` calls it. -/
structure CLabels where
  get_label : Int → ℚ
  get_num_labels : Int

/-- The kernel collaborator `CKernel`, as far as `SVM.cpp` calls it. -/
structure CKernel where
  kernel : Int → Int → ℚ
  get_name : List Char

/-- The object state: the fields of `CSVM` and the `CKernelMachine` fields used
by `SVM.cpp`.  `linear_term` is a pointer into the free store (`Heap` below),
`none` standing for `NULL`; `mkl` is a pointer to a reference-counted object
(`Objects` below) and `callback` the identity of the registered function. -/
structure CSVM where
  kernel : Option CKernel
  labels : Option CLabels
  m_alpha : List ℚ
  m_svs : List Int
  num_svs : Int
  m_bias : ℚ
  C1 : ℚ
  C2 : ℚ
  epsilon : ℚ
  tube_epsilon : ℚ
  nu : ℚ
  objective : ℚ
  qpsize : Int
  use_bias : Bool
  use_shrinking : Bool
  use_batch_computation : Bool
  use_linadd : Bool
  svm_loaded : Bool
  linear_term : Option Nat
  linear_term_y : Int
  mkl : Option Nat
  callback : Option Nat

/-! ## Base-class accessors -/

/-- Modelled from the spec: `CKernelMachine::get_num_support_vectors` (the base
class is not part of the sources); section 4.1, returns `numSupportVectors`. -/
def get_num_support_vectors (self : CSVM) : Int := self.num_svs

/-- Modelled from the spec: `CKernelMachine::get_alpha`; section 4.1, a
bounds-checked read that fails with `IndexOutOfRange` outside
`[0, numSupportVectors)`. -/
def get_alpha (self : CSVM) (idx : Int) : Except SGError ℚ :=
  if 0 ≤ idx ∧ idx < self.num_svs then
    match self.m_alpha[idx.toNat]? with
    | some a => .ok a
    | none => .error .IndexOutOfRange
  else .error .IndexOutOfRange

/-- Modelled from the spec: `CKernelMachine::get_support_vector`; section 4.1,
a bounds-checked read that fails with `IndexOutOfRange` outside
`[0, numSupportVectors)`. -/
def get_support_vector (self : CSVM) (idx : Int) : Except SGError Int :=
  if 0 ≤ idx ∧ idx < self.num_svs then
    match self.m_svs[idx.toNat]? with
    | some a => .ok a
    | none => .error .IndexOutOfRange
  else .error .IndexOutOfRange

/-- Modelled from the spec: `CKernelMachine::set_alpha`; section 4.1, a
bounds-checked positional write. -/
def set_alpha (self : CSVM) (idx : Int) (val : ℚ) : Except SGError CSVM :=
  if 0 ≤ idx ∧ idx < self.num_svs ∧ idx.toNat < self.m_alpha.length then
    .ok { self with m_alpha := self.m_alpha.set idx.toNat val }
  else .error .IndexOutOfRange

/-- Modelled from the spec: `CKernelMachine::set_support_vector`; section 4.1,
a bounds-checked positional write. -/
def set_support_vector (self : CSVM) (idx : Int) (val : Int) : Except SGError CSVM :=
  if 0 ≤ idx ∧ idx < self.num_svs ∧ idx.toNat < self.m_svs.length then
    .ok { self with m_svs := self.m_svs.set idx.toNat val }
  else .error .IndexOutOfRange

/-- Modelled from the spec: `CKernelMachine::create_new_model`; sections 3 and
4.1, both arrays are reallocated to length `n`, prior contents discarded, and
entries read as 0 before any write (section 8). -/
def create_new_model (self : CSVM) (n : Int) : CSVM :=
  { self with
    num_svs := n
    m_alpha := List.replicate n.toNat 0
    m_svs := List.replicate n.toNat 0 }

/-- Modelled from the spec: `CKernelMachine::set_bias`, the bias mutator of the
base model object (section 6). -/
def set_bias (self : CSVM) (b : ℚ) : CSVM := { self with m_bias := b }

/-- Modelled from the spec: `CKernelMachine::get_bias`, the bias accessor of the
base model object (section 6). -/
def get_bias (self : CSVM) : ℚ := self.m_bias

/-- The data-model invariant of section 3: both arrays have `numSupportVectors`
entries, here `n`. -/
def ModelOfSize (self : CSVM) (n : Nat) : Prop :=
  self.num_svs = (n : Int) ∧ self.m_alpha.length = n ∧ self.m_svs.length = n

/-! ## Loops -/

/-- The loop `for (int32_t i=lo; i<lo+k; i++) body(i)` over a state, where the
body may raise; the state reached when the error was raised is kept. -/
def forLoop {σ : Type} (body : Int → σ → Except SGError Unit × σ) :
    Nat → Int → σ → Except SGError Unit × σ
  | 0, _, s => (.ok (), s)
  | k + 1, i, s =>
    match body i s with
    | (.ok _, s') => forLoop body k (i + 1) s'
    | (.error e, s') => (.error e, s')

/-! ## Objective evaluator (`SVM.cpp` lines 241-290) -/

/-- Body of the inner loop of `compute_svm_dual_objective` (lines 255-256). -/
def dualInnerBody (K : CKernel) (i ii : Int) (j : Int) (self : CSVM) :
    Except SGError Unit × CSVM :=
  match (do
      let jj ← get_support_vector self j
      let ai ← get_alpha self i
      let aj ← get_alpha self j
      pure (0.5 * ai * aj * K.kernel ii jj) : Except SGError ℚ) with
  | .ok d => (.ok (), { self with objective := self.objective + d })
  | .error e => (.error e, self)

/-- Body of the outer loop of `compute_svm_dual_objective` (lines 250-257). -/
def dualOuterBody (L : CLabels) (K : CKernel) (n : Int) (i : Int) (self : CSVM) :
    Except SGError Unit × CSVM :=
  match get_support_vector self i with
  | .error e => (.error e, self)
  | .ok ii =>
    match get_alpha self i with
    | .error e => (.error e, self)
    | .ok ai =>
      forLoop (dualInnerBody K i ii) n.toNat 0
        { self with objective := self.objective - ai * L.get_label ii }

/-- `CSVM::compute_svm_dual_objective` (lines 241-264).  The failing branch
raises through `SG_ERROR`, which the spec (sections 4.4 and 7) describes as a
`PreconditionError` propagated to the caller. -/
def compute_svm_dual_objective (self : CSVM) : Except SGError ℚ × CSVM :=
  let n := get_num_support_vectors self
  match self.labels, self.kernel with
  | some L, some K =>
    match forLoop (dualOuterBody L K n) n.toNat 0 { self with objective := 0 } with
    | (.ok _, s) => (.ok s.objective, s)
    | (.error e, s) => (.error e, s)
  | _, _ => (.error .PreconditionError, self)

/-- Local variables `regularizer` and `loss` of `compute_svm_primal_objective`. -/
structure PrimalLocals where
  regularizer : ℚ
  loss : ℚ

/-- Body of the inner loop of `compute_svm_primal_objective` (lines 279-280). -/
def primalInnerBody (self : CSVM) (K : CKernel) (i ii : Int) (j : Int) (v : PrimalLocals) :
    Except SGError Unit × PrimalLocals :=
  match (do
      let jj ← get_support_vector self j
      let ai ← get_alpha self i
      let aj ← get_alpha self j
      pure (0.5 * ai * aj * K.kernel ii jj) : Except SGError ℚ) with
  | .ok d => (.ok (), { v with regularizer := v.regularizer - d })
  | .error e => (.error e, v)

/-- Body of the outer loop of `compute_svm_primal_objective` (lines 276-283);
`get_label` reads the labels collaborator and `classify_example` is the
classification collaborator. -/
def primalOuterBody (self : CSVM) (L : CLabels) (K : CKernel) (classify_example : Int → ℚ)
    (n : Int) (i : Int) (v : PrimalLocals) : Except SGError Unit × PrimalLocals :=
  match get_support_vector self i with
  | .error e => (.error e, v)
  | .ok ii =>
    match forLoop (primalInnerBody self K i ii) n.toNat 0 v with
    | (.error e, v') => (.error e, v')
    | (.ok _, v') =>
      (.ok (), { v' with
        loss := v'.loss - self.C1 * max 0 (1 - L.get_label ii * classify_example ii) })

/-- `CSVM::compute_svm_primal_objective` (lines 266-290).  The method writes only
its local variables; the object state is returned as it was received. -/
def compute_svm_primal_objective (self : CSVM) (classify_example : Int → ℚ) :
    Except SGError ℚ × CSVM :=
  let n := get_num_support_vectors self
  match self.labels, self.kernel with
  | some L, some K =>
    match forLoop (primalOuterBody self L K classify_example n) n.toNat 0
        { regularizer := 0, loss := 0 } with
    | (.ok _, v) => (.ok (v.regularizer + v.loss), self)
    | (.error e, _) => (.error e, self)
  | _, _ => (.error .PreconditionError, self)

/-! ## Construction (`SVM.cpp` lines 27-93) -/

/-- Modelled from the spec: the state left by the base-class constructor
`CKernelMachine()`, which is not part of the sources: no collaborators attached,
no model allocated, bias 0.  The fields declared by `CSVM` itself are not yet
initialised at that point; `set_defaults` assigns every one of them. -/
def CKernelMachine_new : CSVM :=
  { kernel := none, labels := none, m_alpha := [], m_svs := [], num_svs := 0, m_bias := 0,
    C1 := 0, C2 := 0, epsilon := 0, tube_epsilon := 0, nu := 0, objective := 0, qpsize := 0,
    use_bias := false, use_shrinking := false, use_batch_computation := false,
    use_linadd := false, svm_loaded := false, linear_term := none, linear_term_y := 0,
    mkl := none, callback := none }

/-- `CSVM::set_defaults` (lines 49-93).  The parameter registrations of lines
51-67 do not change the fields. -/
def set_defaults (self : CSVM) (num_sv : Int) : CSVM :=
  let s : CSVM :=
    { self with
      callback := none
      mkl := none
      svm_loaded := false
      epsilon := 1 / 100000
      tube_epsilon := 1 / 100
      nu := 1 / 2
      C1 := 1
      C2 := 1
      objective := 0
      qpsize := 41
      use_bias := true
      use_shrinking := true
      use_batch_computation := true
      use_linadd := true
      linear_term := none
      linear_term_y := 0 }
  if num_sv > 0 then create_new_model s num_sv else s

/-- Modelled from the spec: `set_C`, `set_labels` and `set_kernel` of the class
declaration, which is not part of the sources: plain setters of the box
constraints and of the two collaborators. -/
def set_C (self : CSVM) (c1 c2 : ℚ) : CSVM := { self with C1 := c1, C2 := c2 }

/-- Modelled from the spec: see `set_C`. -/
def set_labels (self : CSVM) (lab : Option CLabels) : CSVM := { self with labels := lab }

/-- Modelled from the spec: see `set_C`. -/
def set_kernel (self : CSVM) (k : Option CKernel) : CSVM := { self with kernel := k }

/-- `CSVM::CSVM(int32_t num_sv)` (lines 27-31). -/
def CSVM.new (num_sv : Int) : CSVM := set_defaults CKernelMachine_new num_sv

/-- `CSVM::CSVM(float64_t C, CKernel* k, CLabels* lab)` (lines 33-40). -/
def CSVM.newC (C : ℚ) (k : Option CKernel) (lab : Option CLabels) : CSVM :=
  set_kernel (set_labels (set_C (set_defaults CKernelMachine_new 0) C C) lab) k

/-! ## The free store and the linear term (`SVM.cpp` lines 292-333) -/

/-- The free store as far as `SVM.cpp` uses it, for arrays of `float64_t`: the
cell at address `p` holds `some a` for a live array with entries `a`, `none`
for an array that was deleted.  Addresses beyond the list were never handed
out. -/
structure Heap where
  cells : List (Option (List ℚ))

/-- The array at address `p`, if it is live. -/
def Heap.read (h : Heap) (p : Nat) : Option (List ℚ) := (h.cells[p]?).join

/-- `new float64_t[n]`: a live array of `n` entries at an address not handed out
before; its address and the store after the allocation.  The entries are
indeterminate in C++ and are 0 here.  The store is not bounded: the allocation
of a non-negative length does not fail. -/
def Heap.alloc (h : Heap) (n : Nat) : Nat × Heap :=
  (h.cells.length, { cells := h.cells ++ [some (List.replicate n 0)] })

/-- `delete[] p`. -/
def Heap.free (h : Heap) (p : Nat) : Heap := { cells := h.cells.set p none }

/-- `if (p != NULL) delete[] p` (lines 44 and 317). -/
def Heap.release (h : Heap) (p : Option Nat) : Heap :=
  match p with
  | some p => h.free p
  | none => h

/-- The entries of the live array at `p` overwritten with `a`, as a caller does
through a pointer to the array. -/
def Heap.write (h : Heap) (p : Nat) (a : List ℚ) : Heap :=
  match h.read p with
  | some _ => { cells := h.cells.set p (some a) }
  | none => h

/-- `memcpy(dst, src, n * sizeof (float64_t))`: the first `n` entries of the
array at `src` are copied over the first `n` entries of the array at `dst`.
The behaviour is undefined in C++ unless both are live arrays of at least `n`
entries; the store is left as it is in that case. -/
def memcpy (h : Heap) (dst : Nat) (src : Option Nat) (n : Nat) : Heap :=
  match src with
  | none => h
  | some q =>
    match h.read dst, h.read q with
    | some d, some s =>
      if n ≤ d.length ∧ n ≤ s.length then h.write dst (s.take n ++ d.drop n) else h
    | _, _ => h

/-- What a method on the linear term leaves: the outcome, the object and the
free store. -/
structure HeapResult (α : Type) where
  ret : Except SGError α
  self : CSVM
  heap : Heap

/-- `CSVM::get_linear_term_array` (lines 292-301): `NULL` for the length 0, else
a new array with a copy of the stored entries.  `new` of a negative length
throws, which is the `AllocationError` of section 7. -/
def get_linear_term_array (self : CSVM) (heap : Heap) : HeapResult (Option Nat) :=
  if self.linear_term_y = 0 then { ret := .ok none, self := self, heap := heap }
  else if self.linear_term_y < 0 then
    { ret := .error .AllocationError, self := self, heap := heap }
  else
    let a := heap.alloc self.linear_term_y.toNat
    { ret := .ok (some a.1)
      self := self
      heap := memcpy a.2 a.1 self.linear_term self.linear_term_y.toNat }

/-- `CSVM::set_linear_term` (lines 303-325).  The two calls of `SG_ERROR` raise
(sections 4.2 and 7: `PreconditionError` for missing labels,
`ShapeMismatchError` for a length that is not the number of labels).  In line
322 the length is assigned before `new` is called, and `new` of a negative
length throws with the pointer left as it was. -/
def set_linear_term (self : CSVM) (heap : Heap) (lin : Option Nat) (y : Int) :
    HeapResult Unit :=
  match self.labels with
  | none => { ret := .error .PreconditionError, self := self, heap := heap }
  | some labels =>
    let num_labels := labels.get_num_labels
    if num_labels ≠ y then { ret := .error .ShapeMismatchError, self := self, heap := heap }
    else
      let heap := heap.release self.linear_term
      if lin = none ∨ y = 0 then
        { ret := .ok (), self := { self with linear_term := none, linear_term_y := 0 }, heap := heap }
      else
        let self := { self with linear_term_y := y }
        if y < 0 then { ret := .error .AllocationError, self := self, heap := heap }
        else
          let a := heap.alloc y.toNat
          let self := { self with linear_term := some a.1 }
          { ret := .ok (), self := self, heap := memcpy a.2 a.1 lin self.linear_term_y.toNat }

/-- `CSVM::get_linear_term_ptr` (lines 327-333).  The argument is the slot `y`
points to (`none` for `NULL`); returned are the pointer and the slot after the
call. -/
def get_linear_term_ptr (self : CSVM) (y : Option Int) : Option Nat × Option Int :=
  match y with
  | none => (none, none)
  | some _ => (self.linear_term, some self.linear_term_y)

/-! ## Reference-counted objects and the MKL hook (`SVM.cpp` lines 231-239) -/

/-- The reference-counted objects as far as `SVM.cpp` uses them: for the object
at address `m` its reference count, and whether it exists (it has not been
destroyed). -/
structure Objects where
  refcount : Nat → Int
  alive : Nat → Bool

/-- Modelled from the spec: the macro `SG_REF` of `base/SGObject.h`, which is not
part of the sources; sections 3 and 9, one counted reference to the object is
added, nothing is done for `NULL`. -/
def SG_REF (objs : Objects) (x : Option Nat) : Objects :=
  match x with
  | none => objs
  | some m => { objs with refcount := fun i => if i = m then objs.refcount m + 1 else objs.refcount i }

/-- Modelled from the spec: the macro `SG_UNREF` of `base/SGObject.h`, which is
not part of the sources; sections 3 and 9, one counted reference to the object
is released, the lifetime of the object is reference-counted, so the object is
destroyed when its last reference is released, and the pointer is then set to
`NULL`.  Returned are the pointer and the objects after the call. -/
def SG_UNREF (objs : Objects) (x : Option Nat) : Option Nat × Objects :=
  match x with
  | none => (none, objs)
  | some m =>
    if objs.refcount m ≤ 1 then
      (none, { refcount := fun i => if i = m then 0 else objs.refcount i
               alive := fun i => if i = m then false else objs.alive i })
    else
      (some m, { objs with
        refcount := fun i => if i = m then objs.refcount m - 1 else objs.refcount i })

/-- `CSVM::set_callback_function` (lines 231-239); `m` is the pointer to the MKL
object and `cb` the identity of the function.  Returned are the object and the
reference-counted objects after the call. -/
def set_callback_function (self : CSVM) (objs : Objects) (m : Option Nat) (cb : Option Nat) :
    CSVM × Objects :=
  let u := SG_UNREF objs self.mkl
  let self := { self with mkl := u.1 }
  let self := { self with mkl := m }
  let objs := SG_REF u.2 self.mkl
  ({ self with callback := cb }, objs)

/-! ## Input streams and `fscanf` -/

/-- A `FILE*` opened for reading: the characters not yet read and the
end-of-file indicator, which is set when a read is attempted past the last
character. -/
structure FILE where
  buf : List Char
  eof : Bool
  deriving DecidableEq, Repr

/-- `feof`. -/
def feof (f : FILE) : Bool := f.eof

/-- `isspace` in the C locale: space, `\t`, `\n`, `\v`, `\f`, `\r`. -/
def isspace (c : Char) : Bool :=
  c = ' ' || c = '\t' || c = '\n' || c = Char.ofNat 11 || c = Char.ofNat 12 || c = '\r'

/-- `isdigit`. -/
def isdigit (c : Char) : Bool := 48 ≤ c.toNat && c.toNat ≤ 57

/-- Value of a decimal digit character. -/
def digitVal (c : Char) : Nat := c.toNat - 48

/-- Value of a string of decimal digits, most significant first. -/
def decVal (ds : List Char) : Nat := ds.foldl (fun a c => 10 * a + digitVal c) 0

/-- The C string held in a character buffer: the characters before the first NUL. -/
def cstr (buffer : List Char) : List Char := buffer.takeWhile (fun c => c != Char.ofNat 0)

/-- Directives of a `scanf` format. -/
inductive Directive where
  | space
  | lit (c : Char)
  | str (width : Option Nat)
  | int
  | dbl
  deriving DecidableEq, Repr

/-- Position of the format reader: outside a conversion specification, after
`%` and the field width read so far, or after `%l`. -/
inductive FmtState where
  | plain
  | percent (width : Option Nat)
  | long

/-- Reading of a format string into directives.  Of the conversion
specifications only those that occur in `SVM.cpp` are read: `%s` with an
optional width, `%d` and `%lf`. -/
def parseFormat : FmtState → List Char → List Directive
  | _, [] => []
  | .plain, c :: cs =>
    if c = '%' then parseFormat (.percent none) cs
    else if isspace c then .space :: parseFormat .plain cs
    else .lit c :: parseFormat .plain cs
  | .percent w, c :: cs =>
    if isdigit c then parseFormat (.percent (some (10 * w.getD 0 + digitVal c))) cs
    else if c = 's' then .str w :: parseFormat .plain cs
    else if c = 'd' then .int :: parseFormat .plain cs
    else if c = 'l' then parseFormat .long cs
    else parseFormat .plain cs
  | .long, c :: cs =>
    if c = 'f' then .dbl :: parseFormat .plain cs else parseFormat .plain cs

/-- Outcome of one conversion: an item was read and converted, the input did
not match, the input ended, or the item is one the model does not cover (see
`scan_d` and `scan_lf`). -/
inductive ScanResult (α : Type) where
  | ok (v : α) (f : FILE)
  | matchFail (f : FILE)
  | inputFail (f : FILE)
  | unsupported

/-- A white-space directive, and the skipping of leading white space by a
conversion: input is read up to the first character that is not white space,
which stays unread; reaching the end sets the end-of-file indicator. -/
def skipSpace (f : FILE) : FILE :=
  let r := f.buf.dropWhile isspace
  { buf := r, eof := f.eof || r.isEmpty }

/-- The conversion `%s` with an optional field width: after leading white space,
the characters up to the next white space, the end of input or the field width.
No further character is read once the width is used up.  Without a width the
item has no bound; whether it fits the array it is stored into is for the
caller (`load_kernel`). -/
def scan_s (w : Option Nat) (f : FILE) : ScanResult (List Char) :=
  let g := skipSpace f
  match g.buf with
  | [] => .inputFail g
  | _ :: _ =>
    let window := match w with
      | none => g.buf
      | some n => g.buf.take n
    let tok := window.takeWhile (fun c => !isspace c)
    let rest := g.buf.drop tok.length
    .ok tok { buf := rest, eof := g.eof || (rest.isEmpty && w != some tok.length) }

/-- The input after an optional sign `-` or `+`. -/
def dropSign : List Char → List Char
  | c :: cs => if c = '-' ∨ c = '+' then cs else c :: cs
  | [] => []

/-- Whether the input starts with the sign `-`. -/
def hasMinus : List Char → Bool
  | c :: _ => decide (c = '-')
  | [] => false

/-- The conversion `%d`: after leading white space an optional sign and the
longest run of decimal digits; no digit is a matching failure.  The value is
stored into an `int32_t`: for a value that is not an `int32_t` the behaviour is
undefined in C, and the model does not cover such an item. -/
def scan_d (f : FILE) : ScanResult Int :=
  let g := skipSpace f
  if g.buf.isEmpty then .inputFail g
  else
    let body := dropSign g.buf
    let ds := body.takeWhile isdigit
    let rest := body.dropWhile isdigit
    let g' : FILE := { buf := rest, eof := g.eof || rest.isEmpty }
    if ds.isEmpty then .matchFail g'
    else
      let v : Int := if hasMinus g.buf then -(decVal ds : Int) else (decVal ds : Int)
      if -2147483648 ≤ v ∧ v < 2147483648 then .ok v g' else .unsupported

/-- The fraction of a decimal number: after the integer digits, a point and the
digits that follow it.  Returns the fraction digits and the characters left. -/
def scanFraction (b1 : List Char) : List Char × List Char :=
  match b1 with
  | d :: r => if d = '.' then (r.takeWhile isdigit, r.dropWhile isdigit) else ([], b1)
  | [] => ([], b1)

/-- The exponent of a decimal number with signed mantissa `smant`: `e` or `E`,
an optional sign and digits.  An `e` or `E` that no digit follows is read
differently by different C libraries (a matching failure by the C standard, the
mantissa alone elsewhere); the model does not cover such an item.  `eof` is the
end-of-file indicator before the exponent is looked for. -/
def scanExponent (smant : ℚ) (eof : Bool) (b2 : List Char) : ScanResult ℚ :=
  match b2 with
  | [] => .ok smant { buf := [], eof := true }
  | x :: r =>
    if x = 'e' ∨ x = 'E' then
      let ed := (dropSign r).takeWhile isdigit
      let b3 := (dropSign r).dropWhile isdigit
      let g' : FILE := { buf := b3, eof := eof || b3.isEmpty }
      if ed.isEmpty then .unsupported
      else .ok (if hasMinus r then smant / (10 : ℚ) ^ decVal ed
        else smant * (10 : ℚ) ^ decVal ed) g'
    else .ok smant { buf := b2, eof := eof }

/-- Whether the input after the sign starts one of the spellings that `%lf`
reads besides decimal numbers: `inf`, `infinity` or `nan` in any case (first
letter `i` or `n`), or a hexadecimal float (`0x`).  Their values are no
rationals or are not written in decimal; the model does not cover them. -/
def specialFloat (b0 : List Char) : Bool :=
  match b0 with
  | c :: rest =>
    c = 'i' || c = 'I' || c = 'n' || c = 'N' ||
      (c = '0' && match rest with
        | x :: _ => x = 'x' || x = 'X'
        | [] => false)
  | [] => false

/-- The conversion `%lf` for decimal input: after leading white space an
optional sign, digits with an optional point, and an optional exponent.  The
input item is the longest prefix of such a number; an item without a digit in
the mantissa is a matching failure.  The value is the exact rational the item
denotes.  Infinities, NaNs, hexadecimal floats and exponents without a digit
are not covered (`specialFloat`, `scanExponent`). -/
def scan_lf (f : FILE) : ScanResult ℚ :=
  let g := skipSpace f
  if g.buf.isEmpty then .inputFail g
  else
    let b0 := dropSign g.buf
    if specialFloat b0 then .unsupported
    else
      let ip := b0.takeWhile isdigit
      let fr := scanFraction (b0.dropWhile isdigit)
      let mant : ℚ := (decVal (ip ++ fr.1) : ℚ) / (10 : ℚ) ^ fr.1.length
      let smant : ℚ := if hasMinus g.buf then -mant else mant
      if ip.isEmpty && fr.1.isEmpty then
        .matchFail { buf := fr.2, eof := g.eof || fr.2.isEmpty }
      else scanExponent smant g.eof fr.2

/-- A value assigned by a conversion. -/
inductive Arg where
  | str (s : List Char)
  | int (v : Int)
  | dbl (v : ℚ)

/-- The `EOF` return value. -/
def EOF : Int := -1

/-- What a call of `fscanf` leaves: its return value, the values assigned in
order, the stream, and whether it met an item the model does not cover. -/
structure ScanfResult where
  ret : Int
  args : List Arg
  file : FILE
  unsupported : Bool

/-- Return value when the input ends: `EOF` before the first conversion has
completed, else the number of items assigned. -/
def inputFailure (args : List Arg) (f : FILE) : ScanfResult :=
  { ret := if args.isEmpty then EOF else (args.length : Int), args := args, file := f,
    unsupported := false }

/-- The return value when the call returns otherwise: the number of items
assigned. -/
def scanfReturn (args : List Arg) (f : FILE) : ScanfResult :=
  { ret := (args.length : Int), args := args, file := f, unsupported := false }

/-- Execution of the directives of a format, in order, until the first failure. -/
def fscanfAux : List Directive → FILE → List Arg → ScanfResult
  | [], f, args => scanfReturn args f
  | .space :: ds, f, args => fscanfAux ds (skipSpace f) args
  | .lit c :: ds, f, args =>
    match f.buf with
    | [] => inputFailure args { f with eof := true }
    | x :: xs =>
      if x = c then fscanfAux ds { f with buf := xs } args
      else scanfReturn args f
  | .str w :: ds, f, args =>
    match scan_s w f with
    | .ok v g => fscanfAux ds g (args ++ [.str v])
    | .matchFail g => scanfReturn args g
    | .inputFail g => inputFailure args g
    | .unsupported => { scanfReturn args f with unsupported := true }
  | .int :: ds, f, args =>
    match scan_d f with
    | .ok v g => fscanfAux ds g (args ++ [.int v])
    | .matchFail g => scanfReturn args g
    | .inputFail g => inputFailure args g
    | .unsupported => { scanfReturn args f with unsupported := true }
  | .dbl :: ds, f, args =>
    match scan_lf f with
    | .ok v g => fscanfAux ds g (args ++ [.dbl v])
    | .matchFail g => scanfReturn args g
    | .inputFail g => inputFailure args g
    | .unsupported => { scanfReturn args f with unsupported := true }

/-- `fscanf(stream, format, ...)`. -/
def fscanf (stream : FILE) (format : String) : ScanfResult :=
  fscanfAux (parseFormat .plain format.toList) stream []

/-- The string assigned to the `k`-th pointer argument, the previous content
`dflt` if the conversion was not reached. -/
def argStr (args : List Arg) (k : Nat) (dflt : List Char) : List Char :=
  match args[k]? with
  | some (.str s) => s
  | _ => dflt

/-- The integer assigned to the `k`-th pointer argument, else `dflt`. -/
def argInt (args : List Arg) (k : Nat) (dflt : Int) : Int :=
  match args[k]? with
  | some (.int v) => v
  | _ => dflt

/-- The double assigned to the `k`-th pointer argument, else `dflt`. -/
def argDbl (args : List Arg) (k : Nat) (dflt : ℚ) : ℚ :=
  match args[k]? with
  | some (.dbl v) => v
  | _ => dflt

/-! ## `CSVM::load` (`SVM.cpp` lines 95-206) -/

/-- How a call of `load` ends when it does not return: with the error raised by
`SG_ERROR`, which carries the line number (the `FormatError` of section 7);
with an error raised by an accessor of the model; with a write past the end of
`char_buffer` (undefined behaviour); or at an item the model of `fscanf` does
not cover. -/
inductive LoadStop where
  | formatError (line : Int)
  | error (e : SGError)
  | overflow
  | unsupported
  deriving DecidableEq, Repr

/-- Two outcomes of `load` can be compared. -/
instance : DecidableEq (Except LoadStop Bool)
  | .ok a, .ok b =>
    if h : a = b then isTrue (h ▸ rfl) else isFalse (fun h' => h (Except.ok.inj h'))
  | .error a, .error b =>
    if h : a = b then isTrue (h ▸ rfl) else isFalse (fun h' => h (Except.error.inj h'))
  | .ok _, .error _ => isFalse (fun h => Except.noConfusion h)
  | .error _, .ok _ => isFalse (fun h => Except.noConfusion h)

/-- The object, the stream and the local variables of `load` that live across
its statements. -/
structure LoadVars where
  self : CSVM
  modelfl : FILE
  result : Bool
  line_number : Int

/-- Modelled from the spec: the macro `SG_ERROR` of `lib/io.h`, which is not part
of the sources, as `load` uses it with the message
`"error in svm file, line nr:%d\n"`: the parse error is recorded with its line
number and the call does not return (section 4.3: it records the error and
aborts).  This is the one behaviour of the macro in `SVM.cpp`: lines 210-216
and 306-309 use the pointer they have just found to be `NULL` if it returns. -/
def SG_ERROR (v : LoadVars) : Except LoadStop Unit × LoadVars :=
  (.error (.formatError v.line_number), v)

/-- Lines 103-117: the header.  At most four characters and the terminating NUL
are stored into `char_buffer`. -/
def load_header (v : LoadVars) : Except LoadStop Unit × LoadVars :=
  let r := fscanf v.modelfl "%4s\n"
  let v := { v with modelfl := r.file }
  if r.ret = EOF then
    SG_ERROR { v with result := false }
  else
    let char_buffer := (argStr r.args 0 []).take 4
    if cstr char_buffer ≠ "%SVM".toList then SG_ERROR { v with result := false }
    else (.ok (), { v with line_number := v.line_number + 1 })

/-- Lines 119-130: the number of support vectors and the allocation of the model. -/
def load_numsv (v : LoadVars) : Except LoadStop Unit × LoadVars :=
  let r := fscanf v.modelfl " numsv=%d; \n"
  let int_buffer := argInt r.args 0 0
  let v := { v with modelfl := r.file }
  if r.unsupported then (.error .unsupported, v)
  else if r.ret ≠ 1 then SG_ERROR { v with result := false }
  else
    let v := if !feof v.modelfl then { v with line_number := v.line_number + 1 } else v
    (.ok (), { v with self := create_new_model v.self int_buffer })

/-- Lines 132-139: the kernel name.  The item of `%s` is stored with a
terminating NUL into `char_buffer`, an array of 1024 characters (line 98): an
item of 1024 or more characters is written past its end. -/
def load_kernel (v : LoadVars) : Except LoadStop Unit × LoadVars :=
  let r := fscanf v.modelfl " kernel='%s'; \n"
  let v := { v with modelfl := r.file }
  if 1024 ≤ (argStr r.args 0 []).length then (.error .overflow, v)
  else if r.ret ≠ 1 then SG_ERROR { v with result := false }
  else (.ok (), if !feof v.modelfl then { v with line_number := v.line_number + 1 } else v)

/-- Lines 141-152: the bias. -/
def load_bias (v : LoadVars) : Except LoadStop Unit × LoadVars :=
  let r := fscanf v.modelfl " b=%lf; \n"
  let double_buffer := argDbl r.args 0 0
  let v := { v with modelfl := r.file }
  if r.unsupported then (.error .unsupported, v)
  else if r.ret ≠ 1 then SG_ERROR { v with result := false }
  else
    let v := if !feof v.modelfl then { v with line_number := v.line_number + 1 } else v
    (.ok (), { v with self := set_bias v.self double_buffer })

/-- Lines 154-168: the opening of the list of rows.  At most eight characters
and the terminating NUL are stored into `char_buffer`. -/
def load_alphas (v : LoadVars) : Except LoadStop Unit × LoadVars :=
  let r := fscanf v.modelfl "%8s\n"
  let v := { v with modelfl := r.file }
  if r.ret = EOF then
    SG_ERROR { v with result := false }
  else
    let char_buffer := (argStr r.args 0 []).take 9
    if cstr char_buffer ≠ "alphas=[".toList then SG_ERROR { v with result := false }
    else (.ok (), { v with line_number := v.line_number + 1 })

/-- Lines 172-185: the body of the loop over the rows: the scan of the row and
the two stores of lines 184-185.  The format of line 175 is written
`" \[%lf,%d]; \n"` in the source, where `\[` denotes `[`. -/
def load_row (i : Int) (v : LoadVars) : Except LoadStop Unit × LoadVars :=
  let r := fscanf v.modelfl " [%lf,%d]; \n"
  let double_buffer := argDbl r.args 0 0
  let int_buffer := argInt r.args 1 0
  let v := { v with modelfl := r.file }
  if r.unsupported then (.error .unsupported, v)
  else if r.ret ≠ 2 then SG_ERROR { v with result := false }
  else
    let v := if !feof v.modelfl then { v with line_number := v.line_number + 1 } else v
    match set_support_vector v.self i int_buffer with
    | .error e => (.error (.error e), v)
    | .ok s1 =>
      match set_alpha s1 i double_buffer with
      | .error e => (.error (.error e), { v with self := s1 })
      | .ok s2 => (.ok (), { v with self := s2 })

/-- Lines 170-186: `k` rounds of the loop over the rows, from the index `i` on;
the loop ends with the round that does not return. -/
def load_rows : Nat → Int → LoadVars → Except LoadStop Unit × LoadVars
  | 0, _, v => (.ok (), v)
  | k + 1, i, v =>
    match load_row i v with
    | (.ok _, v') => load_rows k (i + 1) v'
    | (.error e, v') => (.error e, v')

/-- Lines 188-202: the closing of the list of rows.  At most two characters and
the terminating NUL are stored into `char_buffer`. -/
def load_footer (v : LoadVars) : Except LoadStop Unit × LoadVars :=
  let r := fscanf v.modelfl "%2s"
  let v := { v with modelfl := r.file }
  if r.ret = EOF then
    SG_ERROR { v with result := false }
  else
    let char_buffer := (argStr r.args 0 []).take 3
    if cstr char_buffer ≠ "];".toList then SG_ERROR { v with result := false }
    else (.ok (), { v with line_number := v.line_number + 1 })

/-- The next statement of `load`, which is reached only if the statements
before it have returned. -/
def thenStep (r : Except LoadStop Unit × LoadVars)
    (step : LoadVars → Except LoadStop Unit × LoadVars) : Except LoadStop Unit × LoadVars :=
  match r with
  | (.ok _, v) => step v
  | (.error e, v) => (.error e, v)

/-- What `load` leaves: the return value, or how the call ended without
returning, the object and the stream. -/
structure LoadResult where
  ret : Except LoadStop Bool
  self : CSVM
  modelfl : FILE

/-- Lines 97-101: the local variables at the start of `load`. -/
def LoadVars.init (self : CSVM) (modelfl : FILE) : LoadVars :=
  { self := self, modelfl := modelfl, result := true, line_number := 1 }

/-- Lines 103-202 of `load`: the statements before the final assignment. -/
def load_body (v : LoadVars) : Except LoadStop Unit × LoadVars :=
  thenStep (thenStep (thenStep (thenStep (thenStep (thenStep (load_header v) load_numsv)
    load_kernel) load_bias) load_alphas)
    (fun v => load_rows (get_num_support_vectors v.self).toNat 0 v)) load_footer

/-- `CSVM::load` (lines 95-206).  Lines 204-205 are reached only if no statement
before them has raised. -/
def load (self : CSVM) (modelfl : FILE) : LoadResult :=
  match load_body (LoadVars.init self modelfl) with
  | (.error e, v) => { ret := .error e, self := v.self, modelfl := v.modelfl }
  | (.ok _, v) =>
    { ret := .ok v.result
      self := { v.self with svm_loaded := v.result }
      modelfl := v.modelfl }

/-! ## `CSVM::save` (`SVM.cpp` lines 208-229) -/

/-- The conversion `%d` of `fprintf`. -/
def fmt_d (v : Int) : List Char :=
  if v < 0 then '-' :: Nat.toDigits 10 v.natAbs else Nat.toDigits 10 v.natAbs

/-- Lines 222-223: the body of the loop over the rows; `fmt_e` is the conversion
`%+10.16e` of `fprintf`. -/
def save_row (self : CSVM) (fmt_e : ℚ → List Char) (i : Int) (out : List Char) :
    Except SGError Unit × List Char :=
  match get_alpha self i with
  | .error e => (.error e, out)
  | .ok a =>
    match get_support_vector self i with
    | .error e => (.error e, out)
    | .ok sv => (.ok (), out ++ "\t[".toList ++ fmt_e a ++ ",".toList ++ fmt_d sv ++ "];\n".toList)

/-- What `save` leaves: the return value, the object and the text written. -/
structure SaveResult where
  ret : Except SGError Bool
  self : CSVM
  out : List Char

/-- `CSVM::save` (lines 208-229), with the text written so far in `modelfl`.
The missing kernel raises through `SG_ERROR`, which the spec (sections 4.3 and
7) describes as a `PreconditionError` propagated to the caller. -/
def save (self : CSVM) (fmt_e : ℚ → List Char) (modelfl : List Char) : SaveResult :=
  match self.kernel with
  | none => { ret := .error .PreconditionError, self := self, out := modelfl }
  | some K =>
    let out := modelfl ++ "%SVM\n".toList
    let out := out ++ "numsv=".toList ++ fmt_d (get_num_support_vectors self) ++ ";\n".toList
    let out := out ++ "kernel='".toList ++ K.get_name ++ "';\n".toList
    let out := out ++ "b=".toList ++ fmt_e (get_bias self) ++ ";\n".toList
    let out := out ++ "alphas=[\n".toList
    match forLoop (save_row self fmt_e) (get_num_support_vectors self).toNat 0 out with
    | (.error e, out) => { ret := .error e, self := self, out := out }
    | (.ok _, out) => { ret := .ok true, self := self, out := out ++ "];\n".toList }

/-! ## Example data -/

/-- Labels of the example of section 8: label 1 at index 0, label -1 elsewhere. -/
def exampleLabels : CLabels :=
  { get_label := fun i => if i = 0 then 1 else -1, get_num_labels := 2 }

/-- Kernel of the example of section 8: the value 1 on every pair. -/
def exampleKernel : CKernel := { kernel := fun _ _ => 1, get_name := "Const".toList }

/-- Model of the example of section 8: two support vectors with `alpha = [1, 1]`
and stored indices 0 and 1. -/
def exampleModel : CSVM :=
  { CSVM.newC 1 (some exampleKernel) (some exampleLabels) with
    num_svs := 2, m_alpha := [1, 1], m_svs := [0, 1] }

/-! ## The text grammar of section 4.3 -/

/-- The sign written in front of a number: none, `+` or `-`. -/
inductive Sign where
  | none
  | plus
  | minus
  deriving DecidableEq, Repr

/-- The characters of a sign. -/
def Sign.text : Sign → List Char
  | .none => []
  | .plus => ['+']
  | .minus => ['-']

/-- An integer literal `<int>`: a sign and decimal digits. -/
structure IntLit where
  sign : Sign
  digits : List Char

/-- The digits of an integer literal are decimal digits, at least one. -/
def IntLit.wf (l : IntLit) : Prop := l.digits ≠ [] ∧ ∀ c ∈ l.digits, isdigit c = true

/-- The characters of an integer literal. -/
def IntLit.text (l : IntLit) : List Char := l.sign.text ++ l.digits

/-- The integer an integer literal denotes. -/
def IntLit.value (l : IntLit) : Int :=
  if l.sign = .minus then -(decVal l.digits : Int) else (decVal l.digits : Int)

/-- A float literal `<float>` in the notation `fprintf` writes: a sign, integer
digits, optionally a point with fraction digits, optionally `e` with a signed
exponent. -/
structure FloatLit where
  sign : Sign
  intPart : List Char
  fracPart : Option (List Char)
  expPart : Option (Sign × List Char)

/-- The fraction digits of a float literal, none if there is no point. -/
def FloatLit.fracDigits (l : FloatLit) : List Char := l.fracPart.getD []

/-- All parts of a float literal are decimal digits, with at least one integer
digit and at least one exponent digit where there is an exponent. -/
def FloatLit.wf (l : FloatLit) : Prop :=
  l.intPart ≠ [] ∧ (∀ c ∈ l.intPart, isdigit c = true) ∧
  (∀ c ∈ l.fracDigits, isdigit c = true) ∧
  (∀ x ∈ l.expPart, x.2 ≠ [] ∧ ∀ c ∈ x.2, isdigit c = true)

/-- The point and the fraction digits of a float literal. -/
def FloatLit.fracText (l : FloatLit) : List Char :=
  match l.fracPart with
  | some fp => '.' :: fp
  | none => []

/-- The exponent of a float literal as written. -/
def FloatLit.expText (l : FloatLit) : List Char :=
  match l.expPart with
  | some (s, ds) => 'e' :: (s.text ++ ds)
  | none => []

/-- The characters of a float literal. -/
def FloatLit.text (l : FloatLit) : List Char :=
  l.sign.text ++ l.intPart ++ l.fracText ++ l.expText

/-- The signed mantissa `smant` scaled by the power of ten of the exponent. -/
def FloatLit.scale (l : FloatLit) (smant : ℚ) : ℚ :=
  match l.expPart with
  | some (s, ds) => if s = .minus then smant / (10 : ℚ) ^ decVal ds else smant * (10 : ℚ) ^ decVal ds
  | none => smant

/-- The rational a float literal denotes. -/
def FloatLit.value (l : FloatLit) : ℚ :=
  let mant : ℚ := (decVal (l.intPart ++ l.fracDigits) : ℚ) / (10 : ℚ) ^ l.fracDigits.length
  l.scale (if l.sign = .minus then -mant else mant)

/-- The text `t` is read in full by `%d` as the value `v` when `;` or `]`
follows it. -/
def ReadsAsInt (t : List Char) (v : Int) : Prop :=
  ∀ (c : Char) (r : List Char) (e : Bool), c = ';' ∨ c = ']' →
    scan_d ⟨t ++ c :: r, e⟩ = .ok v ⟨c :: r, e⟩

/-- The text `t` is read in full by `%lf` as the value `v` when `,` or `;`
follows it. -/
def ReadsAsDouble (t : List Char) (v : ℚ) : Prop :=
  ∀ (c : Char) (r : List Char) (e : Bool), c = ',' ∨ c = ';' →
    scan_lf ⟨t ++ c :: r, e⟩ = .ok v ⟨c :: r, e⟩

/-- One row of the model text: `\t[<float>,<int>];\n`. -/
def rowText (a i : List Char) : List Char :=
  "\t[".toList ++ a ++ ",".toList ++ i ++ "];\n".toList

/-- The rows of the model text, in order. -/
def rowsText : List (List Char × List Char) → List Char
  | [] => []
  | r :: rs => rowText r.1 r.2 ++ rowsText rs

/-- The line `alphas=[` followed by `rest`. -/
def alphasText (rest : List Char) : List Char := "alphas=[\n".toList ++ rest

/-- The line `b=<float>;` followed by the line `alphas=[` and `rest`. -/
def biasText (b rest : List Char) : List Char :=
  "b=".toList ++ (b ++ (";\n".toList ++ alphasText rest))

/-- The line `kernel='<name>';` and what follows it. -/
def kernelText (name b rest : List Char) : List Char :=
  "kernel='".toList ++ (name ++ ("';\n".toList ++ biasText b rest))

/-- The line `numsv=<int>;` and what follows it. -/
def numsvText (numsv name b rest : List Char) : List Char :=
  "numsv=".toList ++ (numsv ++ (";\n".toList ++ kernelText name b rest))

/-- The model text of section 4.3 up to and including the line `alphas=[`, in
the layout `save` writes, one field per line, followed by `rest`. -/
def fieldsText (numsv name b rest : List Char) : List Char :=
  "%SVM\n".toList ++ numsvText numsv name b rest

/-- The model text of section 4.3 in the layout `save` writes: the header,
`numsv=<int>;`, `kernel='<name>';`, `b=<float>;`, `alphas=[`, the rows, and the
closing `];` followed by `tail`. -/
def modelText (numsv name b : List Char) (rows : List (List Char × List Char))
    (tail : List Char) : List Char :=
  fieldsText numsv name b (rowsText rows ++ ("];".toList ++ tail))

/-- A row of the model text together with the values its two fields stand for. -/
structure RowSpec where
  alphaText : List Char
  indexText : List Char
  alpha : ℚ
  index : Int

/-- The two fields of the row are read in full as the values given. -/
def RowSpec.reads (q : RowSpec) : Prop :=
  ReadsAsDouble q.alphaText q.alpha ∧ ReadsAsInt q.indexText q.index

/-- The texts of the two fields of a row. -/
def RowSpec.texts (q : RowSpec) : List Char × List Char := (q.alphaText, q.indexText)

/-- The array `l` after the values `vals` have been written to the positions
`lo`, `lo + 1`, ... in turn. -/
def writeFrom {α : Type} (l : List α) (lo : Nat) : List α → List α
  | [] => l
  | x :: xs => writeFrom (l.set lo x) (lo + 1) xs

/-- A float literal with sign `s`, the integer digit `d`, sixteen fraction
digits `fp` and the exponent sign `es` and digits `ed`, the notation of
`%+10.16e`. -/
def sciLit (s : Sign) (d : Char) (fp : List Char) (es : Sign) (ed : List Char) : FloatLit :=
  { sign := s, intPart := [d], fracPart := some fp, expPart := some (es, ed) }

/-- The model file of the concrete scenario of section 8. -/
def scenarioText : List Char :=
  "%SVM\nnumsv=1;\nkernel='Linear';\nb=+1.0000000000000000e+00;\nalphas=[\n\t[+5.0000000000000000e-01,7];\n];\n".toList

/-- A model file that declares three support vectors and holds two rows. -/
def shortText : List Char :=
  "%SVM\nnumsv=3;\nkernel='Linear';\nb=+1.0000000000000000e+00;\nalphas=[\n\t[+5.0000000000000000e-01,7];\n\t[+2.5000000000000000e-01,9];\n];\n".toList

/-- What `%+10.16e` writes for the integers 0 to 9: the digit, sixteen zeros
after the point and the exponent `+00`. -/
def fmtDigit (x : ℚ) : List Char :=
  (sciLit .plus (Nat.digitChar x.floor.toNat) "0000000000000000".toList .plus "00".toList).text

/-- The model file of the concrete scenario of section 8 after an empty line. -/
def blankLineText : List Char := '\n' :: scenarioText

/-- The start of a model file without the header line. -/
def headlessText : List Char :=
  "numsv=1;\nkernel='Linear';\nb=+1.0000000000000000e+00;\nalphas=[\n\t[+5.0000000000000000e-01,7];\n];\n".toList

/-- A model file that declares two support vectors and lacks the kernel line. -/
def noKernelText : List Char :=
  "%SVM\nnumsv=2;\nb=+1.0000000000000000e+00;\nalphas=[\n\t[+5.0000000000000000e-01,7];\n\t[+2.5000000000000000e-01,9];\n];\n".toList

/-- The model text of the scenario of section 8 without the `;` after the
count, the `';` after the kernel name, the `;` after the bias and the `];` of
the row. -/
def looseText : List Char :=
  "%SVM\nnumsv=1\nkernel='Linear\nb=+1.0000000000000000e+00\nalphas=[\n\t[+5.0000000000000000e-01,7\n];".toList

/-- The text a saved model consists of, in the words of section 4.3: the line
`%SVM`, the lines `numsv=<k>;`, `kernel='<name>';`, `b=<bias>;` and `alphas=[`,
for `i = 0..k-1` in increasing order the line `\t[<alpha(i)>,<index(i)>];`, and
the line `];`; every float is written by `fmt_e`. -/
def savedText (fmt_e : ℚ → List Char) (k : Nat) (name : List Char) (bias : ℚ)
    (alpha : Nat → ℚ) (index : Nat → Int) : List Char :=
  "%SVM\n".toList ++ ("numsv=".toList ++ fmt_d (k : Int) ++ ";\n".toList) ++
    ("kernel='".toList ++ name ++ "';\n".toList) ++
    ("b=".toList ++ fmt_e bias ++ ";\n".toList) ++ "alphas=[\n".toList ++
    ((List.range k).map (fun i =>
      "\t[".toList ++ fmt_e (alpha i) ++ ",".toList ++ fmt_d (index i) ++ "];\n".toList)).flatten ++
    "];\n".toList

/-- Labels collaborator with no label. -/
def noLabels : CLabels := { get_label := fun _ => 0, get_num_labels := 0 }

/-- A free store with one array of the caller, `[3, 4]` at address 0. -/
def exampleHeap : Heap := { cells := [some [3, 4]] }

/-- An object with the labels of section 8 attached (two labels) that stores
the linear term `[3, 4]`, and the free store then. -/
def termModel : HeapResult Unit :=
  set_linear_term (CSVM.newC 1 none (some exampleLabels)) exampleHeap (some 0) 2

/-- The objects, with the free store, that are reachable from construction by
calls of `set_linear_term` with any arguments, failing or not, and by attaching
labels collaborators; the number of labels of a collaborator is not negative. -/
inductive LinearTermReachable : CSVM → Heap → Prop
  | new (num_sv : Int) (heap : Heap) : LinearTermReachable (CSVM.new num_sv) heap
  | newC (C : ℚ) (k : Option CKernel) (lab : Option CLabels) (heap : Heap) :
    (∀ L ∈ lab, 0 ≤ L.get_num_labels) → LinearTermReachable (CSVM.newC C k lab) heap
  | labels {self : CSVM} {heap : Heap} (lab : Option CLabels) :
    LinearTermReachable self heap → (∀ L ∈ lab, 0 ≤ L.get_num_labels) →
    LinearTermReachable (set_labels self lab) heap
  | call {self : CSVM} {heap : Heap} (lin : Option Nat) (y : Int) :
    LinearTermReachable self heap →
    LinearTermReachable (set_linear_term self heap lin y).self
      (set_linear_term self heap lin y).heap

/-- The invariant of the linear term (section 3): the pointer is `NULL` exactly
when the length is 0, the length is not negative, and a pointer that is not
`NULL` refers to a live array of that length. -/
def LinearTermInv (self : CSVM) (heap : Heap) : Prop :=
  (self.linear_term = none ↔ self.linear_term_y = 0) ∧ 0 ≤ self.linear_term_y ∧
  ∀ p, self.linear_term = some p →
    ∃ a, heap.read p = some a ∧ (a.length : Int) = self.linear_term_y

/-- Reference-counted objects with one MKL object, at address 7, that exists and
has one reference, and one, at address 8, that exists and has two. -/
def exampleObjects : Objects :=
  { refcount := fun i => if i = 7 then 1 else if i = 8 then 2 else 0
    alive := fun i => decide (i = 7 ∨ i = 8) }

/-- An object that holds the MKL object at address 7. -/
def hookModel : CSVM := { CSVM.new 0 with mkl := some 7, callback := some 1 }

/-- The model with its `n` (alpha, index) pairs reordered by the permutation
`p`: position `i` holds the pair that was at position `p i`. -/
def reorder (self : CSVM) (n : Nat) (p : Equiv.Perm (Fin n)) : CSVM :=
  { self with
    m_alpha := List.ofFn (fun i : Fin n => self.m_alpha.getD (p i) 0)
    m_svs := List.ofFn (fun i : Fin n => self.m_svs.getD (p i) 0) }

/-- The object left by a successful `load` of the model file of section 8 into
a fresh object: one support vector, `svm_loaded` set. -/
def loadedModel : CSVM := (load (CSVM.new 0) ⟨scenarioText, false⟩).self

/-- The model file of section 8 with the header misspelt. -/
def badHeaderText : List Char :=
  "%SVN\nnumsv=1;\nkernel='Linear';\nb=+1.0000000000000000e+00;\nalphas=[\n\t[+5.0000000000000000e-01,7];\n];\n".toList

/-! # Theorems -/

/-! ## Objective evaluator -/

theorem get_alpha_of_size {self : CSVM} {n : Nat} (h : ModelOfSize self n) {i : Nat} (hi : i < n) :
    get_alpha self (i : Int) = .ok (self.m_alpha.getD i 0) := by
  obtain ⟨h1, h2, _⟩ := h
  have hlt : i < self.m_alpha.length := by omega
  simp [get_alpha, h1, hi, List.getElem?_eq_getElem hlt, List.getD_eq_getElem _ _ hlt]

theorem get_support_vector_of_size {self : CSVM} {n : Nat} (h : ModelOfSize self n) {i : Nat}
    (hi : i < n) : get_support_vector self (i : Int) = .ok (self.m_svs.getD i 0) := by
  obtain ⟨h1, _, h3⟩ := h
  have hlt : i < self.m_svs.length := by omega
  simp [get_support_vector, h1, hi, List.getElem?_eq_getElem hlt, List.getD_eq_getElem _ _ hlt]

/-- A loop whose body adds `g t` to an accumulator in its `t`-th round ends with
the sum of the `g t` added. -/
theorem forLoop_accumulate {σ A : Type} [AddCommMonoid A]
    (body : Int → σ → Except SGError Unit × σ) (upd : A → σ) :
    ∀ (k : Nat) (lo : Int) (g : Nat → A) (x : A),
      (∀ t, t < k → ∀ y, body (lo + (t : Int)) (upd y) = (.ok (), upd (y + g t))) →
      forLoop body k lo (upd x) = (.ok (), upd (x + ∑ t in Finset.range k, g t))
  | 0, lo, g, x, _ => by simp [forLoop]
  | k + 1, lo, g, x, h => by
    have h0 := h 0 (Nat.succ_pos k) x
    simp only [Nat.cast_zero, add_zero] at h0
    have ih := forLoop_accumulate body upd k (lo + 1) (fun t => g (t + 1)) (x + g 0)
      (fun t ht y => by
        have := h (t + 1) (Nat.succ_lt_succ ht) y
        rw [← this]; congr 1; push_cast; ring)
    simp only [forLoop, h0, ih, Finset.sum_range_succ', add_assoc]
    rw [add_comm (g 0)]

/-- An error that leaves a loop was raised by its body. -/
theorem forLoop_error {σ : Type} (body : Int → σ → Except SGError Unit × σ)
    (P : SGError → Prop) (hbody : ∀ i s e s', body i s = (.error e, s') → P e) :
    ∀ (k : Nat) (lo : Int) (s : σ) (e : SGError) (s' : σ),
      forLoop body k lo s = (.error e, s') → P e
  | 0, _, _, _, _, h => by simp [forLoop] at h
  | k + 1, lo, s, e, s', h => by
    simp only [forLoop] at h
    split at h
    · exact forLoop_error body P hbody k _ _ e s' h
    · next e0 s0 hb =>
      simp only [Prod.mk.injEq, Except.error.injEq] at h
      exact h.1 ▸ hbody _ _ _ _ hb

theorem get_alpha_objective (self : CSVM) (x : ℚ) (i : Int) :
    get_alpha { self with objective := x } i = get_alpha self i := rfl

theorem get_support_vector_objective (self : CSVM) (x : ℚ) (i : Int) :
    get_support_vector { self with objective := x } i = get_support_vector self i := rfl

theorem dualInner_loop {self : CSVM} {n : Nat} (h : ModelOfSize self n) (K : CKernel)
    {i : Nat} (hi : i < n) (ii : Int) (x : ℚ) :
    forLoop (dualInnerBody K i ii) n 0 { self with objective := x } =
      (.ok (), { self with objective := x + ∑ j in Finset.range n,
        0.5 * self.m_alpha.getD i 0 * self.m_alpha.getD j 0 * K.kernel ii (self.m_svs.getD j 0) }) := by
  refine forLoop_accumulate (dualInnerBody K i ii) (fun y => { self with objective := y }) n 0
    (fun j => 0.5 * self.m_alpha.getD i 0 * self.m_alpha.getD j 0 * K.kernel ii (self.m_svs.getD j 0))
    x ?_
  intro t ht y
  simp only [dualInnerBody, zero_add, get_alpha_objective, get_support_vector_objective,
    get_alpha_of_size h hi, get_alpha_of_size h ht, get_support_vector_of_size h ht]
  rfl

theorem dualOuter_loop {self : CSVM} {n : Nat} (h : ModelOfSize self n) (L : CLabels)
    (K : CKernel) (x : ℚ) :
    forLoop (dualOuterBody L K n) n 0 { self with objective := x } =
      (.ok (), { self with objective := x + ∑ i in Finset.range n,
        (-(self.m_alpha.getD i 0) * L.get_label (self.m_svs.getD i 0) +
          ∑ j in Finset.range n, 0.5 * self.m_alpha.getD i 0 * self.m_alpha.getD j 0 *
            K.kernel (self.m_svs.getD i 0) (self.m_svs.getD j 0)) }) := by
  refine forLoop_accumulate (dualOuterBody L K n) (fun y => { self with objective := y }) n 0
    (fun i => -(self.m_alpha.getD i 0) * L.get_label (self.m_svs.getD i 0) +
          ∑ j in Finset.range n, 0.5 * self.m_alpha.getD i 0 * self.m_alpha.getD j 0 *
            K.kernel (self.m_svs.getD i 0) (self.m_svs.getD j 0)) x ?_
  intro t ht y
  simp only [dualOuterBody, zero_add, get_alpha_objective, get_support_vector_objective,
    get_alpha_of_size h ht, get_support_vector_of_size h ht, Int.toNat_ofNat]
  have := dualInner_loop h K ht (self.m_svs.getD t 0)
    (y - self.m_alpha.getD t 0 * L.get_label (self.m_svs.getD t 0))
  simp only [] at this ⊢
  rw [this]
  congr 2
  ring

/-- Value and final state of the dual routine on a model that satisfies the
data-model invariant. -/
theorem dual_objective_eq (self : CSVM) (L : CLabels) (K : CKernel) (n : Nat)
    (hsize : ModelOfSize self n) (hL : self.labels = some L) (hK : self.kernel = some K) :
    compute_svm_dual_objective self =
      (.ok (∑ i in Finset.range n, -(self.m_alpha.getD i 0) * L.get_label (self.m_svs.getD i 0) +
          ∑ i in Finset.range n, ∑ j in Finset.range n,
            0.5 * self.m_alpha.getD i 0 * self.m_alpha.getD j 0 *
              K.kernel (self.m_svs.getD i 0) (self.m_svs.getD j 0)),
       { self with objective :=
          ∑ i in Finset.range n, -(self.m_alpha.getD i 0) * L.get_label (self.m_svs.getD i 0) +
          ∑ i in Finset.range n, ∑ j in Finset.range n,
            0.5 * self.m_alpha.getD i 0 * self.m_alpha.getD j 0 *
              K.kernel (self.m_svs.getD i 0) (self.m_svs.getD j 0) }) := by
  have hn : get_num_support_vectors self = (n : Int) := hsize.1
  have := dualOuter_loop hsize L K 0
  simp only [hL, hK, zero_add, Finset.sum_add_distrib] at this
  simp only [compute_svm_dual_objective, hL, hK, hn, Int.toNat_ofNat, this]

theorem exampleModel_size : ModelOfSize exampleModel 2 := ⟨rfl, rfl, rfl⟩

theorem exampleModel_dual :
    compute_svm_dual_objective exampleModel = (.ok 2, { exampleModel with objective := 2 }) := by
  rw [dual_objective_eq exampleModel exampleLabels exampleKernel 2 exampleModel_size rfl rfl]
  have : (∑ i in Finset.range 2,
        -(exampleModel.m_alpha.getD i 0) * exampleLabels.get_label (exampleModel.m_svs.getD i 0) +
      ∑ i in Finset.range 2, ∑ j in Finset.range 2,
        0.5 * exampleModel.m_alpha.getD i 0 * exampleModel.m_alpha.getD j 0 *
          exampleKernel.kernel (exampleModel.m_svs.getD i 0) (exampleModel.m_svs.getD j 0)) = 2 := by
    simp [Finset.sum_range_succ, exampleModel, exampleLabels, exampleKernel]
    norm_num
  rw [this]

theorem primalInner_loop {self : CSVM} {n : Nat} (h : ModelOfSize self n) (K : CKernel)
    {i : Nat} (hi : i < n) (ii : Int) (r l : ℚ) :
    forLoop (primalInnerBody self K i ii) n 0 { regularizer := r, loss := l } =
      (.ok (),
        { regularizer := (r + ∑ j in Finset.range n,
            -(0.5 * self.m_alpha.getD i 0 * self.m_alpha.getD j 0 *
              K.kernel ii (self.m_svs.getD j 0)))
          loss := l }) := by
  refine forLoop_accumulate (primalInnerBody self K i ii)
    (fun y => ({ regularizer := y, loss := l } : PrimalLocals)) n 0
    (fun j => -(0.5 * self.m_alpha.getD i 0 * self.m_alpha.getD j 0 *
      K.kernel ii (self.m_svs.getD j 0))) r ?_
  intro t ht y
  simp only [primalInnerBody, zero_add, get_alpha_of_size h hi, get_alpha_of_size h ht,
    get_support_vector_of_size h ht]
  simp only [bind, Except.bind, pure, Except.pure, sub_eq_add_neg]

theorem primalOuter_loop {self : CSVM} {n : Nat} (h : ModelOfSize self n) (L : CLabels)
    (K : CKernel) (cls : Int → ℚ) :
    forLoop (primalOuterBody self L K cls n) n 0 { regularizer := 0, loss := 0 } =
      (.ok (),
        { regularizer := (∑ i in Finset.range n, ∑ j in Finset.range n,
            -(0.5 * self.m_alpha.getD i 0 * self.m_alpha.getD j 0 *
              K.kernel (self.m_svs.getD i 0) (self.m_svs.getD j 0)))
          loss := (∑ i in Finset.range n,
            -(self.C1 * max 0 (1 - L.get_label (self.m_svs.getD i 0) *
              cls (self.m_svs.getD i 0)))) }) := by
  have key := forLoop_accumulate (primalOuterBody self L K cls n)
    (fun y : ℚ × ℚ => ({ regularizer := y.1, loss := y.2 } : PrimalLocals)) n 0
    (fun i => (∑ j in Finset.range n,
          -(0.5 * self.m_alpha.getD i 0 * self.m_alpha.getD j 0 *
            K.kernel (self.m_svs.getD i 0) (self.m_svs.getD j 0)),
        -(self.C1 * max 0 (1 - L.get_label (self.m_svs.getD i 0) * cls (self.m_svs.getD i 0)))))
    (0, 0) ?_
  · simpa [Prod.fst_sum, Prod.snd_sum] using key
  · intro t ht y
    simp only [primalOuterBody, zero_add, get_support_vector_of_size h ht, Int.toNat_ofNat,
      primalInner_loop h K ht, Prod.fst_add, Prod.snd_add, sub_eq_add_neg]

theorem get_alpha_error (self : CSVM) (i : Int) (e : SGError) :
    get_alpha self i = .error e → e = .IndexOutOfRange := by
  unfold get_alpha
  split
  · split
    · simp
    · simp; exact fun h => h.symm
  · simp; exact fun h => h.symm

theorem get_support_vector_error (self : CSVM) (i : Int) (e : SGError) :
    get_support_vector self i = .error e → e = .IndexOutOfRange := by
  unfold get_support_vector
  split
  · split
    · simp
    · simp; exact fun h => h.symm
  · simp; exact fun h => h.symm

theorem kernelTerm_error (self : CSVM) (K : CKernel) (i j ii : Int) (e : SGError) :
    (do
      let jj ← get_support_vector self j
      let ai ← get_alpha self i
      let aj ← get_alpha self j
      pure (0.5 * ai * aj * K.kernel ii jj) : Except SGError ℚ) = .error e →
    e = .IndexOutOfRange := by
  intro h
  cases h1 : get_support_vector self j with
  | error e1 =>
    have := get_support_vector_error self j e1 h1
    simp [h1, bind, Except.bind] at h; rw [← h]; exact this
  | ok jj =>
    cases h2 : get_alpha self i with
    | error e2 =>
      have := get_alpha_error self i e2 h2
      simp [h1, h2, bind, Except.bind] at h; rw [← h]; exact this
    | ok ai =>
      cases h3 : get_alpha self j with
      | error e3 =>
        have := get_alpha_error self j e3 h3
        simp [h1, h2, h3, bind, Except.bind] at h; rw [← h]; exact this
      | ok aj => simp [h1, h2, h3, bind, Except.bind, pure, Except.pure] at h

theorem dualInnerBody_error (K : CKernel) (i ii j : Int) (s : CSVM) (e : SGError) (s' : CSVM) :
    dualInnerBody K i ii j s = (.error e, s') → e = .IndexOutOfRange := by
  intro h
  unfold dualInnerBody at h
  split at h
  · simp at h
  · next e0 he =>
    simp only [Prod.mk.injEq, Except.error.injEq] at h
    exact h.1 ▸ kernelTerm_error s K i j ii e0 he

theorem dualOuterBody_error (L : CLabels) (K : CKernel) (n i : Int) (s : CSVM) (e : SGError)
    (s' : CSVM) : dualOuterBody L K n i s = (.error e, s') → e = .IndexOutOfRange := by
  intro h
  unfold dualOuterBody at h
  split at h
  · next e0 he =>
    simp only [Prod.mk.injEq, Except.error.injEq] at h
    exact h.1 ▸ get_support_vector_error s i e0 he
  · split at h
    · next e0 he =>
      simp only [Prod.mk.injEq, Except.error.injEq] at h
      exact h.1 ▸ get_alpha_error s i e0 he
    · exact forLoop_error _ (fun e => e = .IndexOutOfRange)
        (fun j s e s' => dualInnerBody_error K i _ j s e s') _ _ _ e s' h

theorem primalInnerBody_error (self : CSVM) (K : CKernel) (i ii j : Int) (v : PrimalLocals)
    (e : SGError) (v' : PrimalLocals) :
    primalInnerBody self K i ii j v = (.error e, v') → e = .IndexOutOfRange := by
  intro h
  unfold primalInnerBody at h
  split at h
  · simp at h
  · next e0 he =>
    simp only [Prod.mk.injEq, Except.error.injEq] at h
    exact h.1 ▸ kernelTerm_error self K i j ii e0 he

theorem primalOuterBody_error (self : CSVM) (L : CLabels) (K : CKernel) (cls : Int → ℚ)
    (n i : Int) (v : PrimalLocals) (e : SGError) (v' : PrimalLocals) :
    primalOuterBody self L K cls n i v = (.error e, v') → e = .IndexOutOfRange := by
  intro h
  unfold primalOuterBody at h
  split at h
  · next e0 he =>
    simp only [Prod.mk.injEq, Except.error.injEq] at h
    exact h.1 ▸ get_support_vector_error self i e0 he
  · split at h
    · next e0 v0 hl =>
      simp only [Prod.mk.injEq, Except.error.injEq] at h
      exact h.1 ▸ forLoop_error _ (fun e => e = .IndexOutOfRange)
        (fun j s e s' => primalInnerBody_error self K i _ j s e s') _ _ _ e0 v0 hl
    · simp at h

/-- C1: on a model with `n` support vectors and with labels and kernel attached,
`compute_svm_dual_objective` returns the sum over `i < n` of
`-alpha(i) * label(idx(i))` plus the sum over `i, j < n` of
`0.5 * alpha(i) * alpha(j) * kernel(idx(i), idx(j))`, where `alpha(i)` and
`idx(i)` are what `get_alpha(i)` and `get_support_vector(i)` return, and the
stored objective is overwritten with that value whatever it held before. -/
theorem dual_objective_formula (self : CSVM) (L : CLabels) (K : CKernel) (n : Nat)
    (hsize : ModelOfSize self n) (hL : self.labels = some L) (hK : self.kernel = some K) :
    (∀ i, i < n → get_alpha self (i : Int) = .ok (self.m_alpha.getD i 0) ∧
        get_support_vector self (i : Int) = .ok (self.m_svs.getD i 0)) ∧
    compute_svm_dual_objective self =
      (.ok (∑ i in Finset.range n, -(self.m_alpha.getD i 0) * L.get_label (self.m_svs.getD i 0) +
          ∑ i in Finset.range n, ∑ j in Finset.range n,
            0.5 * self.m_alpha.getD i 0 * self.m_alpha.getD j 0 *
              K.kernel (self.m_svs.getD i 0) (self.m_svs.getD j 0)),
       { self with objective :=
          ∑ i in Finset.range n, -(self.m_alpha.getD i 0) * L.get_label (self.m_svs.getD i 0) +
          ∑ i in Finset.range n, ∑ j in Finset.range n,
            0.5 * self.m_alpha.getD i 0 * self.m_alpha.getD j 0 *
              K.kernel (self.m_svs.getD i 0) (self.m_svs.getD j 0) }) :=
  ⟨fun _ hi => ⟨get_alpha_of_size hsize hi, get_support_vector_of_size hsize hi⟩,
    dual_objective_eq self L K n hsize hL hK⟩

/-- C1, the example of section 8: for `n = 2`, `alpha = [1, 1]`, labels `1` and
`-1` at the two stored indices and the kernel constantly 1, the dual routine
returns 2 and stores 2 as the objective. -/
theorem dual_objective_formula_witness :
    ModelOfSize exampleModel 2 ∧ exampleModel.labels = some exampleLabels ∧
    exampleModel.kernel = some exampleKernel ∧
    exampleModel.m_alpha = [1, 1] ∧
    exampleLabels.get_label (exampleModel.m_svs.getD 0 0) = 1 ∧
    exampleLabels.get_label (exampleModel.m_svs.getD 1 0) = -1 ∧
    (compute_svm_dual_objective exampleModel).1 = .ok 2 ∧
    (compute_svm_dual_objective exampleModel).2.objective = 2 := by
  have h := (dual_objective_formula exampleModel exampleLabels exampleKernel 2
    exampleModel_size rfl rfl).2
  refine ⟨exampleModel_size, rfl, rfl, rfl, rfl, rfl, ?_, ?_⟩
  · rw [h]
    simp [Finset.sum_range_succ, exampleModel, exampleLabels, exampleKernel]
    norm_num
  · rw [h]
    simp [Finset.sum_range_succ, exampleModel, exampleLabels, exampleKernel]
    norm_num

/-- C2: on a model with `n` support vectors and with labels and kernel attached,
`compute_svm_primal_objective` returns `regularizer + loss`, where `regularizer`
is the sum over `i, j < n` of `-0.5 * alpha(i) * alpha(j) * kernel(idx(i), idx(j))`
and `loss` is the sum over `i < n` of
`-C1 * max(0, 1 - label(idx(i)) * classify(idx(i)))`; the value is the same for
every content of the field `C2`. -/
theorem primal_objective_formula (self : CSVM) (L : CLabels) (K : CKernel)
    (classify_example : Int → ℚ) (n : Nat)
    (hsize : ModelOfSize self n) (hL : self.labels = some L) (hK : self.kernel = some K) :
    (compute_svm_primal_objective self classify_example).1 =
      .ok ((∑ i in Finset.range n, ∑ j in Finset.range n,
            -0.5 * self.m_alpha.getD i 0 * self.m_alpha.getD j 0 *
              K.kernel (self.m_svs.getD i 0) (self.m_svs.getD j 0)) +
          ∑ i in Finset.range n,
            -self.C1 * max 0 (1 - L.get_label (self.m_svs.getD i 0) *
              classify_example (self.m_svs.getD i 0))) ∧
    ∀ c : ℚ, (compute_svm_primal_objective { self with C2 := c } classify_example).1 =
      (compute_svm_primal_objective self classify_example).1 := by
  have main : ∀ s : CSVM, ModelOfSize s n → s.labels = some L → s.kernel = some K →
      (compute_svm_primal_objective s classify_example).1 =
      .ok ((∑ i in Finset.range n, ∑ j in Finset.range n,
            -0.5 * s.m_alpha.getD i 0 * s.m_alpha.getD j 0 *
              K.kernel (s.m_svs.getD i 0) (s.m_svs.getD j 0)) +
          ∑ i in Finset.range n,
            -s.C1 * max 0 (1 - L.get_label (s.m_svs.getD i 0) *
              classify_example (s.m_svs.getD i 0))) := by
    intro s hs hLs hKs
    have hns : get_num_support_vectors s = (n : Int) := hs.1
    simp only [compute_svm_primal_objective, hLs, hKs, hns, Int.toNat_ofNat,
      primalOuter_loop hs L K classify_example]
    simp only [neg_mul]
  refine ⟨main self hsize hL hK, fun c => ?_⟩
  rw [main self hsize hL hK, main { self with C2 := c } hsize hL hK]

/-- C2 at the example model of section 8 with the classifier constantly 0: the
regularizer is -2, the loss is -2 and the primal routine returns -4. -/
theorem primal_objective_formula_witness :
    ModelOfSize exampleModel 2 ∧ exampleModel.labels = some exampleLabels ∧
    exampleModel.kernel = some exampleKernel ∧
    (compute_svm_primal_objective exampleModel (fun _ => 0)).1 = .ok (-4) := by
  have h := (primal_objective_formula exampleModel exampleLabels exampleKernel (fun _ => 0) 2
    exampleModel_size rfl rfl).1
  refine ⟨exampleModel_size, rfl, rfl, ?_⟩
  rw [h]
  simp [Finset.sum_range_succ, exampleModel, exampleLabels, exampleKernel, CSVM.newC, set_kernel,
    set_labels, set_C]
  norm_num

/-- C3: `compute_svm_primal_objective` returns the object state exactly as it
received it, the stored objective included, for every state and every
classification collaborator, on success and on failure; the dual routine on the
example model of section 8 changes the stored objective (from 0 to 2). -/
theorem primal_objective_frame :
    (∀ (self : CSVM) (classify_example : Int → ℚ),
      (compute_svm_primal_objective self classify_example).2 = self) ∧
    exampleModel.objective = 0 ∧
    (compute_svm_dual_objective exampleModel).2.objective = 2 ∧
    (compute_svm_dual_objective exampleModel).2.objective ≠ exampleModel.objective := by
  refine ⟨?_, rfl, ?_, ?_⟩
  · intro self cls
    unfold compute_svm_primal_objective
    split
    · simp only []
      split <;> rfl
    · rfl
  · rw [exampleModel_dual]
  · rw [exampleModel_dual]
    show (2 : ℚ) ≠ 0
    norm_num

/-- C4: each of the two objective routines fails with a precondition error if
and only if the labels collaborator or the kernel collaborator is absent, and
when the dual routine fails this way the object state, the stored objective
included, is what it was before the call. -/
theorem objective_precondition (self : CSVM) (classify_example : Int → ℚ) :
    ((compute_svm_dual_objective self).1 = .error .PreconditionError ↔
      (self.labels = none ∨ self.kernel = none)) ∧
    ((compute_svm_primal_objective self classify_example).1 = .error .PreconditionError ↔
      (self.labels = none ∨ self.kernel = none)) ∧
    ((self.labels = none ∨ self.kernel = none) →
      (compute_svm_dual_objective self).2 = self ∧
      (compute_svm_dual_objective self).2.objective = self.objective) := by
  cases hL : self.labels with
  | none =>
    simp [compute_svm_dual_objective, compute_svm_primal_objective, hL]
  | some L =>
    cases hK : self.kernel with
    | none =>
      simp [compute_svm_dual_objective, compute_svm_primal_objective, hL, hK]
    | some K =>
      refine ⟨?_, ?_, ?_⟩
      · simp only [compute_svm_dual_objective, hL, hK]
        constructor
        · intro h
          split at h
          · simp at h
          · next e s he =>
            have := forLoop_error _ (fun e => e = .IndexOutOfRange)
              (fun i s e s' => dualOuterBody_error L K _ i s e s') _ _ _ e s he
            simp at h; simp [h] at this
        · simp
      · simp only [compute_svm_primal_objective, hL, hK]
        constructor
        · intro h
          split at h
          · simp at h
          · next e s he =>
            have := forLoop_error _ (fun e => e = .IndexOutOfRange)
              (fun i s e s' => primalOuterBody_error self L K classify_example _ i s e s')
              _ _ _ e s he
            simp at h; simp [h] at this
        · simp
      · simp

/-! ## Scanning -/

theorem skipSpace_cons {c : Char} {r : List Char} {e : Bool} (hc : isspace c = false) :
    skipSpace ⟨c :: r, e⟩ = ⟨c :: r, e⟩ := by
  simp [skipSpace, List.dropWhile_cons, hc]

theorem takeWhile_digits {ds : List Char} (hds : ∀ c ∈ ds, isdigit c = true) {c : Char}
    (hc : isdigit c = false) (r : List Char) :
    (ds ++ c :: r).takeWhile isdigit = ds ∧ (ds ++ c :: r).dropWhile isdigit = c :: r := by
  constructor
  · rw [List.takeWhile_append_of_pos hds, List.takeWhile_cons_of_neg (by simp [hc])]; simp
  · rw [List.dropWhile_append_of_pos hds, List.dropWhile_cons_of_neg (by simp [hc])]

theorem isdigit_not_space {c : Char} (h : isdigit c = true) : isspace c = false := by
  simp only [isdigit, Bool.and_eq_true, decide_eq_true_eq] at h
  simp only [isspace, Bool.or_eq_false_iff, decide_eq_false_iff_not]
  have hne : ∀ d : Char, d.toNat < 48 → c ≠ d := by
    intro d hd hcd; subst hcd; omega
  refine ⟨⟨⟨⟨⟨hne _ (by decide), hne _ (by decide)⟩, hne _ (by decide)⟩, hne _ (by decide)⟩,
    hne _ (by decide)⟩, hne _ (by decide)⟩

theorem isdigit_ne {c d : Char} (h : isdigit c = true) (hd : isdigit d = false) : c ≠ d := by
  rintro rfl; simp [h] at hd

/-- A sign in front of digits is dropped by `dropSign` and `hasMinus` tells
whether it is `-`. -/
theorem dropSign_sign (s : Sign) {ds : List Char} (hds : ∀ d ∈ ds, isdigit d = true)
    (hne : ds ≠ []) (r : List Char) :
    dropSign (s.text ++ (ds ++ r)) = ds ++ r ∧
    hasMinus (s.text ++ (ds ++ r)) = decide (s = .minus) ∧
    (∃ c cs, s.text ++ (ds ++ r) = c :: cs ∧ isspace c = false) := by
  obtain ⟨d, ds', rfl⟩ := List.exists_cons_of_ne_nil hne
  have hd : isdigit d = true := hds d (by simp)
  have h1 : d ≠ '-' := isdigit_ne hd (by decide)
  have h2 : d ≠ '+' := isdigit_ne hd (by decide)
  rcases s with _ | _ | _
  · exact ⟨by simp [Sign.text, dropSign, h1, h2], by simp [Sign.text, hasMinus, h1],
      d, _, rfl, isdigit_not_space hd⟩
  · exact ⟨by simp [Sign.text, dropSign], by simp [Sign.text, hasMinus],
      '+', _, rfl, by decide⟩
  · exact ⟨by simp [Sign.text, dropSign], by simp [Sign.text, hasMinus],
      '-', _, rfl, by decide⟩

/-- A sign, digits and a character that is not a digit: `%d` reads the sign and
the digits, when their value is an `int32_t`. -/
theorem scan_d_sign (s : Sign) {ds : List Char} (hds : ∀ d ∈ ds, isdigit d = true)
    (hne : ds ≠ []) {x : Char} (hx : isdigit x = false) (r : List Char) (e : Bool)
    (hlo : -2147483648 ≤ (if s = .minus then -(decVal ds : Int) else (decVal ds : Int)))
    (hhi : (if s = .minus then -(decVal ds : Int) else (decVal ds : Int)) < 2147483648) :
    scan_d ⟨s.text ++ (ds ++ x :: r), e⟩ =
      .ok (if s = .minus then -(decVal ds : Int) else (decVal ds : Int)) ⟨x :: r, e⟩ := by
  obtain ⟨h1, h2, c, cs, h3, h4⟩ := dropSign_sign s hds hne (x :: r)
  have htw := takeWhile_digits hds hx r
  have hnil : ds.isEmpty = false := by cases ds <;> simp_all
  have hsk : skipSpace ⟨s.text ++ (ds ++ x :: r), e⟩ = ⟨s.text ++ (ds ++ x :: r), e⟩ := by
    rw [h3]; exact skipSpace_cons h4
  have hne' : (s.text ++ (ds ++ x :: r)).isEmpty = false := by rw [h3]; rfl
  simp only [scan_d, hsk, hne', h1, h2, htw.1, htw.2, hnil, decide_eq_true_eq]
  simp only [Bool.false_eq_true, if_false]
  rw [if_pos ⟨hlo, hhi⟩]
  simp

/-- Digits followed by a character other than `x` and `X` do not start one of
the spellings the model does not cover. -/
theorem specialFloat_digits {ds : List Char} (hds : ∀ d ∈ ds, isdigit d = true)
    (hne : ds ≠ []) {z : Char} (hz : z ≠ 'x' ∧ z ≠ 'X') (zs : List Char) :
    specialFloat (ds ++ z :: zs) = false := by
  obtain ⟨d, ds', rfl⟩ := List.exists_cons_of_ne_nil hne
  have hd : isdigit d = true := hds d (by simp)
  have h1 : d ≠ 'i' := isdigit_ne hd (by decide)
  have h2 : d ≠ 'I' := isdigit_ne hd (by decide)
  have h3 : d ≠ 'n' := isdigit_ne hd (by decide)
  have h4 : d ≠ 'N' := isdigit_ne hd (by decide)
  cases ds' with
  | nil => simp [specialFloat, h1, h2, h3, h4, hz.1, hz.2]
  | cons d' ds'' =>
    have hd' : isdigit d' = true := hds d' (by simp)
    have h5 : d' ≠ 'x' := isdigit_ne hd' (by decide)
    have h6 : d' ≠ 'X' := isdigit_ne hd' (by decide)
    simp [specialFloat, h1, h2, h3, h4, h5, h6]

/-- The fraction scanner on a point, fraction digits and a character that is not
a digit. -/
theorem scanFraction_point {fp r : List Char} {x : Char} (hfp : ∀ d ∈ fp, isdigit d = true)
    (hx : isdigit x = false) : scanFraction ('.' :: (fp ++ x :: r)) = (fp, x :: r) := by
  have htw := takeWhile_digits hfp hx r
  simp [scanFraction, htw.1, htw.2]

/-- The fraction scanner where no point follows. -/
theorem scanFraction_none {r : List Char} {x : Char} (hx : x ≠ '.') :
    scanFraction (x :: r) = ([], x :: r) := by
  simp [scanFraction, hx]

/-- The exponent scanner on a delimiter: there is no exponent. -/
theorem scanExponent_delim (smant : ℚ) (e : Bool) {x : Char} (r : List Char)
    (hx : x ≠ 'e' ∧ x ≠ 'E') : scanExponent smant e (x :: r) = .ok smant ⟨x :: r, e⟩ := by
  simp [scanExponent, hx.1, hx.2]

/-- The exponent scanner on `e`, a sign, digits and a character that is not a
digit. -/
theorem scanExponent_exp (smant : ℚ) (e : Bool) (s : Sign) {ds : List Char} {x : Char}
    (r : List Char) (hds : ∀ d ∈ ds, isdigit d = true) (hne : ds ≠ []) (hx : isdigit x = false) :
    scanExponent smant e ('e' :: (s.text ++ (ds ++ x :: r))) =
      .ok (if s = .minus then smant / (10 : ℚ) ^ decVal ds else smant * (10 : ℚ) ^ decVal ds)
        ⟨x :: r, e⟩ := by
  obtain ⟨h1, h2, -⟩ := dropSign_sign s hds hne (x :: r)
  have htw := takeWhile_digits hds hx r
  have hnil : ds.isEmpty = false := by cases ds <;> simp_all
  simp only [scanExponent, true_or, if_true, h1, h2, htw.1, htw.2, hnil]
  simp

/-- A well-formed float literal is read in full by `%lf`. -/
theorem FloatLit.reads_double (l : FloatLit) (h : l.wf) : ReadsAsDouble l.text l.value := by
  intro c r e hc
  obtain ⟨hne, hip, hfp, hex⟩ := h
  have hcd : isdigit c = false := by rcases hc with rfl | rfl <;> decide
  have hce : c ≠ 'e' ∧ c ≠ 'E' := by rcases hc with rfl | rfl <;> decide
  have hcp : c ≠ '.' := by rcases hc with rfl | rfl <;> decide
  -- the text after the fraction
  have hexp : ∀ smant : ℚ,
      scanExponent smant e (l.expText ++ c :: r) = .ok (l.scale smant) ⟨c :: r, e⟩ := by
    intro smant
    unfold FloatLit.expText FloatLit.scale
    rcases hx : l.expPart with _ | ⟨s, ds⟩
    · simpa using scanExponent_delim smant e r hce
    · have := hex (s, ds) (by simp [hx])
      simpa using scanExponent_exp smant e s r this.2 this.1 hcd
  have hcx : c ≠ 'x' ∧ c ≠ 'X' := by rcases hc with rfl | rfl <;> decide
  have hexhead : ∃ y ys, l.expText ++ c :: r = y :: ys ∧ isdigit y = false ∧ y ≠ '.' ∧
      (y ≠ 'x' ∧ y ≠ 'X') := by
    unfold FloatLit.expText
    rcases l.expPart with _ | ⟨s, ds⟩
    · exact ⟨c, r, rfl, hcd, hcp, hcx⟩
    · exact ⟨'e', _, rfl, by decide, by decide, by decide⟩
  obtain ⟨y, ys, hy, hyd, hyp, hyx⟩ := hexhead
  -- the text after the integer digits
  have hfrac : scanFraction (l.fracText ++ (y :: ys)) = (l.fracDigits, y :: ys) ∧
      ∃ z zs, l.fracText ++ (y :: ys) = z :: zs ∧ isdigit z = false ∧ (z ≠ 'x' ∧ z ≠ 'X') := by
    unfold FloatLit.fracText
    rcases hf : l.fracPart with _ | fp
    · exact ⟨by simpa [FloatLit.fracDigits, hf] using scanFraction_none (r := ys) hyp,
        y, ys, rfl, hyd, hyx⟩
    · have hfp' : ∀ d ∈ fp, isdigit d = true := by
        simpa [FloatLit.fracDigits, hf] using hfp
      exact ⟨by simpa [FloatLit.fracDigits, hf] using scanFraction_point (r := ys) hfp' hyd,
        '.', _, rfl, by decide, by decide⟩
  obtain ⟨hfr, z, zs, hz, hzd, hzx⟩ := hfrac
  have htext : l.text ++ c :: r = l.sign.text ++ (l.intPart ++ z :: zs) := by
    simp only [FloatLit.text, List.append_assoc]; rw [hy, hz]
  obtain ⟨h1, h2, c0, cs0, h3, h4⟩ := dropSign_sign l.sign hip hne (z :: zs)
  have htw := takeWhile_digits hip hzd zs
  have hnil : l.intPart.isEmpty = false := by cases h : l.intPart <;> simp_all
  have hsk : skipSpace ⟨l.sign.text ++ (l.intPart ++ z :: zs), e⟩ =
      ⟨l.sign.text ++ (l.intPart ++ z :: zs), e⟩ := by
    rw [h3]; exact skipSpace_cons h4
  have hne' : (l.sign.text ++ (l.intPart ++ z :: zs)).isEmpty = false := by rw [h3]; rfl
  have hsp := specialFloat_digits hip hne hzx zs
  rw [htext]
  simp only [scan_lf, hsk, hne', h1, h2, hsp, htw.1, htw.2, hnil, Bool.false_and]
  rw [← hz, hfr]
  simp only [Bool.false_eq_true, if_false]
  rw [← hy, hexp]
  simp only [FloatLit.value, decide_eq_true_eq]

/-! ## `load` on well-formed input -/

theorem skipSpace_of_dropWhile {f : FILE} {c : Char} {r : List Char}
    (h : f.buf.dropWhile isspace = c :: r) : skipSpace f = ⟨c :: r, f.eof⟩ := by
  simp [skipSpace, h]

theorem skipSpace_eq {b : List Char} {c : Char} {r : List Char} (e : Bool)
    (h : b.dropWhile isspace = c :: r) : skipSpace ⟨b, e⟩ = ⟨c :: r, e⟩ := by
  simp [skipSpace, h]

theorem fmt_header : parseFormat .plain "%4s\n".toList = [.str (some 4), .space] := by decide
theorem fmt_numsv : parseFormat .plain " numsv=%d; \n".toList =
    [.space, .lit 'n', .lit 'u', .lit 'm', .lit 's', .lit 'v', .lit '=', .int, .lit ';',
      .space, .space] := by decide
theorem fmt_kernel : parseFormat .plain " kernel='%s'; \n".toList =
    [.space, .lit 'k', .lit 'e', .lit 'r', .lit 'n', .lit 'e', .lit 'l', .lit '=',
      .lit (Char.ofNat 39), .str none, .lit (Char.ofNat 39), .lit ';', .space, .space] := by
  decide
theorem fmt_bias : parseFormat .plain " b=%lf; \n".toList =
    [.space, .lit 'b', .lit '=', .dbl, .lit ';', .space, .space] := by decide
theorem fmt_alphas : parseFormat .plain "%8s\n".toList = [.str (some 8), .space] := by decide
theorem fmt_row : parseFormat .plain " [%lf,%d]; \n".toList =
    [.space, .lit '[', .dbl, .lit ',', .int, .lit ']', .lit ';', .space, .space] := by decide
theorem fmt_footer : parseFormat .plain "%2s".toList = [.str (some 2)] := by decide

theorem fscanfAux_lit (c : Char) (ds : List Directive) (xs : List Char) (e : Bool)
    (args : List Arg) :
    fscanfAux (.lit c :: ds) ⟨c :: xs, e⟩ args = fscanfAux ds ⟨xs, e⟩ args := by
  simp [fscanfAux]

theorem fscanfAux_space (ds : List Directive) (f : FILE) (args : List Arg) :
    fscanfAux (.space :: ds) f args = fscanfAux ds (skipSpace f) args := rfl

/-- The `numsv` field followed by further input: no error, the model is
allocated with the count read, the line number advances. -/
theorem load_numsv_good (v : LoadVars) (t : List Char) (k : Int) (ht : ReadsAsInt t k)
    (rest : List Char) (c : Char) (r : List Char)
    (hbuf : v.modelfl.buf.dropWhile isspace = "numsv=".toList ++ (t ++ ';' :: rest))
    (heof : v.modelfl.eof = false) (hrest : rest.dropWhile isspace = c :: r) :
    load_numsv v = (.ok (), { v with
      modelfl := ⟨c :: r, false⟩
      line_number := v.line_number + 1
      self := create_new_model v.self k }) := by
  have h1 : skipSpace v.modelfl = ⟨"numsv=".toList ++ (t ++ ';' :: rest), false⟩ := by
    rw [← heof]; exact skipSpace_of_dropWhile hbuf
  have h2 := ht ';' rest false (Or.inl rfl)
  have h3 : skipSpace ⟨rest, false⟩ = ⟨c :: r, false⟩ := skipSpace_eq false hrest
  have h4 : skipSpace ⟨c :: r, false⟩ = ⟨c :: r, false⟩ := by
    apply skipSpace_eq
    have := List.dropWhile_idempotent (p := isspace) (l := rest)
    rw [hrest] at this; exact this
  have hf : fscanf v.modelfl " numsv=%d; \n" = ⟨1, [.int k], ⟨c :: r, false⟩, false⟩ := by
    unfold fscanf; rw [fmt_numsv]
    simp only [fscanfAux_space, h1]
    simp only [String.toList, List.cons_append, List.nil_append, fscanfAux_lit]
    simp only [fscanfAux, h2, List.nil_append, fscanfAux_lit, fscanfAux_space, h3, h4]
    rfl
  simp only [load_numsv, hf, argInt, feof]
  simp

/-- `%Ns` on a token of exactly `N` characters. -/
theorem scan_s_width {f : FILE} {n : Nat} {tok rest : List Char}
    (hbuf : f.buf.dropWhile isspace = tok ++ rest) (hlen : tok.length = n) (hne : tok ≠ [])
    (htok : ∀ c ∈ tok, isspace c = false) :
    scan_s (some n) f = .ok tok ⟨rest, f.eof⟩ := by
  obtain ⟨c, cs, hc⟩ := List.exists_cons_of_ne_nil hne
  have h1 : skipSpace f = ⟨tok ++ rest, f.eof⟩ := by
    have : tok ++ rest = c :: (cs ++ rest) := by rw [hc]; rfl
    rw [this] at hbuf ⊢; exact skipSpace_of_dropWhile hbuf
  have h2 : (tok ++ rest).take n = tok := by
    rw [← hlen]; exact List.take_left' rfl
  have h3 : tok.takeWhile (fun c => !isspace c) = tok := by
    rw [List.takeWhile_eq_self_iff]; intro c hc; simp [htok c hc]
  unfold scan_s
  rw [h1]
  have h4 : (tok ++ rest) = c :: (cs ++ rest) := by rw [hc]; rfl
  simp only []
  rw [h4]
  simp only []
  rw [← h4, h2, h3, List.drop_left' rfl, hlen]
  simp

/-- `%s` on a token that white space follows. -/
theorem scan_s_token {f : FILE} {tok rest : List Char} {w : Char}
    (hbuf : f.buf.dropWhile isspace = tok ++ w :: rest) (hne : tok ≠ [])
    (htok : ∀ c ∈ tok, isspace c = false) (hw : isspace w = true) :
    scan_s none f = .ok tok ⟨w :: rest, f.eof⟩ := by
  obtain ⟨c, cs, hc⟩ := List.exists_cons_of_ne_nil hne
  have h4 : (tok ++ w :: rest) = c :: (cs ++ w :: rest) := by rw [hc]; rfl
  have h1 : skipSpace f = ⟨tok ++ w :: rest, f.eof⟩ := by
    rw [h4] at hbuf ⊢; exact skipSpace_of_dropWhile hbuf
  have h3 : (tok ++ w :: rest).takeWhile (fun c => !isspace c) = tok := by
    rw [List.takeWhile_append_of_pos (by intro c hc; simp [htok c hc]),
      List.takeWhile_cons_of_neg (by simp [hw])]
    simp
  unfold scan_s
  rw [h1]
  simp only []
  rw [h4]
  simp only []
  rw [← h4, h3, List.drop_left' rfl]
  simp

/-- The header followed by further input: no error, the line number advances. -/
theorem load_header_good (v : LoadVars) (rest : List Char) (c : Char) (r : List Char)
    (hbuf : v.modelfl.buf.dropWhile isspace = "%SVM".toList ++ rest)
    (heof : v.modelfl.eof = false) (hrest : rest.dropWhile isspace = c :: r) :
    load_header v = (.ok (), { v with
      modelfl := ⟨c :: r, false⟩
      line_number := v.line_number + 1 }) := by
  have h2 := scan_s_width (n := 4) hbuf rfl (by decide) (by decide)
  have h3 : skipSpace ⟨rest, false⟩ = ⟨c :: r, false⟩ := skipSpace_eq false hrest
  have hf : fscanf v.modelfl "%4s\n" = ⟨1, [.str "%SVM".toList], ⟨c :: r, false⟩, false⟩ := by
    unfold fscanf; rw [fmt_header]
    simp only [fscanfAux, h2, heof, h3]
    rfl
  simp only [load_header, hf, argStr]
  simp [EOF, cstr]

/-- The opening of the rows followed by further input: no error, the line number
advances. -/
theorem load_alphas_good (v : LoadVars) (rest : List Char) (c : Char) (r : List Char)
    (hbuf : v.modelfl.buf.dropWhile isspace = "alphas=[".toList ++ rest)
    (heof : v.modelfl.eof = false) (hrest : rest.dropWhile isspace = c :: r) :
    load_alphas v = (.ok (), { v with
      modelfl := ⟨c :: r, false⟩
      line_number := v.line_number + 1 }) := by
  have h2 := scan_s_width (n := 8) hbuf rfl (by decide) (by decide)
  have h3 : skipSpace ⟨rest, false⟩ = ⟨c :: r, false⟩ := skipSpace_eq false hrest
  have hf : fscanf v.modelfl "%8s\n" = ⟨1, [.str "alphas=[".toList], ⟨c :: r, false⟩, false⟩ := by
    unfold fscanf; rw [fmt_alphas]
    simp only [fscanfAux, h2, heof, h3]
    rfl
  simp only [load_alphas, hf, argStr]
  simp [EOF, cstr]

/-- The closing of the rows: no error, nothing after it is read. -/
theorem load_footer_good (v : LoadVars) (rest : List Char)
    (hbuf : v.modelfl.buf.dropWhile isspace = "];".toList ++ rest)
    (heof : v.modelfl.eof = false) :
    load_footer v = (.ok (), { v with
      modelfl := ⟨rest, false⟩
      line_number := v.line_number + 1 }) := by
  have h2 := scan_s_width (n := 2) hbuf rfl (by decide) (by decide)
  have hf : fscanf v.modelfl "%2s" = ⟨1, [.str "];".toList], ⟨rest, false⟩, false⟩ := by
    unfold fscanf; rw [fmt_footer]
    simp only [fscanfAux, h2, heof]
    rfl
  simp only [load_footer, hf, argStr]
  simp [EOF, cstr]

/-- What scanning the kernel field assigns on a name without white space,
followed by white space: the conversion `%s` takes the name and the closing
quote and semicolon with it, the quote of the format then fails to match, and
one item has been assigned. -/
theorem fscanf_kernel_good (f : FILE) (name rest : List Char) (w : Char)
    (hname : ∀ c ∈ name, isspace c = false) (hw : isspace w = true)
    (hbuf : f.buf.dropWhile isspace =
      "kernel='".toList ++ (name ++ "';".toList ++ w :: rest))
    (heof : f.eof = false) :
    fscanf f " kernel='%s'; \n" =
      ⟨1, [.str (name ++ "';".toList)], ⟨w :: rest, false⟩, false⟩ := by
  have h1 : skipSpace f =
      ⟨"kernel='".toList ++ (name ++ "';".toList ++ w :: rest), false⟩ := by
    rw [← heof]; exact skipSpace_of_dropWhile hbuf
  have h2 : scan_s none ⟨name ++ "';".toList ++ w :: rest, false⟩ =
      .ok (name ++ "';".toList) ⟨w :: rest, false⟩ := by
    refine scan_s_token (f := ⟨name ++ "';".toList ++ w :: rest, false⟩) ?_ (by simp) ?_ hw
    · show (name ++ "';".toList ++ w :: rest).dropWhile isspace = _
      cases name with
      | nil => rfl
      | cons a as =>
        simp only [List.cons_append]
        rw [List.dropWhile_cons_of_neg (by simp [hname a (by simp)])]
    · intro c hc
      rcases List.mem_append.1 hc with h | h
      · exact hname c h
      · exact (by decide : ∀ c ∈ "';".toList, isspace c = false) c h
  have hw' : w ≠ Char.ofNat 39 := by rintro rfl; revert hw; decide
  unfold fscanf; rw [fmt_kernel]
  simp only [fscanfAux_space, h1]
  simp only [String.toList, List.cons_append, List.nil_append]
  rw [fscanfAux_lit, fscanfAux_lit, fscanfAux_lit, fscanfAux_lit, fscanfAux_lit,
    fscanfAux_lit, fscanfAux_lit]
  have : (Char.ofNat 39) = '\'' := rfl
  rw [this, fscanfAux_lit]
  simp only [String.toList, List.cons_append, List.nil_append] at h2
  simp only [fscanfAux, h2, List.nil_append]
  rw [if_neg (by rw [← this]; exact hw')]
  rfl

/-- The kernel field on a name without white space, followed by white space: no
error, when the item read by `%s` (the name with the closing quote and
semicolon) and its terminating NUL fit `char_buffer`. -/
theorem load_kernel_good (v : LoadVars) (name rest : List Char) (w : Char)
    (hname : ∀ c ∈ name, isspace c = false) (hw : isspace w = true)
    (hbuf : v.modelfl.buf.dropWhile isspace =
      "kernel='".toList ++ (name ++ "';".toList ++ w :: rest))
    (heof : v.modelfl.eof = false) (hfit : (name ++ "';".toList).length < 1024) :
    load_kernel v = (.ok (), { v with
      modelfl := ⟨w :: rest, false⟩
      line_number := v.line_number + 1 }) := by
  have hf := fscanf_kernel_good v.modelfl name rest w hname hw hbuf heof
  have hfit' : ¬ 1024 ≤ (name ++ "';".toList).length := by omega
  have harg : argStr [Arg.str (name ++ "';".toList)] 0 [] = name ++ "';".toList := rfl
  simp only [load_kernel, hf, feof, harg]
  rw [if_neg hfit']
  simp

/-- The kernel field on a name without white space of 1022 characters or more:
the item read by `%s` and its terminating NUL do not fit `char_buffer`. -/
theorem load_kernel_overflow (v : LoadVars) (name rest : List Char) (w : Char)
    (hname : ∀ c ∈ name, isspace c = false) (hw : isspace w = true)
    (hbuf : v.modelfl.buf.dropWhile isspace =
      "kernel='".toList ++ (name ++ "';".toList ++ w :: rest))
    (heof : v.modelfl.eof = false) (hlong : 1022 ≤ name.length) :
    (load_kernel v).1 = .error .overflow := by
  have hf := fscanf_kernel_good v.modelfl name rest w hname hw hbuf heof
  have hfit' : 1024 ≤ (name ++ "';".toList).length := by
    rw [List.length_append]
    show 1024 ≤ name.length + 2
    omega
  have harg : argStr [Arg.str (name ++ "';".toList)] 0 [] = name ++ "';".toList := rfl
  simp only [load_kernel, hf, harg]
  rw [if_pos hfit']

/-- The bias field followed by further input: no error, the bias is set to the
value read, the line number advances. -/
theorem load_bias_good (v : LoadVars) (t : List Char) (b : ℚ) (ht : ReadsAsDouble t b)
    (rest : List Char) (c : Char) (r : List Char)
    (hbuf : v.modelfl.buf.dropWhile isspace = "b=".toList ++ (t ++ ';' :: rest))
    (heof : v.modelfl.eof = false) (hrest : rest.dropWhile isspace = c :: r) :
    load_bias v = (.ok (), { v with
      modelfl := ⟨c :: r, false⟩
      line_number := v.line_number + 1
      self := set_bias v.self b }) := by
  have h1 : skipSpace v.modelfl = ⟨"b=".toList ++ (t ++ ';' :: rest), false⟩ := by
    rw [← heof]; exact skipSpace_of_dropWhile hbuf
  have h2 := ht ';' rest false (Or.inr rfl)
  have h3 : skipSpace ⟨rest, false⟩ = ⟨c :: r, false⟩ := skipSpace_eq false hrest
  have h4 : skipSpace ⟨c :: r, false⟩ = ⟨c :: r, false⟩ := by
    apply skipSpace_eq
    have := List.dropWhile_idempotent (p := isspace) (l := rest)
    rw [hrest] at this; exact this
  have hf : fscanf v.modelfl " b=%lf; \n" = ⟨1, [.dbl b], ⟨c :: r, false⟩, false⟩ := by
    unfold fscanf; rw [fmt_bias]
    simp only [fscanfAux_space, h1]
    simp only [String.toList, List.cons_append, List.nil_append, fscanfAux_lit]
    simp only [fscanfAux, h2, List.nil_append, fscanfAux_lit, fscanfAux_space, h3, h4]
    rfl
  simp only [load_bias, hf, argDbl, feof]
  simp

/-- What scanning a well-formed row followed by further input assigns and
leaves. -/
theorem fscanf_row_good (f : FILE) (ta ti : List Char) (a : ℚ) (i : Int)
    (hta : ReadsAsDouble ta a) (hti : ReadsAsInt ti i)
    (rest : List Char) (c : Char) (r : List Char)
    (hbuf : f.buf.dropWhile isspace = '[' :: (ta ++ ',' :: (ti ++ ']' :: ';' :: rest)))
    (heof : f.eof = false) (hrest : rest.dropWhile isspace = c :: r) :
    fscanf f " [%lf,%d]; \n" = ⟨2, [.dbl a, .int i], ⟨c :: r, false⟩, false⟩ := by
  have h1 : skipSpace f = ⟨'[' :: (ta ++ ',' :: (ti ++ ']' :: ';' :: rest)), false⟩ := by
    rw [← heof]; exact skipSpace_of_dropWhile hbuf
  have h2 := hta ',' (ti ++ ']' :: ';' :: rest) false (Or.inl rfl)
  have h2' := hti ']' (';' :: rest) false (Or.inr rfl)
  have h3 : skipSpace ⟨rest, false⟩ = ⟨c :: r, false⟩ := skipSpace_eq false hrest
  have h4 : skipSpace ⟨c :: r, false⟩ = ⟨c :: r, false⟩ := by
    apply skipSpace_eq
    have := List.dropWhile_idempotent (p := isspace) (l := rest)
    rw [hrest] at this; exact this
  unfold fscanf; rw [fmt_row]
  simp only [fscanfAux_space, h1, fscanfAux_lit]
  simp only [fscanfAux, h2, h2', List.nil_append, List.cons_append, fscanfAux_lit,
    fscanfAux_space, h3, h4]
  simp [scanfReturn]

/-- One round of the loop on a well-formed row followed by further input. -/
theorem load_row_good (v : LoadVars) (q : RowSpec) (hq : q.reads)
    (rest : List Char) (c : Char) (r : List Char)
    (hbuf : v.modelfl.buf.dropWhile isspace =
      '[' :: (q.alphaText ++ ',' :: (q.indexText ++ ']' :: ';' :: rest)))
    (heof : v.modelfl.eof = false) (hrest : rest.dropWhile isspace = c :: r)
    (i : Nat) (hi : (i : Int) < v.self.num_svs) (ha : i < v.self.m_alpha.length)
    (hs : i < v.self.m_svs.length) :
    load_row (i : Int) v = (.ok (), { v with
      modelfl := ⟨c :: r, false⟩
      line_number := v.line_number + 1
      self := { v.self with
        m_svs := v.self.m_svs.set i q.index
        m_alpha := v.self.m_alpha.set i q.alpha } }) := by
  have hf := fscanf_row_good v.modelfl _ _ _ _ hq.1 hq.2 rest c r hbuf heof hrest
  simp only [load_row, hf, argDbl, argInt, feof]
  simp [set_support_vector, set_alpha, hi, ha, hs]

/-- Writing values over a run of zeros that follows `pre`. -/
theorem writeFrom_append {α : Type} (z : α) (vals : List α) :
    ∀ (pre : List α) (m : Nat),
      writeFrom (pre ++ List.replicate (vals.length + m) z) pre.length vals =
        pre ++ vals ++ List.replicate m z := by
  induction vals with
  | nil => intro pre m; simp [writeFrom]
  | cons x xs ih =>
    intro pre m
    have h1 : (pre ++ List.replicate ((x :: xs).length + m) z).set pre.length x =
        (pre ++ [x]) ++ List.replicate (xs.length + m) z := by
      have : (x :: xs).length + m = (xs.length + m) + 1 := by simp; omega
      rw [this, List.replicate_succ, List.set_append_right _ _ (le_refl _)]
      simp
    have h2 := ih (pre ++ [x]) m
    simp only [List.length_append, List.length_singleton] at h2
    simp only [writeFrom, h1, h2]
    simp

/-- The loop over rows that are all well-formed, followed by further input. -/
theorem load_rows_good (foot : List Char) (c0 : Char) (r0 : List Char)
    (hfoot : foot.dropWhile isspace = c0 :: r0) :
    ∀ (rows : List RowSpec), (∀ q ∈ rows, q.reads) → ∀ (v : LoadVars) (lo : Nat),
      v.modelfl.eof = false →
      v.modelfl.buf.dropWhile isspace =
        (rowsText (rows.map RowSpec.texts) ++ foot).dropWhile isspace →
      ((lo + rows.length : Nat) : Int) ≤ v.self.num_svs →
      lo + rows.length ≤ v.self.m_alpha.length →
      lo + rows.length ≤ v.self.m_svs.length →
      ∃ v' : LoadVars, load_rows rows.length (lo : Int) v = (.ok (), v') ∧
        v'.modelfl.eof = false ∧ v'.modelfl.buf.dropWhile isspace = c0 :: r0 ∧
        v'.result = v.result ∧
        v'.line_number = v.line_number + rows.length ∧
        v'.self = { v.self with
          m_svs := writeFrom v.self.m_svs lo (rows.map RowSpec.index)
          m_alpha := writeFrom v.self.m_alpha lo (rows.map RowSpec.alpha) } := by
  intro rows
  induction rows with
  | nil =>
    intro _ v lo heof hbuf _ _ _
    refine ⟨v, rfl, heof, ?_, rfl, by simp, ?_⟩
    · rw [hbuf]; simpa [rowsText] using hfoot
    · simp [writeFrom]
  | cons q qs ih =>
    intro hq v lo heof hbuf hn ha hs
    simp only [List.length_cons] at hn ha hs
    -- the input left after this row
    have hnext : ∃ c r, ("\n".toList ++ (rowsText (qs.map RowSpec.texts) ++ foot)).dropWhile isspace
        = c :: r ∧
        (rowsText (qs.map RowSpec.texts) ++ foot).dropWhile isspace = c :: r := by
      have h1 : ("\n".toList ++ (rowsText (qs.map RowSpec.texts) ++ foot)).dropWhile isspace =
          (rowsText (qs.map RowSpec.texts) ++ foot).dropWhile isspace := by
        simp only [String.toList, List.cons_append, List.nil_append]
        rw [List.dropWhile_cons_of_pos (by decide)]
      cases qs with
      | nil => exact ⟨c0, r0, by rw [h1]; simpa [rowsText] using hfoot,
          by simpa [rowsText] using hfoot⟩
      | cons q' qs' =>
        refine ⟨'[', _, by rw [h1]; rfl, rfl⟩
    obtain ⟨c, r, hc1, hc2⟩ := hnext
    have hbuf' : v.modelfl.buf.dropWhile isspace =
        '[' :: (q.alphaText ++ ',' :: (q.indexText ++ ']' :: ';' ::
          ("\n".toList ++ (rowsText (qs.map RowSpec.texts) ++ foot)))) := by
      rw [hbuf]
      simp only [List.map_cons, rowsText, rowText, RowSpec.texts, String.toList,
        List.cons_append, List.nil_append, List.append_assoc]
      rw [List.dropWhile_cons_of_pos (by decide), List.dropWhile_cons_of_neg (by decide)]
    have hstep := load_row_good v q (hq q (by simp)) _ c r hbuf' heof hc1 lo
      (by omega) (by omega) (by omega)
    obtain ⟨v', hv', h1, h2, h3, h5, h6⟩ := ih (fun q' hq' => hq q' (by simp [hq']))
      { v with
        modelfl := ⟨c :: r, false⟩
        line_number := v.line_number + 1
        self := { v.self with
          m_svs := v.self.m_svs.set lo q.index
          m_alpha := v.self.m_alpha.set lo q.alpha } } (lo + 1) rfl
      (by show (c :: r).dropWhile isspace = _
          rw [hc2]
          have := List.dropWhile_idempotent (p := isspace)
            (l := rowsText (qs.map RowSpec.texts) ++ foot)
          rw [hc2] at this; exact this)
      (by simp only []; omega) (by simp only [List.length_set]; omega)
      (by simp only [List.length_set]; omega)
    refine ⟨v', ?_, h1, h2, h3, ?_, ?_⟩
    · simp only [List.length_cons, load_rows, hstep]
      rw [← hv']; push_cast; rfl
    · rw [h5]; simp only [List.length_cons]; push_cast; ring
    · rw [h6]; simp [writeFrom]

theorem thenStep_ok (v : LoadVars) (step : LoadVars → Except LoadStop Unit × LoadVars) :
    thenStep (.ok (), v) step = step v := rfl

/-- The fields before the rows, in the layout `save` writes and followed by
further input: nothing is raised, the model is allocated with the count read,
the bias is set, and the line number is 6. -/
theorem load_fields_good (self : CSVM) (numsv : List Char) (k : Int)
    (hk : ReadsAsInt numsv k) (name : List Char)
    (hname : ∀ c ∈ name, isspace c = false) (hfit : (name ++ "';".toList).length < 1024)
    (bt : List Char) (b : ℚ)
    (hb : ReadsAsDouble bt b) (rest : List Char) (c : Char) (r : List Char)
    (hrest : rest.dropWhile isspace = c :: r) :
    thenStep (thenStep (thenStep (thenStep (load_header
      (LoadVars.init self ⟨fieldsText numsv name bt rest, false⟩)) load_numsv) load_kernel)
      load_bias) load_alphas =
      (.ok (), { self := set_bias (create_new_model self k) b
                 modelfl := ⟨c :: r, false⟩
                 result := true
                 line_number := 6 }) := by
  have e1 := load_header_good (LoadVars.init self ⟨fieldsText numsv name bt rest, false⟩)
    ('\n' :: numsvText numsv name bt rest) 'n'
    ("umsv=".toList ++ (numsv ++ (";\n".toList ++ kernelText name bt rest)))
    rfl rfl rfl
  have e2 := load_numsv_good
    { self := self, modelfl := ⟨numsvText numsv name bt rest, false⟩,
      result := true, line_number := 1 + 1 }
    numsv k hk ('\n' :: kernelText name bt rest) 'k'
    ("ernel='".toList ++ (name ++ ("';\n".toList ++ biasText bt rest)))
    rfl rfl rfl
  have hk3 : (kernelText name bt rest).dropWhile isspace =
      "kernel='".toList ++ (name ++ "';".toList ++ '\n' :: biasText bt rest) := by
    have : kernelText name bt rest =
        'k' :: ("ernel='".toList ++ (name ++ ("';\n".toList ++ biasText bt rest))) := rfl
    rw [this, List.dropWhile_cons_of_neg (by decide)]
    simp [List.append_assoc]
  have e3 := load_kernel_good
    { self := create_new_model self k, modelfl := ⟨kernelText name bt rest, false⟩,
      result := true, line_number := 1 + 1 + 1 }
    name (biasText bt rest) '\n'
    hname (by decide) hk3 rfl hfit
  have e4 := load_bias_good
    { self := create_new_model self k, modelfl := ⟨'\n' :: biasText bt rest, false⟩,
      result := true, line_number := 1 + 1 + 1 + 1 }
    bt b hb ('\n' :: alphasText rest) 'a' ("lphas=[\n".toList ++ rest)
    rfl rfl rfl
  have e5 := load_alphas_good
    { self := set_bias (create_new_model self k) b,
      modelfl := ⟨alphasText rest, false⟩, result := true,
      line_number := 1 + 1 + 1 + 1 + 1 }
    ('\n' :: rest) c r rfl rfl (by rw [List.dropWhile_cons_of_pos (by decide)]; exact hrest)
  have e1' : ('n' :: ("umsv=".toList ++ (numsv ++ (";\n".toList ++ kernelText name bt rest)))) =
      numsvText numsv name bt rest := rfl
  have e2' : ('k' :: ("ernel='".toList ++ (name ++ ("';\n".toList ++ biasText bt rest)))) =
      kernelText name bt rest := rfl
  have e4' : ('a' :: ("lphas=[\n".toList ++ rest)) = alphasText rest := rfl
  simp only [e1', e2', e4', LoadVars.init] at e1 e2 e3 e4 e5 ⊢
  rw [e1, thenStep_ok, e2, thenStep_ok, e3, thenStep_ok, e4, thenStep_ok, e5]; norm_num

/-- The array of a fresh model after every entry has been written. -/
theorem writeFrom_full {α : Type} (z : α) (vals : List α) :
    writeFrom (List.replicate vals.length z) 0 vals = vals := by
  have h := writeFrom_append z vals [] 0
  simpa using h

/-- The result of `load` on a model text that declares as many support vectors as
it has rows, with a kernel token that fits `char_buffer`: nothing is raised, the
rows are stored in order, and the stream is left after the closing `];`. -/
theorem load_modelText (self : CSVM) (numsv : List Char) (name : List Char)
    (hname : ∀ c ∈ name, isspace c = false) (hfit : (name ++ "';".toList).length < 1024)
    (bt : List Char) (b : ℚ) (hb : ReadsAsDouble bt b)
    (rows : List RowSpec) (hrows : ∀ q ∈ rows, q.reads)
    (hk : ReadsAsInt numsv (rows.length : Int)) (tail : List Char) :
    load self ⟨modelText numsv name bt (rows.map RowSpec.texts) tail, false⟩ =
      { ret := .ok true
        self := { self with
          num_svs := (rows.length : Int)
          m_alpha := rows.map RowSpec.alpha
          m_svs := rows.map RowSpec.index
          m_bias := b
          svm_loaded := true }
        modelfl := ⟨tail, false⟩ } := by
  have hfoot : ("];".toList ++ tail).dropWhile isspace = ']' :: (';' :: tail) := rfl
  have hrowsNext : ∃ c r, (rowsText (rows.map RowSpec.texts) ++ ("];".toList ++ tail)).dropWhile
      isspace = c :: r := by
    cases rows with
    | nil => exact ⟨']', _, rfl⟩
    | cons q qs => exact ⟨'[', _, rfl⟩
  obtain ⟨c5, r5, h5⟩ := hrowsNext
  have hpre := load_fields_good self numsv _ hk name hname hfit bt b hb _ c5 r5 h5
  obtain ⟨v1, hl1, g1, g2, g3, g5, g6⟩ := load_rows_good ("];".toList ++ tail) ']' (';' :: tail)
    hfoot rows hrows
    { self := set_bias (create_new_model self ((rows.length : Nat) : Int)) b,
      modelfl := ⟨c5 :: r5, false⟩, result := true, line_number := 6 } 0 rfl
    (by show (c5 :: r5).dropWhile isspace = _
        rw [h5]
        have := List.dropWhile_idempotent (p := isspace)
          (l := rowsText (rows.map RowSpec.texts) ++ ("];".toList ++ tail))
        rw [h5] at this; exact this)
    (by show ((0 + rows.length : Nat) : Int) ≤ ((rows.length : Nat) : Int); omega)
    (by show 0 + rows.length ≤ (List.replicate ((rows.length : Nat) : Int).toNat (0 : ℚ)).length
        rw [List.length_replicate, Int.toNat_ofNat]; omega)
    (by show 0 + rows.length ≤ (List.replicate ((rows.length : Nat) : Int).toNat (0 : Int)).length
        rw [List.length_replicate, Int.toNat_ofNat]; omega)
  rw [Nat.cast_zero] at hl1
  have hfootv := load_footer_good v1 tail g2 g1
  have hnum : (get_num_support_vectors
      (set_bias (create_new_model self ((rows.length : Nat) : Int)) b)).toNat =
      rows.length := Int.toNat_ofNat _
  have hvals_a : v1.self.m_alpha = rows.map RowSpec.alpha := by
    rw [g6]
    have := writeFrom_full (0 : ℚ) (rows.map RowSpec.alpha)
    simp only [List.length_map] at this
    show writeFrom (List.replicate ((rows.length : Nat) : Int).toNat (0 : ℚ)) 0 _ = _
    rw [Int.toNat_ofNat]; exact this
  have hvals_s : v1.self.m_svs = rows.map RowSpec.index := by
    rw [g6]
    have := writeFrom_full (0 : Int) (rows.map RowSpec.index)
    simp only [List.length_map] at this
    show writeFrom (List.replicate ((rows.length : Nat) : Int).toNat (0 : Int)) 0 _ = _
    rw [Int.toNat_ofNat]; exact this
  have hres : v1.result = true := g3
  have hload : load self ⟨modelText numsv name bt (rows.map RowSpec.texts) tail, false⟩ =
      { ret := .ok v1.result
        self := { v1.self with svm_loaded := v1.result }
        modelfl := ⟨tail, false⟩ } := by
    unfold load load_body modelText
    simp only [hpre, thenStep_ok, hnum, hl1, hfootv]
  rw [hload, hres]
  have e : v1.self = { set_bias (create_new_model self ((rows.length : Nat) : Int)) b with
      m_svs := rows.map RowSpec.index
      m_alpha := rows.map RowSpec.alpha } := by
    rw [← hvals_a, ← hvals_s, g6]
  rw [e]
  simp [set_bias, create_new_model]

/-! ## `load` on any input: what an error leaves behind -/

/-- The header step on input that does not continue, after leading white space,
with `%SVM`: the error is raised with the current line number, and the object is
as it was. -/
theorem load_header_mismatch (v : LoadVars)
    (h : (v.modelfl.buf.dropWhile isspace).take 4 ≠ "%SVM".toList) :
    (load_header v).1 = .error (.formatError v.line_number) ∧ (load_header v).2.self = v.self := by
  unfold load_header fscanf
  rw [fmt_header]
  simp only [fscanfAux]
  cases hb : (skipSpace v.modelfl).buf with
  | nil =>
    have : scan_s (some 4) v.modelfl = .inputFail (skipSpace v.modelfl) := by
      simp [scan_s, hb]
    simp [this, inputFailure, EOF, SG_ERROR]
  | cons c cs =>
    have hscan : scan_s (some 4) v.modelfl =
        .ok (((c :: cs).take 4).takeWhile (fun c => !isspace c))
          ⟨(c :: cs).drop (((c :: cs).take 4).takeWhile (fun c => !isspace c)).length,
            (skipSpace v.modelfl).eof ||
              (((c :: cs).drop (((c :: cs).take 4).takeWhile (fun c => !isspace c)).length).isEmpty
                && some 4 != some (((c :: cs).take 4).takeWhile (fun c => !isspace c)).length)⟩ := by
      simp only [scan_s, hb]
    have hne : cstr ((((c :: cs).take 4).takeWhile (fun c => !isspace c)).take 4) ≠
        "%SVM".toList := by
      intro heq
      apply h
      have hbuf : v.modelfl.buf.dropWhile isspace = c :: cs := hb
      rw [hbuf]
      have p1 : "%SVM".toList <+: (c :: cs).take 4 := by
        rw [← heq]
        exact ((List.takeWhile_prefix _).trans (List.take_prefix _ _)).trans
          (List.takeWhile_prefix _)
      have hlen : ((c :: cs).take 4).length ≤ 4 := by simp
      exact (p1.eq_of_length (le_antisymm p1.length_le (by simp))).symm
    generalize ((c :: cs).take 4).takeWhile (fun c => !isspace c) = tok at hscan hne
    simp only [hscan, List.nil_append, argStr]
    have hne' : ¬ cstr (List.take 4 tok) = ['%', 'S', 'V', 'M'] := hne
    simp [EOF, hne', SG_ERROR, scanfReturn]

/-- The header step never touches `svm_loaded`, and leaves `result` as it was
unless it raises. -/
theorem load_header_keeps (v : LoadVars) :
    (load_header v).2.self.svm_loaded = v.self.svm_loaded ∧
    ((load_header v).1 = .ok () → (load_header v).2.result = v.result) := by
  unfold load_header
  simp only []
  split_ifs <;> simp [SG_ERROR]

theorem load_numsv_keeps (v : LoadVars) :
    (load_numsv v).2.self.svm_loaded = v.self.svm_loaded ∧
    ((load_numsv v).1 = .ok () → (load_numsv v).2.result = v.result) := by
  unfold load_numsv
  simp only []
  split_ifs <;> simp [SG_ERROR, create_new_model]

theorem load_kernel_keeps (v : LoadVars) :
    (load_kernel v).2.self.svm_loaded = v.self.svm_loaded ∧
    ((load_kernel v).1 = .ok () → (load_kernel v).2.result = v.result) := by
  unfold load_kernel
  simp only []
  split_ifs <;> simp [SG_ERROR]

theorem load_bias_keeps (v : LoadVars) :
    (load_bias v).2.self.svm_loaded = v.self.svm_loaded ∧
    ((load_bias v).1 = .ok () → (load_bias v).2.result = v.result) := by
  unfold load_bias
  simp only []
  split_ifs <;> simp [SG_ERROR, set_bias]

theorem load_alphas_keeps (v : LoadVars) :
    (load_alphas v).2.self.svm_loaded = v.self.svm_loaded ∧
    ((load_alphas v).1 = .ok () → (load_alphas v).2.result = v.result) := by
  unfold load_alphas
  simp only []
  split_ifs <;> simp [SG_ERROR]

theorem load_footer_keeps (v : LoadVars) :
    (load_footer v).2.self.svm_loaded = v.self.svm_loaded ∧
    ((load_footer v).1 = .ok () → (load_footer v).2.result = v.result) := by
  unfold load_footer
  simp only []
  split_ifs <;> simp [SG_ERROR]

theorem set_support_vector_loaded {s s1 : CSVM} {i v : Int}
    (h : set_support_vector s i v = .ok s1) : s1.svm_loaded = s.svm_loaded := by
  unfold set_support_vector at h
  split_ifs at h
  simp only [Except.ok.injEq] at h
  rw [← h]

theorem set_alpha_loaded {s s1 : CSVM} {i : Int} {a : ℚ}
    (h : set_alpha s i a = .ok s1) : s1.svm_loaded = s.svm_loaded := by
  unfold set_alpha at h
  split_ifs at h
  simp only [Except.ok.injEq] at h
  rw [← h]

theorem load_row_keeps (i : Int) (v : LoadVars) :
    (load_row i v).2.self.svm_loaded = v.self.svm_loaded ∧
    ((load_row i v).1 = .ok () → (load_row i v).2.result = v.result) := by
  unfold load_row
  simp only []
  split_ifs
  all_goals first
    | (simp [SG_ERROR]; done)
    | (split
       · simp
       · next s1 h1 =>
         split
         · exact ⟨set_support_vector_loaded h1, by simp⟩
         · next s2 h2 =>
           exact ⟨(set_alpha_loaded h2).trans (set_support_vector_loaded h1), by simp⟩)

theorem load_rows_keeps : ∀ (k : Nat) (i : Int) (v : LoadVars),
    (load_rows k i v).2.self.svm_loaded = v.self.svm_loaded ∧
    ((load_rows k i v).1 = .ok () → (load_rows k i v).2.result = v.result)
  | 0, _, v => ⟨rfl, fun _ => rfl⟩
  | k + 1, i, v => by
    have h := load_row_keeps i v
    simp only [load_rows]
    split
    · next u v1 h1 =>
      rw [h1] at h
      have ih := load_rows_keeps k (i + 1) v1
      exact ⟨ih.1.trans h.1, fun hok => (ih.2 hok).trans (h.2 rfl)⟩
    · next e v1 h1 =>
      rw [h1] at h
      exact ⟨h.1, fun hok => by simp at hok⟩

/-- A step that keeps `svm_loaded` and, unless it raises, `result`, keeps them
after the steps before it as well. -/
theorem thenStep_keeps (v0 : LoadVars) (r : Except LoadStop Unit × LoadVars)
    (step : LoadVars → Except LoadStop Unit × LoadVars)
    (hr : r.2.self.svm_loaded = v0.self.svm_loaded ∧ (r.1 = .ok () → r.2.result = v0.result))
    (hs : ∀ v, (step v).2.self.svm_loaded = v.self.svm_loaded ∧
      ((step v).1 = .ok () → (step v).2.result = v.result)) :
    (thenStep r step).2.self.svm_loaded = v0.self.svm_loaded ∧
    ((thenStep r step).1 = .ok () → (thenStep r step).2.result = v0.result) := by
  obtain ⟨r1, r2⟩ := r
  cases r1 with
  | error e => exact ⟨hr.1, fun hok => by simp [thenStep] at hok⟩
  | ok u =>
    simp only [thenStep]
    exact ⟨(hs r2).1.trans hr.1, fun hok => ((hs r2).2 hok).trans (hr.2 rfl)⟩

/-- The steps of `load` together never touch `svm_loaded`, and leave `result`
as it was unless one of them raises. -/
theorem load_body_keeps (v : LoadVars) :
    (load_body v).2.self.svm_loaded = v.self.svm_loaded ∧
    ((load_body v).1 = .ok () → (load_body v).2.result = v.result) := by
  unfold load_body
  refine thenStep_keeps v _ _ (thenStep_keeps v _ _ (thenStep_keeps v _ _ (thenStep_keeps v _ _
    (thenStep_keeps v _ _ (thenStep_keeps v _ _ (load_header_keeps v) load_numsv_keeps)
    load_kernel_keeps) load_bias_keeps) load_alphas_keeps) ?_) load_footer_keeps
  intro w
  exact load_rows_keeps _ 0 w

/-- The return statement of `load` is reached only with `result` true: `load`
never returns false, on any stream and for any object. -/
theorem load_never_returns_false (self : CSVM) (modelfl : FILE) :
    (load self modelfl).ret ≠ .ok false := by
  have h := load_body_keeps (LoadVars.init self modelfl)
  unfold load
  split
  · simp
  · next u v hv =>
    rw [hv] at h
    have : v.result = true := h.2 rfl
    simp [this]

/-- When `load` raises, `svm_loaded` is what it was before the call. -/
theorem load_raise_keeps_loaded (self : CSVM) (modelfl : FILE) (e : LoadStop)
    (h : (load self modelfl).ret = .error e) :
    (load self modelfl).self.svm_loaded = self.svm_loaded := by
  have hk := load_body_keeps (LoadVars.init self modelfl)
  unfold load at h ⊢
  split
  · next e1 v hv =>
    rw [hv] at hk
    exact hk.1
  · next u v hv =>
    rw [hv] at h
    simp at h

/-! ## `save` and what `load` reads back -/

theorem digitChar_digit (m : Nat) (h : m < 10) :
    isdigit (Nat.digitChar m) = true ∧ digitVal (Nat.digitChar m) = m := by
  interval_cases m <;> exact ⟨by decide, by decide⟩

theorem decVal_append_singleton (ds : List Char) (d : Char) :
    decVal (ds ++ [d]) = 10 * decVal ds + digitVal d := by
  simp [decVal, List.foldl_append]

/-- The digits `Nat.toDigits` writes for `n`: decimal digits, at least one, with
value `n`. -/
theorem toDigitsCore_spec : ∀ (f n : Nat) (ds : List Char), n < f →
    ∃ D : List Char, Nat.toDigitsCore 10 f n ds = D ++ ds ∧ D ≠ [] ∧
      (∀ c ∈ D, isdigit c = true) ∧ decVal D = n
  | 0, n, ds, h => by omega
  | f + 1, n, ds, h => by
    have hd := digitChar_digit (n % 10) (Nat.mod_lt _ (by norm_num))
    by_cases h0 : n / 10 = 0
    · refine ⟨[Nat.digitChar (n % 10)], by simp [Nat.toDigitsCore, h0], by simp, ?_, ?_⟩
      · intro c hc; simp only [List.mem_singleton] at hc; rw [hc]; exact hd.1
      · simp only [decVal, List.foldl_cons, List.foldl_nil, hd.2]; omega
    · obtain ⟨D, h1, h2, h3, h4⟩ := toDigitsCore_spec f (n / 10)
        (Nat.digitChar (n % 10) :: ds) (by omega)
      refine ⟨D ++ [Nat.digitChar (n % 10)], by simp [Nat.toDigitsCore, h0, h1], by simp, ?_, ?_⟩
      · intro c hc
        rcases List.mem_append.1 hc with hc | hc
        · exact h3 c hc
        · simp only [List.mem_singleton] at hc; rw [hc]; exact hd.1
      · rw [decVal_append_singleton, h4, hd.2]; omega

/-- What `fprintf` writes for an `int32_t` with `%d` is read back by `%d` as the
same value. -/
theorem fmt_d_readsAs (v : Int) (h1 : -2147483648 ≤ v) (h2 : v < 2147483648) :
    ReadsAsInt (fmt_d v) v := by
  intro c r e hc
  have hcd : isdigit c = false := by rcases hc with rfl | rfl <;> decide
  obtain ⟨D, hD1, hD2, hD3, hD4⟩ := toDigitsCore_spec (v.natAbs + 1) v.natAbs [] (by omega)
  have hD : Nat.toDigits 10 v.natAbs = D := by simpa [Nat.toDigits] using hD1
  unfold fmt_d
  split
  · next hneg =>
    have := scan_d_sign .minus hD3 hD2 hcd r e
      (by rw [if_pos rfl, hD4]; omega) (by rw [if_pos rfl, hD4]; omega)
    rw [hD]
    simp only [Sign.text, List.singleton_append, if_true, hD4] at this
    rw [List.cons_append, this]
    congr 1; omega
  · next hpos =>
    have := scan_d_sign .none hD3 hD2 hcd r e
      (by rw [if_neg (by decide), hD4]; omega) (by rw [if_neg (by decide), hD4]; omega)
    rw [hD]
    simp only [Sign.text, List.nil_append, hD4] at this
    rw [this]
    simp only [reduceCtorEq, if_false]
    congr 1; omega

/-- The rows of a model as `save` writes them and as `load` reads them back:
the texts of an alpha and of an index together with these values. -/
theorem savedRows_spec (fmt_e : ℚ → List Char) :
    ∀ (as : List ℚ) (is : List Int), as.length = is.length →
      (List.zipWith (fun a i => (⟨fmt_e a, fmt_d i, a, i⟩ : RowSpec)) as is).map RowSpec.alpha = as ∧
      (List.zipWith (fun a i => (⟨fmt_e a, fmt_d i, a, i⟩ : RowSpec)) as is).map RowSpec.index = is ∧
      (List.zipWith (fun a i => (⟨fmt_e a, fmt_d i, a, i⟩ : RowSpec)) as is).length = as.length
  | [], [], _ => by simp
  | a :: as, i :: is, h => by
    have := savedRows_spec fmt_e as is (by simpa using h)
    simp [this.1, this.2.1, this.2.2]
  | [], _ :: _, h => by simp at h
  | _ :: _, [], h => by simp at h

/-- Every row `save` writes holds an alpha and an index of the model. -/
theorem savedRows_mem (fmt_e : ℚ → List Char) :
    ∀ (as : List ℚ) (is : List Int) (q : RowSpec),
      q ∈ List.zipWith (fun a i => (⟨fmt_e a, fmt_d i, a, i⟩ : RowSpec)) as is →
      ∃ a ∈ as, ∃ i ∈ is, q = ⟨fmt_e a, fmt_d i, a, i⟩
  | [], _, q, h => by simp at h
  | _ :: _, [], q, h => by simp at h
  | a :: as, i :: is, q, h => by
    simp only [List.zipWith_cons_cons, List.mem_cons] at h
    rcases h with rfl | h
    · exact ⟨a, by simp, i, by simp, rfl⟩
    · obtain ⟨a', ha', i', hi', rfl⟩ := savedRows_mem fmt_e as is q h
      exact ⟨a', by simp [ha'], i', by simp [hi'], rfl⟩

/-- The loop of `save` appends the rows from position `lo` on. -/
theorem save_rows (self : CSVM) (fmt_e : ℚ → List Char) (n : Nat) (hsize : ModelOfSize self n) :
    ∀ (k lo : Nat) (out : List Char), lo + k = n →
      forLoop (save_row self fmt_e) k (lo : Int) out =
        (.ok (), out ++ rowsText ((List.zipWith (fun a i => (⟨fmt_e a, fmt_d i, a, i⟩ : RowSpec))
          (self.m_alpha.drop lo) (self.m_svs.drop lo)).map RowSpec.texts))
  | 0, lo, out, h => by
    have h1 : self.m_alpha.drop lo = [] := List.drop_eq_nil_of_le (by rw [hsize.2.1]; omega)
    simp [forLoop, h1, rowsText]
  | k + 1, lo, out, h => by
    have hlo : lo < n := by omega
    have ha : lo < self.m_alpha.length := by rw [hsize.2.1]; exact hlo
    have hs : lo < self.m_svs.length := by rw [hsize.2.2]; exact hlo
    have h1 : self.m_alpha.drop lo = self.m_alpha.getD lo 0 :: self.m_alpha.drop (lo + 1) := by
      rw [List.getD_eq_getElem _ _ ha]; exact List.drop_eq_getElem_cons ha
    have h2 : self.m_svs.drop lo = self.m_svs.getD lo 0 :: self.m_svs.drop (lo + 1) := by
      rw [List.getD_eq_getElem _ _ hs]; exact List.drop_eq_getElem_cons hs
    have ih := save_rows self fmt_e n hsize k (lo + 1)
      (out ++ "\t[".toList ++ fmt_e (self.m_alpha.getD lo 0) ++ ",".toList ++
        fmt_d (self.m_svs.getD lo 0) ++ "];\n".toList) (by omega)
    simp only [forLoop, save_row, get_alpha_of_size hsize hlo, get_support_vector_of_size hsize hlo]
    rw [show ((lo : Int) + 1) = ((lo + 1 : Nat) : Int) by push_cast; rfl, ih, h1, h2]
    simp [rowsText, rowText, RowSpec.texts, List.append_assoc]

/-- What `save` writes for a model that satisfies the data-model invariant and
has a kernel attached. -/
theorem save_out (self : CSVM) (K : CKernel) (fmt_e : ℚ → List Char) (n : Nat)
    (hK : self.kernel = some K) (hsize : ModelOfSize self n) (modelfl : List Char) :
    save self fmt_e modelfl =
      { ret := .ok true
        self := self
        out := modelfl ++ modelText (fmt_d n) K.get_name (fmt_e self.m_bias)
          ((List.zipWith (fun a i => (⟨fmt_e a, fmt_d i, a, i⟩ : RowSpec))
            self.m_alpha self.m_svs).map RowSpec.texts) "\n".toList } := by
  have hn : get_num_support_vectors self = (n : Int) := hsize.1
  have hloop := save_rows self fmt_e n hsize n 0
  simp only [Nat.cast_zero, List.drop_zero] at hloop
  unfold save
  simp only [hK, hn, Int.toNat_ofNat, hloop _ (by omega)]
  simp [modelText, fieldsText, numsvText, kernelText, biasText, alphasText, get_bias,
    List.append_assoc]

/-! ## The text grammar -/

theorem fmtDigit_readsAs (x : ℚ) (h : x = 0 ∨ x = 1) : ReadsAsDouble (fmtDigit x) x := by
  rcases h with rfl | rfl
  · have := FloatLit.reads_double (sciLit .plus '0' "0000000000000000".toList .plus "00".toList)
      ⟨by decide, by decide, by decide, by decide⟩
    have hv : (sciLit .plus '0' "0000000000000000".toList .plus "00".toList).value = 0 := by
      with_unfolding_all decide
    have hf : fmtDigit 0 = (sciLit .plus '0' "0000000000000000".toList .plus "00".toList).text := by
      with_unfolding_all decide
    rw [hv] at this
    rw [hf]; exact this
  · have := FloatLit.reads_double (sciLit .plus '1' "0000000000000000".toList .plus "00".toList)
      ⟨by decide, by decide, by decide, by decide⟩
    have hv : (sciLit .plus '1' "0000000000000000".toList .plus "00".toList).value = 1 := by
      with_unfolding_all decide
    have hf : fmtDigit 1 = (sciLit .plus '1' "0000000000000000".toList .plus "00".toList).text := by
      with_unfolding_all decide
    rw [hv] at this
    rw [hf]; exact this

/-! ## The text written by `save`, row by row -/

theorem fmt_d_no_newline (v : Int) : '\n' ∉ fmt_d v := by
  obtain ⟨D, hD1, -, hD3, -⟩ := toDigitsCore_spec (v.natAbs + 1) v.natAbs [] (by omega)
  have hD : Nat.toDigits 10 v.natAbs = D := by simpa [Nat.toDigits] using hD1
  have hn : '\n' ∉ D := fun h => by
    have := hD3 _ h
    revert this; decide
  unfold fmt_d
  split_ifs
  · rw [hD]; intro h
    rcases List.mem_cons.1 h with h | h
    · revert h; decide
    · exact hn h
  · rw [hD]; exact hn

theorem rowsText_range (fmt_e : ℚ → List Char) :
    ∀ (as : List ℚ) (is : List Int), as.length = is.length →
      rowsText ((List.zipWith (fun a i => (⟨fmt_e a, fmt_d i, a, i⟩ : RowSpec)) as is).map
        RowSpec.texts) =
      ((List.range as.length).map (fun i =>
        "\t[".toList ++ fmt_e (as.getD i 0) ++ ",".toList ++ fmt_d (is.getD i 0) ++
          "];\n".toList)).flatten
  | [], [], _ => by simp [rowsText]
  | a :: as, i :: is, h => by
    have ih := rowsText_range fmt_e as is (by simpa using h)
    simp only [List.zipWith_cons_cons, List.map_cons, rowsText, ih, List.length_cons,
      List.range_succ_eq_map, List.flatten_cons, List.map_map]
    congr 1
  | [], _ :: _, h => by simp at h
  | _ :: _, [], h => by simp at h

theorem count_flatten_const (c : Char) (n : Nat) :
    ∀ (L : List (List Char)), (∀ l ∈ L, l.count c = n) → L.flatten.count c = L.length * n
  | [], _ => by simp
  | l :: L, h => by
    have ih := count_flatten_const c n L (fun x hx => h x (List.mem_cons_of_mem _ hx))
    simp only [List.flatten_cons, List.count_append, ih, h l (List.mem_cons_self _ _),
      List.length_cons]
    ring

theorem count_newline_savedText (fmt_e : ℚ → List Char) (k : Nat) (name : List Char)
    (bias : ℚ) (alpha : Nat → ℚ) (index : Nat → Int) (hname : '\n' ∉ name)
    (hfmt : ∀ x, '\n' ∉ fmt_e x) :
    (savedText fmt_e k name bias alpha index).count '\n' = k + 6 := by
  have hrows : ((List.range k).map (fun i =>
      "\t[".toList ++ fmt_e (alpha i) ++ ",".toList ++ fmt_d (index i) ++
        "];\n".toList)).flatten.count '\n' = k * 1 := by
    have := count_flatten_const '\n' 1 ((List.range k).map (fun i =>
      "\t[".toList ++ fmt_e (alpha i) ++ ",".toList ++ fmt_d (index i) ++ "];\n".toList))
      (by
        intro l hl
        obtain ⟨i, -, rfl⟩ := List.mem_map.1 hl
        simp only [List.count_append, List.count_eq_zero_of_not_mem (hfmt _),
          List.count_eq_zero_of_not_mem (fmt_d_no_newline _)]
        decide)
    simpa using this
  unfold savedText
  simp only [List.count_append, hrows, List.count_eq_zero_of_not_mem hname,
    List.count_eq_zero_of_not_mem (hfmt _), List.count_eq_zero_of_not_mem (fmt_d_no_newline _)]
  have h1 : "%SVM\n".toList.count '\n' = 1 := by decide
  have h2 : "numsv=".toList.count '\n' = 0 := by decide
  have h3 : ";\n".toList.count '\n' = 1 := by decide
  have h4 : "kernel='".toList.count '\n' = 0 := by decide
  have h5 : "';\n".toList.count '\n' = 1 := by decide
  have h6 : "b=".toList.count '\n' = 0 := by decide
  have h7 : "alphas=[\n".toList.count '\n' = 1 := by decide
  have h8 : "];\n".toList.count '\n' = 1 := by decide
  rw [h1, h2, h3, h4, h5, h6, h7, h8]
  omega

theorem savedText_eq (self : CSVM) (K : CKernel) (fmt_e : ℚ → List Char) (k : Nat)
    (hsize : ModelOfSize self k) :
    modelText (fmt_d k) K.get_name (fmt_e self.m_bias)
      ((List.zipWith (fun a i => (⟨fmt_e a, fmt_d i, a, i⟩ : RowSpec))
        self.m_alpha self.m_svs).map RowSpec.texts) "\n".toList =
    savedText fmt_e k K.get_name (get_bias self) (fun i => self.m_alpha.getD i 0)
      (fun i => self.m_svs.getD i 0) := by
  have hr := rowsText_range fmt_e self.m_alpha self.m_svs (by rw [hsize.2.1, hsize.2.2])
  rw [hsize.2.1] at hr
  unfold modelText fieldsText numsvText kernelText biasText alphasText savedText
  rw [hr]
  simp [get_bias, List.append_assoc]

theorem digitChar_ne_newline (n : Nat) : Nat.digitChar n ≠ '\n' := by
  rcases Nat.lt_or_ge n 36 with h | h
  · interval_cases n <;> decide
  · have : Nat.digitChar n = '*' := by
      unfold Nat.digitChar
      repeat (rw [if_neg (by omega)])
    rw [this]; decide

theorem fmtDigit_no_newline (x : ℚ) : '\n' ∉ fmtDigit x := by
  intro h
  simp only [fmtDigit, sciLit, FloatLit.text, FloatLit.fracText, FloatLit.expText, Sign.text,
    String.toList, List.mem_append, List.mem_cons, List.mem_singleton] at h
  have := digitChar_ne_newline x.floor.toNat
  have hne : ∀ c : Char, c ≠ '\n' → ¬ '\n' = c := fun c hc h => hc h.symm
  simp only [List.not_mem_nil, or_false, hne _ this, hne '+' (by decide), hne '.' (by decide),
    hne '0' (by decide), hne 'e' (by decide), false_or] at h

/-! ## The free store -/

theorem Heap.read_free (h : Heap) (p : Nat) : (h.free p).read p = none := by
  unfold Heap.read Heap.free
  by_cases hp : p < h.cells.length
  · simp [List.getElem?_set, hp]
  · have : (h.cells.set p none)[p]? = none :=
      List.getElem?_eq_none (by simpa using hp)
    simp [this]

theorem Heap.read_free_ne (h : Heap) (p q : Nat) (hq : q ≠ p) :
    (h.free p).read q = h.read q := by
  unfold Heap.read Heap.free
  simp [List.getElem?_set, Ne.symm hq]

theorem Heap.read_lt (h : Heap) (p : Nat) (a : List ℚ) (hr : h.read p = some a) :
    p < h.cells.length := by
  by_contra hp
  unfold Heap.read at hr
  simp [List.getElem?_eq_none (by simpa using hp)] at hr

theorem Heap.read_alloc (h : Heap) (n : Nat) :
    (h.alloc n).2.read (h.alloc n).1 = some (List.replicate n 0) := by
  simp [Heap.read, Heap.alloc]

theorem Heap.read_alloc_lt (h : Heap) (n p : Nat) (hp : p < h.cells.length) :
    (h.alloc n).2.read p = h.read p := by
  simp [Heap.read, Heap.alloc, List.getElem?_append_left hp]

theorem Heap.read_write (h : Heap) (p : Nat) (a b : List ℚ) (hr : h.read p = some a) :
    (h.write p b).read p = some b := by
  have hp := h.read_lt p a hr
  unfold Heap.write
  simp only [hr]
  simp [Heap.read, List.getElem?_set, hp]

theorem Heap.read_write_ne (h : Heap) (p q : Nat) (b : List ℚ) (hq : q ≠ p) :
    (h.write p b).read q = h.read q := by
  unfold Heap.write
  split
  · simp [Heap.read, List.getElem?_set, Ne.symm hq]
  · rfl

theorem Heap.write_length (h : Heap) (p : Nat) (b : List ℚ) :
    (h.write p b).cells.length = h.cells.length := by
  unfold Heap.write
  split <;> simp

theorem Heap.free_length (h : Heap) (p : Nat) : (h.free p).cells.length = h.cells.length := by
  simp [Heap.free]

/-- `memcpy` from a live array of exactly `n` entries into a live array of `n`
entries. -/
theorem memcpy_read (h : Heap) (dst q : Nat) (d s : List ℚ) (hd : h.read dst = some d)
    (hs : h.read q = some s) (hdl : d.length = s.length) :
    (memcpy h dst (some q) s.length).read dst = some s := by
  unfold memcpy
  simp only [hd, hs, hdl, le_refl, and_self, if_true]
  rw [h.read_write dst d _ hd]
  simp [← hdl]

theorem memcpy_read_ne (h : Heap) (dst : Nat) (src : Option Nat) (n q : Nat) (hq : q ≠ dst) :
    (memcpy h dst src n).read q = h.read q := by
  unfold memcpy
  split
  · rfl
  · split
    · split_ifs
      · exact h.read_write_ne dst q _ hq
      · rfl
    · rfl

/-! ## The guards of `set_linear_term` -/

theorem set_linear_term_no_labels (self : CSVM) (heap : Heap) (lin : Option Nat) (y : Int)
    (h : self.labels = none) :
    set_linear_term self heap lin y =
      { ret := .error .PreconditionError, self := self, heap := heap } := by
  unfold set_linear_term
  simp only [h]

theorem set_linear_term_mismatch (self : CSVM) (heap : Heap) (lin : Option Nat) (y : Int)
    (L : CLabels) (h : self.labels = some L) (hy : L.get_num_labels ≠ y) :
    set_linear_term self heap lin y =
      { ret := .error .ShapeMismatchError, self := self, heap := heap } := by
  unfold set_linear_term
  simp only [h, hy, ne_eq, not_false_eq_true, if_true]

theorem set_linear_term_clear (self : CSVM) (heap : Heap) (lin : Option Nat) (y : Int)
    (L : CLabels) (h : self.labels = some L) (hy : L.get_num_labels = y)
    (hc : lin = none ∨ y = 0) :
    set_linear_term self heap lin y =
      { ret := .ok ()
        self := { self with linear_term := none, linear_term_y := 0 }
        heap := heap.release self.linear_term } := by
  unfold set_linear_term
  simp only [h, hy, ne_eq, not_true_eq_false, if_false, hc, if_true]

theorem set_linear_term_store (self : CSVM) (heap : Heap) (q : Nat) (y : Int)
    (L : CLabels) (h : self.labels = some L) (hy : L.get_num_labels = y) (hpos : 0 < y) :
    set_linear_term self heap (some q) y =
      { ret := .ok ()
        self := { self with
          linear_term_y := y
          linear_term := some (heap.release self.linear_term).cells.length }
        heap := memcpy ((heap.release self.linear_term).alloc y.toNat).2
          (heap.release self.linear_term).cells.length (some q) y.toNat } := by
  unfold set_linear_term
  have h1 : ¬ ((some q : Option Nat) = none ∨ y = 0) := by
    rintro (h | h)
    · exact absurd h (by simp)
    · omega
  have h2 : ¬ y < 0 := by omega
  simp only [h, hy, ne_eq, not_true_eq_false, if_false, h1, h2]
  rfl

theorem Heap.read_release (h : Heap) (p : Nat) : (h.release (some p)).read p = none :=
  h.read_free p

theorem termModel_eq :
    termModel.ret = .ok () ∧ termModel.self.labels = some exampleLabels ∧
    termModel.self.linear_term = some 1 ∧ termModel.self.linear_term_y = 2 ∧
    termModel.heap.read 1 = some [3, 4] ∧ termModel.heap.read 0 = some [3, 4] := by
  refine ⟨rfl, rfl, rfl, rfl, ?_, ?_⟩ <;> with_unfolding_all decide

/-! ## The stored copy of the linear term -/

/-- `get_linear_term_array` on an object whose pointer refers to a live array of
the stored, non-zero length: a new array with the same entries is returned, and
no array that existed before is changed. -/
theorem get_linear_term_array_copy (self : CSVM) (heap : Heap) (P : Nat) (v : List ℚ)
    (hp : self.linear_term = some P) (hr : heap.read P = some v)
    (hy : self.linear_term_y = (v.length : Int)) (hne : v ≠ []) :
    (get_linear_term_array self heap).ret = .ok (some heap.cells.length) ∧
    (get_linear_term_array self heap).self = self ∧
    (get_linear_term_array self heap).heap.read heap.cells.length = some v ∧
    ∀ p, p < heap.cells.length → (get_linear_term_array self heap).heap.read p = heap.read p := by
  have hlen : 0 < v.length := List.length_pos.2 hne
  have h0 : ¬ self.linear_term_y = 0 := by rw [hy]; omega
  have h1 : ¬ self.linear_term_y < 0 := by rw [hy]; omega
  have hP := heap.read_lt P v hr
  have hg : get_linear_term_array self heap =
      { ret := .ok (some heap.cells.length)
        self := self
        heap := memcpy (heap.alloc v.length).2 heap.cells.length (some P) v.length } := by
    unfold get_linear_term_array
    rw [if_neg h0, if_neg h1]
    simp only [hp, hy, Int.toNat_ofNat]
    rfl
  rw [hg]
  refine ⟨rfl, rfl, ?_, ?_⟩
  · exact memcpy_read _ _ P (List.replicate v.length 0) v (heap.read_alloc v.length)
      (by rw [heap.read_alloc_lt v.length P hP]; exact hr) (by simp)
  · intro p hlt
    show (memcpy (heap.alloc v.length).2 heap.cells.length (some P) v.length).read p = _
    rw [memcpy_read_ne _ _ _ _ p (by omega), heap.read_alloc_lt v.length p hlt]

/-- `set_linear_term` with an array of the caller that holds as many entries as
there are labels: the object refers to a new array with the same entries, and
no array of the caller is changed. -/
theorem set_linear_term_copy (self : CSVM) (heap : Heap) (L : CLabels) (q : Nat) (v : List ℚ)
    (hL : self.labels = some L) (hq : heap.read q = some v) (hne : v ≠ [])
    (hy : L.get_num_labels = (v.length : Int)) (hown : self.linear_term ≠ some q) :
    (set_linear_term self heap (some q) (v.length : Int)).ret = .ok () ∧
    (set_linear_term self heap (some q) (v.length : Int)).self =
      { self with linear_term_y := (v.length : Int), linear_term := some heap.cells.length } ∧
    (set_linear_term self heap (some q) (v.length : Int)).heap.read heap.cells.length =
      some v ∧
    (set_linear_term self heap (some q) (v.length : Int)).heap.read q = some v ∧
    q < heap.cells.length := by
  have hlen : 0 < v.length := List.length_pos.2 hne
  have hqlt := heap.read_lt q v hq
  have hH : (heap.release self.linear_term).cells.length = heap.cells.length := by
    unfold Heap.release
    split
    · exact heap.free_length _
    · rfl
  have hHq : (heap.release self.linear_term).read q = some v := by
    unfold Heap.release
    split
    · next p hp =>
      rw [heap.read_free_ne p q (fun h => hown (by rw [hp, h]))]; exact hq
    · exact hq
  rw [set_linear_term_store self heap q _ L hL hy (by exact_mod_cast hlen)]
  simp only [Int.toNat_ofNat, hH]
  refine ⟨trivial, trivial, ?_, ?_, hqlt⟩
  · have := memcpy_read ((heap.release self.linear_term).alloc v.length).2
      (heap.release self.linear_term).cells.length q (List.replicate v.length 0) v
      ((heap.release self.linear_term).read_alloc v.length)
      (by rw [(heap.release self.linear_term).read_alloc_lt v.length q (by rw [hH]; exact hqlt)]
          exact hHq) (by simp)
    rwa [hH] at this
  · rw [memcpy_read_ne _ _ _ _ q (by omega),
      (heap.release self.linear_term).read_alloc_lt v.length q (by rw [hH]; exact hqlt)]
    exact hHq

theorem get_linear_term_array_absent (self : CSVM) (heap : Heap) :
    (get_linear_term_array self heap).ret = .ok none ↔ self.linear_term_y = 0 := by
  unfold get_linear_term_array
  constructor
  · intro h
    by_contra h0
    rw [if_neg h0] at h
    split_ifs at h
    simp at h
  · intro h
    rw [if_pos h]

/-! ## The invariant of the linear term -/

theorem memcpy_length (h : Heap) (dst : Nat) (src : Option Nat) (n : Nat) (d : List ℚ)
    (hd : h.read dst = some d) :
    ∃ a, (memcpy h dst src n).read dst = some a ∧ a.length = d.length := by
  unfold memcpy
  split
  · exact ⟨d, hd, rfl⟩
  · split
    · next d' s hd' hs =>
      rw [hd] at hd'
      cases hd'
      split_ifs with hn
      · refine ⟨_, h.read_write dst d _ hd, ?_⟩
        simp only [List.length_append, List.length_take, List.length_drop]
        omega
      · exact ⟨d, hd, rfl⟩
    · exact ⟨d, hd, rfl⟩

/-- One call of `set_linear_term` on an object that satisfies the invariant and
whose labels, if any, are not negative in number: the call clears the linear
term, or stores one of as many entries as there are labels, or fails and leaves
pointer and length as they were; the invariant holds afterwards. -/
theorem set_linear_term_step (self : CSVM) (heap : Heap) (lin : Option Nat) (y : Int)
    (hinv : LinearTermInv self heap) (hlab : ∀ L, self.labels = some L → 0 ≤ L.get_num_labels) :
    LinearTermInv (set_linear_term self heap lin y).self (set_linear_term self heap lin y).heap ∧
    (set_linear_term self heap lin y).self.labels = self.labels ∧
    (((set_linear_term self heap lin y).ret = .ok () ∧
        (set_linear_term self heap lin y).self.linear_term = none ∧
        (set_linear_term self heap lin y).self.linear_term_y = 0) ∨
      ((set_linear_term self heap lin y).ret = .ok () ∧
        (set_linear_term self heap lin y).self.linear_term ≠ none ∧
        ∃ L, self.labels = some L ∧
          (set_linear_term self heap lin y).self.linear_term_y = L.get_num_labels ∧
          0 < L.get_num_labels) ∨
      ((∃ e, (set_linear_term self heap lin y).ret = .error e) ∧
        (set_linear_term self heap lin y).self.linear_term = self.linear_term ∧
        (set_linear_term self heap lin y).self.linear_term_y = self.linear_term_y)) := by
  cases hL : self.labels with
  | none =>
    rw [set_linear_term_no_labels self heap lin y hL]
    exact ⟨hinv, hL, Or.inr (Or.inr ⟨⟨_, rfl⟩, rfl, rfl⟩)⟩
  | some L =>
    by_cases hy : L.get_num_labels = y
    · by_cases hc : lin = none ∨ y = 0
      · rw [set_linear_term_clear self heap lin y L hL hy hc]
        refine ⟨⟨by simp, by simp, by simp⟩, hL, Or.inl ⟨rfl, rfl, rfl⟩⟩
      · have hpos : 0 < y := by
          have := hlab L hL
          have hy0 : y ≠ 0 := fun h => hc (Or.inr h)
          omega
        obtain ⟨q, rfl⟩ : ∃ q, lin = some q := by
          cases lin with
          | none => exact absurd (Or.inl rfl) hc
          | some q => exact ⟨q, rfl⟩
        rw [set_linear_term_store self heap q y L hL hy hpos]
        refine ⟨⟨by simp; omega, by simp; omega, ?_⟩, hL,
          Or.inr (Or.inl ⟨rfl, by simp, L, rfl, hy.symm, by omega⟩)⟩
        intro p hp
        simp only [Option.some.injEq] at hp
        subst hp
        obtain ⟨a, ha1, ha2⟩ := memcpy_length ((heap.release self.linear_term).alloc y.toNat).2
          (heap.release self.linear_term).cells.length (some q) y.toNat _
          ((heap.release self.linear_term).read_alloc y.toNat)
        refine ⟨a, ha1, ?_⟩
        rw [ha2]
        simp only [List.length_replicate]
        omega
    · rw [set_linear_term_mismatch self heap lin y L hL hy]
      exact ⟨hinv, hL, Or.inr (Or.inr ⟨⟨_, rfl⟩, rfl, rfl⟩)⟩

theorem linearTermReachable_inv {self : CSVM} {heap : Heap} (h : LinearTermReachable self heap) :
    LinearTermInv self heap ∧ ∀ L, self.labels = some L → 0 ≤ L.get_num_labels := by
  induction h with
  | new num_sv heap =>
    refine ⟨⟨?_, ?_, ?_⟩, ?_⟩
    · simp only [CSVM.new, set_defaults]; split_ifs <;> simp [create_new_model]
    · simp only [CSVM.new, set_defaults]; split_ifs <;> simp [create_new_model]
    · intro p hp
      simp only [CSVM.new, set_defaults] at hp
      split_ifs at hp
      simp [create_new_model] at hp
    · intro L hL
      simp only [CSVM.new, set_defaults] at hL
      split_ifs at hL <;> simp [create_new_model, CKernelMachine_new] at hL
  | newC C k lab heap hlab =>
    refine ⟨⟨by simp [CSVM.newC, set_kernel, set_labels, set_C, set_defaults],
      by simp [CSVM.newC, set_kernel, set_labels, set_C, set_defaults], ?_⟩, ?_⟩
    · intro p hp
      simp [CSVM.newC, set_kernel, set_labels, set_C, set_defaults] at hp
    · intro L hL
      exact hlab L (by simpa [CSVM.newC, set_kernel, set_labels, set_C, set_defaults] using hL)
  | labels lab _ hlab ih =>
    exact ⟨ih.1, fun L hL => hlab L (by simpa [set_labels] using hL)⟩
  | call lin y _ ih =>
    obtain ⟨h1, h2, -⟩ := set_linear_term_step _ _ lin y ih.1 ih.2
    exact ⟨h1, fun L hL => ih.2 L (by rw [← h2]; exact hL)⟩

/-! ## The MKL hook -/

/-- `set_callback_function` changes no field but `mkl` and `callback`, which
end as the arguments given. -/
theorem set_callback_function_fields (self : CSVM) (objs : Objects) (m cb : Option Nat) :
    (set_callback_function self objs m cb).1 = { self with mkl := m, callback := cb } := rfl

/-- Registering an object other than the one held: the new object gains one
reference and exists as before; the object held before loses one reference, and
exists as before if it has another holder. -/
theorem set_callback_function_other (self : CSVM) (objs : Objects) (x : Nat) (cb : Option Nat)
    (hne : self.mkl ≠ some x) :
    (set_callback_function self objs (some x) cb).2.refcount x = objs.refcount x + 1 ∧
    (set_callback_function self objs (some x) cb).2.alive x = objs.alive x ∧
    ∀ old, self.mkl = some old → 1 ≤ objs.refcount old →
      (set_callback_function self objs (some x) cb).2.refcount old = objs.refcount old - 1 ∧
      (1 < objs.refcount old →
        (set_callback_function self objs (some x) cb).2.alive old = objs.alive old) := by
  cases hm : self.mkl with
  | none =>
    refine ⟨?_, ?_, ?_⟩
    · simp [set_callback_function, SG_UNREF, SG_REF, hm]
    · simp [set_callback_function, SG_UNREF, SG_REF, hm]
    · intro old h; simp at h
  | some o =>
    have hox : x ≠ o := fun h => hne (by rw [hm, h])
    refine ⟨?_, ?_, ?_⟩
    · simp only [set_callback_function, SG_UNREF, SG_REF, hm]
      split_ifs <;> simp [hox]
    · simp only [set_callback_function, SG_UNREF, SG_REF, hm]
      split_ifs <;> simp [hox]
    · intro old h hc
      simp only [Option.some.injEq] at h
      subst h
      constructor
      · have hxo : ¬ o = x := fun h => hox h.symm
        by_cases h1 : objs.refcount o ≤ 1
        · simp only [set_callback_function, SG_UNREF, SG_REF, hm, h1, if_true, hxo, if_false]
          omega
        · simp only [set_callback_function, SG_UNREF, SG_REF, hm, h1, if_false, hxo, if_true]
      · intro hc1
        have hc' : ¬ objs.refcount o ≤ 1 := by omega
        simp only [set_callback_function, SG_UNREF, SG_REF, hm, hc', if_false]

/-- Registering the object already held when there are other holders: the count
is the same after the call and the object exists. -/
theorem set_callback_function_shared (self : CSVM) (objs : Objects) (x : Nat)
    (cb : Option Nat) (hm : self.mkl = some x) (hc : 1 < objs.refcount x) :
    (set_callback_function self objs (some x) cb).2.refcount x = objs.refcount x ∧
    (set_callback_function self objs (some x) cb).2.alive x = objs.alive x := by
  have hc' : ¬ objs.refcount x ≤ 1 := by omega
  simp only [set_callback_function, SG_UNREF, SG_REF, hm, hc', if_false]
  simp

/-- Registering the object already held when the core is its only holder: the
object is destroyed by the release of line 234, and the pointer stored in line
235 refers to it. -/
theorem set_callback_function_last (self : CSVM) (objs : Objects) (x : Nat)
    (cb : Option Nat) (hm : self.mkl = some x) (hc : objs.refcount x = 1) :
    (set_callback_function self objs (some x) cb).1.mkl = some x ∧
    (set_callback_function self objs (some x) cb).2.alive x = false := by
  simp [set_callback_function, SG_UNREF, SG_REF, hm, hc]

/-! ## Sums over the support vectors in another order -/

theorem sum_range_perm {n : Nat} (p : Equiv.Perm (Fin n)) (f g : Nat → ℚ)
    (h : ∀ i : Fin n, g i = f (p i)) :
    ∑ i in Finset.range n, g i = ∑ i in Finset.range n, f i := by
  rw [Finset.sum_range, Finset.sum_range]
  simp only [h]
  exact Equiv.sum_comp p (fun i => f i)

theorem sum_range_perm2 {n : Nat} (p : Equiv.Perm (Fin n)) (f g : Nat → Nat → ℚ)
    (h : ∀ i j : Fin n, g i j = f (p i) (p j)) :
    ∑ i in Finset.range n, ∑ j in Finset.range n, g i j =
      ∑ i in Finset.range n, ∑ j in Finset.range n, f i j := by
  have h1 : ∀ i : Fin n, ∑ j in Finset.range n, g i j = ∑ j in Finset.range n, f (p i) j :=
    fun i => sum_range_perm p (fun j => f (p i) j) (fun j => g i j) (fun j => h i j)
  exact sum_range_perm p (fun i => ∑ j in Finset.range n, f i j)
    (fun i => ∑ j in Finset.range n, g i j) h1

theorem reorder_size (self : CSVM) (n : Nat) (p : Equiv.Perm (Fin n))
    (h : ModelOfSize self n) : ModelOfSize (reorder self n p) n :=
  ⟨h.1, by simp [reorder], by simp [reorder]⟩

theorem reorder_alpha (self : CSVM) (n : Nat) (p : Equiv.Perm (Fin n)) (i : Fin n) :
    (reorder self n p).m_alpha.getD i 0 = self.m_alpha.getD (p i) 0 := by
  have hlt : (i : Nat) < (reorder self n p).m_alpha.length := by simp [reorder]
  rw [List.getD_eq_getElem _ _ hlt]
  simp [reorder]

theorem reorder_svs (self : CSVM) (n : Nat) (p : Equiv.Perm (Fin n)) (i : Fin n) :
    (reorder self n p).m_svs.getD i 0 = self.m_svs.getD (p i) 0 := by
  have hlt : (i : Nat) < (reorder self n p).m_svs.length := by simp [reorder]
  rw [List.getD_eq_getElem _ _ hlt]
  simp [reorder]

/-- Value of the primal routine on a model that satisfies the data-model
invariant. -/
theorem primal_objective_eq (self : CSVM) (L : CLabels) (K : CKernel) (cls : Int → ℚ)
    (n : Nat) (hsize : ModelOfSize self n) (hL : self.labels = some L)
    (hK : self.kernel = some K) :
    (compute_svm_primal_objective self cls).1 =
      .ok ((∑ i in Finset.range n, ∑ j in Finset.range n,
            -(0.5 * self.m_alpha.getD i 0 * self.m_alpha.getD j 0 *
              K.kernel (self.m_svs.getD i 0) (self.m_svs.getD j 0))) +
          ∑ i in Finset.range n,
            -(self.C1 * max 0 (1 - L.get_label (self.m_svs.getD i 0) *
              cls (self.m_svs.getD i 0)))) := by
  have hn : get_num_support_vectors self = (n : Int) := hsize.1
  simp only [compute_svm_primal_objective, hL, hK, hn, Int.toNat_ofNat,
    primalOuter_loop hsize L K cls]

/-! ## The serialization codec: round trip, grammar and errors -/

/-- C5: save followed by load gives the model back.  For a model with `k`
support vectors that satisfies the data-model invariant, with a kernel attached
whose name holds no white space and fits the buffer of 1024 bytes (the name,
the closing `';` that `%s` stores with it and the terminating NUL: at most 1021
characters), indices within `int32_t`, and a formatter `fmt_e` for `%+10.16e`
whose output for the bias and for every alpha is read back by `%lf` as the same
value: `save` succeeds, and `load` of the text written, into any object,
returns success, sets `svm_loaded`, and yields `k` support vectors with the
same alphas and indices in the same order and the same bias. -/
theorem save_load_roundtrip (m : CSVM) (K : CKernel) (k : Nat) (fmt_e : ℚ → List Char)
    (self : CSVM)
    (hK : m.kernel = some K) (hsize : ModelOfSize m k) (hk : k < 2147483648)
    (hname : ∀ c ∈ K.get_name, isspace c = false) (hfit : K.get_name.length + 3 ≤ 1024)
    (hidx : ∀ i ∈ m.m_svs, -2147483648 ≤ i ∧ i < 2147483648)
    (hfmt : ∀ x, x = m.m_bias ∨ x ∈ m.m_alpha → ReadsAsDouble (fmt_e x) x) :
    (save m fmt_e []).ret = .ok true ∧
    (load self ⟨(save m fmt_e []).out, false⟩).ret = .ok true ∧
    (load self ⟨(save m fmt_e []).out, false⟩).self.svm_loaded = true ∧
    get_num_support_vectors (load self ⟨(save m fmt_e []).out, false⟩).self = (k : Int) ∧
    (load self ⟨(save m fmt_e []).out, false⟩).self.m_alpha = m.m_alpha ∧
    (load self ⟨(save m fmt_e []).out, false⟩).self.m_svs = m.m_svs ∧
    (∀ i, i < k →
      get_alpha (load self ⟨(save m fmt_e []).out, false⟩).self (i : Int) = get_alpha m (i : Int) ∧
      get_support_vector (load self ⟨(save m fmt_e []).out, false⟩).self (i : Int) =
        get_support_vector m (i : Int)) ∧
    get_bias (load self ⟨(save m fmt_e []).out, false⟩).self = get_bias m := by
  have hlen : m.m_alpha.length = m.m_svs.length := by rw [hsize.2.1, hsize.2.2]
  obtain ⟨r1, r2, r3⟩ := savedRows_spec fmt_e m.m_alpha m.m_svs hlen
  have hrows : ∀ q ∈ List.zipWith (fun a i => (⟨fmt_e a, fmt_d i, a, i⟩ : RowSpec))
      m.m_alpha m.m_svs, q.reads := by
    intro q hq
    obtain ⟨a, ha, i, hi, rfl⟩ := savedRows_mem fmt_e _ _ q hq
    exact ⟨hfmt a (Or.inr ha), fmt_d_readsAs i (hidx i hi).1 (hidx i hi).2⟩
  have hsave := save_out m K fmt_e k hK hsize []
  have hfit' : (K.get_name ++ "';".toList).length < 1024 := by
    rw [List.length_append]
    show K.get_name.length + 2 < 1024
    omega
  have l0 := load_modelText self (fmt_d k) K.get_name hname hfit' (fmt_e m.m_bias) m.m_bias
    (hfmt _ (Or.inl rfl)) _ hrows
    (by rw [r3, hsize.2.1]; exact fmt_d_readsAs k (by omega) (by omega)) "\n".toList
  rw [r1, r2, r3, hsize.2.1] at l0
  rw [hsave]
  simp only [List.nil_append]
  have l1 := congrArg LoadResult.ret l0
  have l4 := congrArg LoadResult.self l0
  simp only [] at l1 l4
  have hsz' : ModelOfSize (load self ⟨modelText (fmt_d k) K.get_name (fmt_e m.m_bias)
      ((List.zipWith (fun a i => (⟨fmt_e a, fmt_d i, a, i⟩ : RowSpec))
        m.m_alpha m.m_svs).map RowSpec.texts) "\n".toList, false⟩).self k := by
    rw [l4]; exact ⟨rfl, hsize.2.1, hsize.2.2⟩
  refine ⟨trivial, l1, by rw [l4], by rw [l4]; rfl, by rw [l4], by rw [l4], ?_, by rw [l4]; rfl⟩
  intro i hi
  rw [get_alpha_of_size hsz' hi, get_support_vector_of_size hsz' hi,
    get_alpha_of_size hsize hi, get_support_vector_of_size hsize hi, l4]
  simp

/-- C5 at the example model of section 8 (alphas 1 and 1, indices 0 and 1, bias
0, kernel name `Const`), written with `fmtDigit` and loaded into a fresh
object. -/
theorem save_load_roundtrip_witness :
    exampleModel.kernel = some exampleKernel ∧ ModelOfSize exampleModel 2 ∧
    (∀ c ∈ exampleKernel.get_name, isspace c = false) ∧
    exampleKernel.get_name.length + 3 ≤ 1024 ∧
    (save exampleModel fmtDigit []).ret = .ok true ∧
    (load (CSVM.new 0) ⟨(save exampleModel fmtDigit []).out, false⟩).ret = .ok true ∧
    (load (CSVM.new 0) ⟨(save exampleModel fmtDigit []).out, false⟩).self.svm_loaded = true ∧
    (load (CSVM.new 0) ⟨(save exampleModel fmtDigit []).out, false⟩).self.m_alpha = [1, 1] ∧
    (load (CSVM.new 0) ⟨(save exampleModel fmtDigit []).out, false⟩).self.m_svs = [0, 1] ∧
    get_bias (load (CSVM.new 0) ⟨(save exampleModel fmtDigit []).out, false⟩).self = 0 := by
  have h := save_load_roundtrip exampleModel exampleKernel 2 fmtDigit (CSVM.new 0) rfl
    exampleModel_size (by decide) (by decide) (by decide)
    (by
      intro i hi
      have : i = 0 ∨ i = 1 := by simpa [exampleModel] using hi
      rcases this with rfl | rfl <;> decide)
    (by
      intro x hx
      apply fmtDigit_readsAs
      rcases hx with rfl | hx
      · left; rfl
      · right; simpa [exampleModel] using hx)
  exact ⟨rfl, exampleModel_size, by decide, by decide, h.1, h.2.1, h.2.2.1, h.2.2.2.2.1,
    h.2.2.2.2.2.1, h.2.2.2.2.2.2.2⟩

/-- C7 as amended: for every stream that does not continue, after any leading
white space, with `%SVM` (the empty stream and a stream that starts directly
with `numsv=` among them), `load` reports a format error whose line number is
1, whatever the object held before the call. -/
theorem load_without_header (self : CSVM) (modelfl : FILE)
    (h : (modelfl.buf.dropWhile isspace).take 4 ≠ "%SVM".toList) :
    (load self modelfl).ret = .error (.formatError 1) := by
  have hm := load_header_mismatch (LoadVars.init self modelfl) h
  unfold load load_body
  cases hh : load_header (LoadVars.init self modelfl) with
  | mk r v =>
    rw [hh] at hm
    cases r with
    | ok u => simp at hm
    | error e =>
      have he : e = .formatError 1 := by simpa [LoadVars.init] using hm.1
      simp [thenStep, he]

/-- C7 as amended, at the empty stream and at a stream that starts with
`numsv=`, for an object that was loaded before. -/
theorem load_without_header_witness :
    ([] : List Char).take 4 ≠ "%SVM".toList ∧
    (headlessText.dropWhile isspace).take 4 ≠ "%SVM".toList ∧
    (load loadedModel ⟨[], false⟩).ret = .error (.formatError 1) ∧
    (load loadedModel ⟨headlessText, false⟩).ret = .error (.formatError 1) :=
  ⟨by decide, by decide, load_without_header loadedModel ⟨[], false⟩ (by decide),
    load_without_header loadedModel ⟨headlessText, false⟩ (by decide)⟩

/-- C7 as stated fails: a stream that begins with an empty line and only then
holds the header does not begin with `%SVM`, yet `load` reports no error,
returns success and sets `svm_loaded`. -/
theorem load_header_after_blank_line :
    ¬ ("%SVM".toList <+: blankLineText) ∧
    (load (CSVM.new 0) ⟨blankLineText, false⟩).ret = .ok true ∧
    (load (CSVM.new 0) ⟨blankLineText, false⟩).self.svm_loaded = true := by
  refine ⟨by decide, by decide, by decide⟩

/-- C8 on the code, at the model file that declares three support vectors and
holds two rows, read into an object that was loaded before: the format error is
raised while the third row is read, with line number 8, so `load` does not
return failure, and `svm_loaded` is still true; the new model of three entries
holds the two rows read. -/
theorem load_missing_rows :
    loadedModel.svm_loaded = true ∧
    (load loadedModel ⟨shortText, false⟩).ret = .error (.formatError 8) ∧
    (load loadedModel ⟨shortText, false⟩).ret ≠ .ok false ∧
    (load loadedModel ⟨shortText, false⟩).self.svm_loaded = true ∧
    get_num_support_vectors (load loadedModel ⟨shortText, false⟩).self = 3 ∧
    (load loadedModel ⟨shortText, false⟩).self.m_svs = [7, 9, 0] := by
  refine ⟨by decide, by decide, by decide, by decide, by decide, by decide⟩

/-- C9 on the code, at the model file of section 8 without the `;` after the
count, the `';` after the kernel name, the `;` after the bias and the `];` of
the row: `load` returns success and sets `svm_loaded`; and at the model file of
section 8 with the header misspelt, read into an object that was loaded before:
the format error is raised, so `load` does not return failure, and `svm_loaded`
is still true. -/
theorem load_unchecked_delimiters :
    (load (CSVM.new 0) ⟨looseText, false⟩).ret = .ok true ∧
    (load (CSVM.new 0) ⟨looseText, false⟩).self.svm_loaded = true ∧
    (load (CSVM.new 0) ⟨looseText, false⟩).self.m_svs = [7] ∧
    (load loadedModel ⟨badHeaderText, false⟩).ret = .error (.formatError 1) ∧
    (load loadedModel ⟨badHeaderText, false⟩).self.svm_loaded = true := by
  refine ⟨by decide, by decide, by decide, by decide, by decide⟩

/-- C10 on the code, at a model file that declares two support vectors and
lacks the kernel line, read into an object that was loaded before with one
support vector: the previous model is replaced by a new one of two entries, the
format error is raised at line 3, so `load` does not return failure, and
`svm_loaded` is still true. -/
theorem load_not_atomic :
    get_num_support_vectors loadedModel = 1 ∧ loadedModel.svm_loaded = true ∧
    (load loadedModel ⟨noKernelText, false⟩).ret = .error (.formatError 3) ∧
    get_num_support_vectors (load loadedModel ⟨noKernelText, false⟩).self = 2 ∧
    (load loadedModel ⟨noKernelText, false⟩).self.m_svs = [0, 0] ∧
    (load loadedModel ⟨noKernelText, false⟩).self.svm_loaded = true := by
  refine ⟨by decide, by decide, by decide, by decide, by decide, by decide⟩

/-- C12: `save` requires a kernel.  Without one it fails with the precondition
error, writes nothing and leaves the object as it was.  With the kernel `K`
attached and a model of `k` support vectors it returns true, leaves the object
as it was, and appends to the stream exactly the text of section 4.3: `%SVM`,
`numsv=<k>;`, `kernel='<name of K>';`, `b=<bias>;`, `alphas=[`, one line
`\t[<alpha(i)>,<index(i)>];` for `i = 0..k-1` in increasing order, where
`alpha(i)` and `index(i)` are what `get_alpha` and `get_support_vector` return,
and `];`, every float written by the one formatter `fmt_e`; these are `k + 6`
lines when neither the kernel name nor a formatted float holds a newline. -/
theorem save_writes_model (self : CSVM) (fmt_e : ℚ → List Char) (modelfl : List Char) :
    (self.kernel = none →
      (save self fmt_e modelfl).ret = .error .PreconditionError ∧
      (save self fmt_e modelfl).self = self ∧
      (save self fmt_e modelfl).out = modelfl) ∧
    (∀ (K : CKernel) (k : Nat), self.kernel = some K → ModelOfSize self k →
      (save self fmt_e modelfl).ret = .ok true ∧
      (save self fmt_e modelfl).self = self ∧
      (save self fmt_e modelfl).out =
        modelfl ++ savedText fmt_e k K.get_name (get_bias self)
          (fun i => self.m_alpha.getD i 0) (fun i => self.m_svs.getD i 0) ∧
      (∀ i : Nat, i < k →
        get_alpha self (i : Int) = .ok (self.m_alpha.getD i 0) ∧
        get_support_vector self (i : Int) = .ok (self.m_svs.getD i 0)) ∧
      ('\n' ∉ K.get_name → (∀ x, '\n' ∉ fmt_e x) →
        (savedText fmt_e k K.get_name (get_bias self)
          (fun i => self.m_alpha.getD i 0) (fun i => self.m_svs.getD i 0)).count '\n' =
            k + 6)) := by
  constructor
  · intro h
    unfold save
    simp only [h]
    exact ⟨trivial, trivial, trivial⟩
  · intro K k hK hsize
    have h := save_out self K fmt_e k hK hsize modelfl
    rw [savedText_eq self K fmt_e k hsize] at h
    refine ⟨by rw [h], by rw [h], by rw [h], ?_, ?_⟩
    · intro i hi
      exact ⟨get_alpha_of_size hsize hi, get_support_vector_of_size hsize hi⟩
    · intro hname hfmt
      exact count_newline_savedText fmt_e k K.get_name _ _ _ hname hfmt

/-- C12 at an object without a kernel and at the example model of section 8
(alphas 1 and 1, indices 0 and 1, bias 0, kernel name `Const`), with the
formatter of the digits 0 to 9: eight lines are written. -/
theorem save_writes_model_witness :
    (CSVM.new 0).kernel = none ∧
    (save (CSVM.new 0) fmtDigit []).ret = .error .PreconditionError ∧
    (save (CSVM.new 0) fmtDigit []).out = [] ∧
    exampleModel.kernel = some exampleKernel ∧ ModelOfSize exampleModel 2 ∧
    (save exampleModel fmtDigit []).ret = .ok true ∧
    (save exampleModel fmtDigit []).out =
      "%SVM\nnumsv=2;\nkernel='Const';\nb=+0.0000000000000000e+00;\nalphas=[\n\t[+1.0000000000000000e+00,0];\n\t[+1.0000000000000000e+00,1];\n];\n".toList ∧
    (save exampleModel fmtDigit []).out.count '\n' = 2 + 6 := by
  have h0 := (save_writes_model (CSVM.new 0) fmtDigit []).1 rfl
  have h1 := (save_writes_model exampleModel fmtDigit []).2 exampleKernel 2 rfl
    exampleModel_size
  obtain ⟨g1, -, g3, -, g5⟩ := h1
  have g6 := g5 (by decide) fmtDigit_no_newline
  rw [List.nil_append] at g3
  have ht : savedText fmtDigit 2 exampleKernel.get_name (get_bias exampleModel)
      (fun i => exampleModel.m_alpha.getD i 0) (fun i => exampleModel.m_svs.getD i 0) =
      "%SVM\nnumsv=2;\nkernel='Const';\nb=+0.0000000000000000e+00;\nalphas=[\n\t[+1.0000000000000000e+00,0];\n\t[+1.0000000000000000e+00,1];\n];\n".toList := by
    with_unfolding_all decide
  refine ⟨rfl, h0.1, h0.2.2, rfl, exampleModel_size, g1, by rw [g3, ht], by rw [g3]; exact g6⟩

/-- C13 as amended: `set_linear_term(values, length)` with `values = NULL` or
`length = 0` clears the linear term, whatever was stored before, when a labels
collaborator is attached and `length` is its number of labels: the call
succeeds, the pointer is `NULL`, the length is 0, the old storage is released,
no other field changes and `get_linear_term_array` returns `NULL`.  So
`set_linear_term(NULL, 0)` succeeds exactly when labels without any label are
attached; without labels it fails with the precondition error and with a
non-zero number of labels with the shape-mismatch error, and the object and
the free store are then left as they were. -/
theorem set_linear_term_clears (self : CSVM) (heap : Heap) :
    (∀ (L : CLabels) (lin : Option Nat) (y : Int), self.labels = some L →
      L.get_num_labels = y → (lin = none ∨ y = 0) →
      (set_linear_term self heap lin y).ret = .ok () ∧
      (set_linear_term self heap lin y).self =
        { self with linear_term := none, linear_term_y := 0 } ∧
      (∀ p, self.linear_term = some p → (set_linear_term self heap lin y).heap.read p = none) ∧
      (get_linear_term_array (set_linear_term self heap lin y).self
        (set_linear_term self heap lin y).heap).ret = .ok none) ∧
    ((set_linear_term self heap none 0).ret = .ok () ↔
      ∃ L, self.labels = some L ∧ L.get_num_labels = 0) ∧
    (self.labels = none →
      (set_linear_term self heap none 0).ret = .error .PreconditionError ∧
      (set_linear_term self heap none 0).self = self ∧
      (set_linear_term self heap none 0).heap = heap) ∧
    (∀ L : CLabels, self.labels = some L → L.get_num_labels ≠ 0 →
      (set_linear_term self heap none 0).ret = .error .ShapeMismatchError ∧
      (set_linear_term self heap none 0).self = self ∧
      (set_linear_term self heap none 0).heap = heap) := by
  refine ⟨?_, ?_, ?_, ?_⟩
  · intro L lin y hL hy hc
    rw [set_linear_term_clear self heap lin y L hL hy hc]
    refine ⟨rfl, rfl, ?_, ?_⟩
    · intro p hp
      simp only [hp]
      exact heap.read_release p
    · simp [get_linear_term_array]
  · constructor
    · intro h
      cases hL : self.labels with
      | none => rw [set_linear_term_no_labels self heap none 0 hL] at h; simp at h
      | some L =>
        refine ⟨L, rfl, ?_⟩
        by_contra hne
        rw [set_linear_term_mismatch self heap none 0 L hL hne] at h
        simp at h
    · rintro ⟨L, hL, hy⟩
      rw [set_linear_term_clear self heap none 0 L hL hy (Or.inl rfl)]
  · intro hL
    rw [set_linear_term_no_labels self heap none 0 hL]
    exact ⟨rfl, rfl, rfl⟩
  · intro L hL hy
    rw [set_linear_term_mismatch self heap none 0 L hL hy]
    exact ⟨rfl, rfl, rfl⟩

/-- C13 as amended, at an object with labels without any label attached, and at
the object that stores the linear term `[3, 4]` for its two labels, cleared by
`set_linear_term(NULL, 2)`. -/
theorem set_linear_term_clears_witness :
    (CSVM.newC 1 none (some noLabels)).labels = some noLabels ∧ noLabels.get_num_labels = 0 ∧
    (set_linear_term (CSVM.newC 1 none (some noLabels)) exampleHeap none 0).ret = .ok () ∧
    (set_linear_term (CSVM.newC 1 none (some noLabels)) exampleHeap (some 0) 0).ret = .ok () ∧
    termModel.self.labels = some exampleLabels ∧ exampleLabels.get_num_labels = 2 ∧
    termModel.self.linear_term = some 1 ∧
    (set_linear_term termModel.self termModel.heap none 2).ret = .ok () ∧
    (set_linear_term termModel.self termModel.heap none 2).self.linear_term = none ∧
    (set_linear_term termModel.self termModel.heap none 2).self.linear_term_y = 0 ∧
    (set_linear_term termModel.self termModel.heap none 2).heap.read 1 = none := by
  have h0 := (set_linear_term_clears (CSVM.newC 1 none (some noLabels)) exampleHeap).1
    noLabels none 0 rfl rfl (Or.inl rfl)
  have h1 := (set_linear_term_clears (CSVM.newC 1 none (some noLabels)) exampleHeap).1
    noLabels (some 0) 0 rfl rfl (Or.inr rfl)
  have h2 := (set_linear_term_clears termModel.self termModel.heap).1
    exampleLabels none 2 rfl rfl (Or.inl rfl)
  refine ⟨rfl, rfl, h0.1, h1.1, rfl, rfl, rfl, h2.1, ?_, ?_, h2.2.2.1 1 rfl⟩
  · rw [h2.2.1]
  · rw [h2.2.1]

/-- C13 as stated fails: `set_linear_term(NULL, 0)` on a freshly constructed
object, which has no labels attached, fails with the precondition error; on the
object that stores the linear term `[3, 4]` for its two labels it fails with the
shape-mismatch error, and the linear term is still stored. -/
theorem set_linear_term_null_rejected :
    (CSVM.new 0).labels = none ∧
    (set_linear_term (CSVM.new 0) exampleHeap none 0).ret = .error .PreconditionError ∧
    termModel.self.labels = some exampleLabels ∧ exampleLabels.get_num_labels = 2 ∧
    (set_linear_term termModel.self termModel.heap none 0).ret = .error .ShapeMismatchError ∧
    (set_linear_term termModel.self termModel.heap none 0).self.linear_term = some 1 ∧
    (set_linear_term termModel.self termModel.heap none 0).self.linear_term_y = 2 ∧
    (set_linear_term termModel.self termModel.heap none 0).heap.read 1 = some [3, 4] := by
  refine ⟨rfl, rfl, rfl, rfl, rfl, rfl, rfl, ?_⟩
  with_unfolding_all decide

/-- C14: `set_linear_term(values, length)`, in particular with non-null values
and a positive length, fails with the precondition error when no labels
collaborator is attached and with the shape-mismatch error when `length` differs
from the number of labels; in both cases the object, with the pointer and the
length of the linear term, and the free store, with the stored entries, are
what they were before the call. -/
theorem set_linear_term_rejects (self : CSVM) (heap : Heap) (lin : Option Nat) (y : Int) :
    (self.labels = none →
      (set_linear_term self heap lin y).ret = .error .PreconditionError ∧
      (set_linear_term self heap lin y).self = self ∧
      (set_linear_term self heap lin y).heap = heap) ∧
    (∀ L : CLabels, self.labels = some L → L.get_num_labels ≠ y →
      (set_linear_term self heap lin y).ret = .error .ShapeMismatchError ∧
      (set_linear_term self heap lin y).self = self ∧
      (set_linear_term self heap lin y).heap = heap) := by
  constructor
  · intro hL
    rw [set_linear_term_no_labels self heap lin y hL]
    exact ⟨rfl, rfl, rfl⟩
  · intro L hL hy
    rw [set_linear_term_mismatch self heap lin y L hL hy]
    exact ⟨rfl, rfl, rfl⟩

/-- C14 at a fresh object without labels, and at the object that stores the
linear term `[3, 4]` for its two labels, called with the array `[3, 4]` and the
length 3. -/
theorem set_linear_term_rejects_witness :
    (CSVM.new 0).labels = none ∧
    (set_linear_term (CSVM.new 0) exampleHeap (some 0) 2).ret = .error .PreconditionError ∧
    (set_linear_term (CSVM.new 0) exampleHeap (some 0) 2).self = CSVM.new 0 ∧
    termModel.self.labels = some exampleLabels ∧ exampleLabels.get_num_labels ≠ 3 ∧
    (set_linear_term termModel.self termModel.heap (some 0) 3).ret =
      .error .ShapeMismatchError ∧
    (set_linear_term termModel.self termModel.heap (some 0) 3).self = termModel.self ∧
    (set_linear_term termModel.self termModel.heap (some 0) 3).heap = termModel.heap ∧
    termModel.self.linear_term_y = 2 ∧ termModel.heap.read 1 = some [3, 4] :=
  ⟨rfl, ((set_linear_term_rejects (CSVM.new 0) exampleHeap (some 0) 2).1 rfl).1,
    ((set_linear_term_rejects (CSVM.new 0) exampleHeap (some 0) 2).1 rfl).2.1, rfl, by decide,
    ((set_linear_term_rejects termModel.self termModel.heap (some 0) 3).2 exampleLabels rfl
      (by decide)).1,
    ((set_linear_term_rejects termModel.self termModel.heap (some 0) 3).2 exampleLabels rfl
      (by decide)).2.1,
    ((set_linear_term_rejects termModel.self termModel.heap (some 0) 3).2 exampleLabels rfl
      (by decide)).2.2, rfl, termModel_eq.2.2.2.2.1⟩

/-- C15: set/get round trip with copies.  Let the caller hold a non-empty array
`v` at the address `q` (not the storage of the object) whose length is the
number of labels attached.  Then `set_linear_term(q, len)` succeeds and the
object refers to an array `P` of its own, other than `q`, with the entries of
`v`; `get_linear_term_ptr` reports `P` and the length `len` (and `NULL` without
an output slot); `get_linear_term_array` returns a further new array `A` with
the entries of `v`; whatever the caller writes afterwards into its buffer `q`
or into the returned array `A`, a later `get_linear_term_array` again returns
an array with the entries of `v`.  For every object, `get_linear_term_array`
returns `NULL` exactly when the stored length is 0. -/
theorem linear_term_roundtrip (self : CSVM) (heap : Heap) (L : CLabels) (q : Nat)
    (v : List ℚ) (y0 : Int)
    (hL : self.labels = some L) (hq : heap.read q = some v) (hne : v ≠ [])
    (hy : L.get_num_labels = (v.length : Int)) (hown : self.linear_term ≠ some q) :
    (set_linear_term self heap (some q) (v.length : Int)).ret = .ok () ∧
    (∃ P A : Nat,
      (set_linear_term self heap (some q) (v.length : Int)).self.linear_term = some P ∧
      P ≠ q ∧
      (set_linear_term self heap (some q) (v.length : Int)).heap.read P = some v ∧
      get_linear_term_ptr (set_linear_term self heap (some q) (v.length : Int)).self (some y0) =
        (some P, some (v.length : Int)) ∧
      get_linear_term_ptr (set_linear_term self heap (some q) (v.length : Int)).self none =
        (none, none) ∧
      (get_linear_term_array (set_linear_term self heap (some q) (v.length : Int)).self
        (set_linear_term self heap (some q) (v.length : Int)).heap).ret = .ok (some A) ∧
      A ≠ P ∧ A ≠ q ∧
      (get_linear_term_array (set_linear_term self heap (some q) (v.length : Int)).self
        (set_linear_term self heap (some q) (v.length : Int)).heap).heap.read A = some v ∧
      (∀ w : List ℚ, ∃ B : Nat,
        (get_linear_term_array (set_linear_term self heap (some q) (v.length : Int)).self
          ((set_linear_term self heap (some q) (v.length : Int)).heap.write q w)).ret =
            .ok (some B) ∧
        (get_linear_term_array (set_linear_term self heap (some q) (v.length : Int)).self
          ((set_linear_term self heap (some q) (v.length : Int)).heap.write q w)).heap.read B =
            some v) ∧
      (∀ w : List ℚ, ∃ B : Nat,
        (get_linear_term_array (set_linear_term self heap (some q) (v.length : Int)).self
          ((get_linear_term_array (set_linear_term self heap (some q) (v.length : Int)).self
            (set_linear_term self heap (some q) (v.length : Int)).heap).heap.write A w)).ret =
              .ok (some B) ∧
        (get_linear_term_array (set_linear_term self heap (some q) (v.length : Int)).self
          ((get_linear_term_array (set_linear_term self heap (some q) (v.length : Int)).self
            (set_linear_term self heap (some q) (v.length : Int)).heap).heap.write A w)).heap.read
              B = some v)) ∧
    (∀ (s : CSVM) (h : Heap), (get_linear_term_array s h).ret = .ok none ↔ s.linear_term_y = 0) := by
  obtain ⟨h1, h2, h3, h4, h5⟩ := set_linear_term_copy self heap L q v hL hq hne hy hown
  obtain ⟨S, hS⟩ : ∃ S, S = set_linear_term self heap (some q) (v.length : Int) := ⟨_, rfl⟩
  rw [← hS] at h1 h2 h3 h4 ⊢
  have hp : S.self.linear_term = some heap.cells.length := by rw [h2]
  have hlen : S.self.linear_term_y = (v.length : Int) := by rw [h2]
  have hPA := S.heap.read_lt _ v h3
  obtain ⟨g1, g2, g3, g4⟩ := get_linear_term_array_copy S.self S.heap _ v hp h3 hlen hne
  refine ⟨h1, ⟨heap.cells.length, S.heap.cells.length, hp, by omega, h3, ?_, rfl, g1, by omega,
    by omega, g3, ?_, ?_⟩, get_linear_term_array_absent⟩
  · simp only [get_linear_term_ptr, hp, hlen]
  · intro w
    have hr : (S.heap.write q w).read heap.cells.length = some v := by
      rw [S.heap.read_write_ne q _ w (by omega)]; exact h3
    obtain ⟨k1, -, k3, -⟩ := get_linear_term_array_copy S.self (S.heap.write q w) _ v hp hr
      hlen hne
    exact ⟨_, k1, k3⟩
  · intro w
    have hr : ((get_linear_term_array S.self S.heap).heap.write S.heap.cells.length w).read
        heap.cells.length = some v := by
      rw [Heap.read_write_ne _ _ _ w (by omega), g4 _ hPA]; exact h3
    obtain ⟨k1, -, k3, -⟩ := get_linear_term_array_copy S.self
      ((get_linear_term_array S.self S.heap).heap.write S.heap.cells.length w) _ v hp hr hlen hne
    exact ⟨_, k1, k3⟩

/-- C15 at the object with the two labels of section 8 and the array `[3, 4]`
of the caller at address 0: after `set_linear_term` the copy is returned, also
after the caller has overwritten its array with `[9, 9]`. -/
theorem linear_term_roundtrip_witness :
    (CSVM.newC 1 none (some exampleLabels)).labels = some exampleLabels ∧
    exampleHeap.read 0 = some [3, 4] ∧ exampleLabels.get_num_labels = 2 ∧
    termModel.ret = .ok () ∧
    get_linear_term_ptr termModel.self (some 0) = (some 1, some 2) ∧
    termModel.heap.read 1 = some [3, 4] ∧
    (get_linear_term_array termModel.self termModel.heap).ret = .ok (some 2) ∧
    (get_linear_term_array termModel.self termModel.heap).heap.read 2 = some [3, 4] ∧
    (get_linear_term_array termModel.self (termModel.heap.write 0 [9, 9])).ret = .ok (some 2) ∧
    (get_linear_term_array termModel.self (termModel.heap.write 0 [9, 9])).heap.read 2 =
      some [3, 4] ∧
    (get_linear_term_array termModel.self (termModel.heap.write 0 [9, 9])).heap.read 0 =
      some [9, 9] := by
  have hread : exampleHeap.read 0 = some [3, 4] := by with_unfolding_all decide
  have h := linear_term_roundtrip (CSVM.newC 1 none (some exampleLabels)) exampleHeap
    exampleLabels 0 [3, 4] 0 rfl hread (by simp) rfl (by decide)
  refine ⟨rfl, hread, rfl, h.1, rfl, termModel_eq.2.2.2.2.1, rfl, ?_, rfl, ?_, ?_⟩ <;>
    with_unfolding_all decide

/-- C16: the invariant of the linear term.  In every state reachable from
construction by calls of `set_linear_term` with any arguments, successful or
failing (and by attaching labels collaborators, whose number of labels is not
negative), the pointer is `NULL` if and only if the stored length is 0, the
length is not negative, and a pointer that is not `NULL` refers to a live array
of the stored length.  Every further call either clears the linear term, or
stores one whose length is the number of the labels attached at that call, a
positive number, or fails and leaves pointer and length as they were. -/
theorem linear_term_invariant (self : CSVM) (heap : Heap)
    (h : LinearTermReachable self heap) :
    (self.linear_term = none ↔ self.linear_term_y = 0) ∧
    0 ≤ self.linear_term_y ∧
    (∀ p, self.linear_term = some p →
      ∃ a, heap.read p = some a ∧ (a.length : Int) = self.linear_term_y) ∧
    ∀ (lin : Option Nat) (y : Int),
      ((set_linear_term self heap lin y).ret = .ok () ∧
        (set_linear_term self heap lin y).self.linear_term = none ∧
        (set_linear_term self heap lin y).self.linear_term_y = 0) ∨
      ((set_linear_term self heap lin y).ret = .ok () ∧
        (set_linear_term self heap lin y).self.linear_term ≠ none ∧
        ∃ L, self.labels = some L ∧
          (set_linear_term self heap lin y).self.linear_term_y = L.get_num_labels ∧
          0 < L.get_num_labels) ∨
      ((∃ e, (set_linear_term self heap lin y).ret = .error e) ∧
        (set_linear_term self heap lin y).self.linear_term = self.linear_term ∧
        (set_linear_term self heap lin y).self.linear_term_y = self.linear_term_y) := by
  obtain ⟨⟨h1, h2, h3⟩, hlab⟩ := linearTermReachable_inv h
  exact ⟨h1, h2, h3, fun lin y => (set_linear_term_step self heap lin y ⟨h1, h2, h3⟩ hlab).2.2⟩

/-- C16 at the state reached from the constructor with the two labels of
section 8 by a call that stores `[3, 4]`, a call that fails on the length 3,
and a call that clears; and at the state before the clearing call. -/
theorem linear_term_invariant_witness :
    LinearTermReachable termModel.self termModel.heap ∧
    termModel.self.linear_term = some 1 ∧ termModel.self.linear_term_y = 2 ∧
    termModel.heap.read 1 = some [3, 4] ∧
    LinearTermReachable
      (set_linear_term (set_linear_term termModel.self termModel.heap (some 0) 3).self
        (set_linear_term termModel.self termModel.heap (some 0) 3).heap none 2).self
      (set_linear_term (set_linear_term termModel.self termModel.heap (some 0) 3).self
        (set_linear_term termModel.self termModel.heap (some 0) 3).heap none 2).heap ∧
    ((set_linear_term (set_linear_term termModel.self termModel.heap (some 0) 3).self
        (set_linear_term termModel.self termModel.heap (some 0) 3).heap none 2).self.linear_term
          = none ↔
      (set_linear_term (set_linear_term termModel.self termModel.heap (some 0) 3).self
        (set_linear_term termModel.self termModel.heap (some 0) 3).heap none 2).self.linear_term_y
          = 0) ∧
    (termModel.self.linear_term = none ↔ termModel.self.linear_term_y = 0) ∧
    0 ≤ termModel.self.linear_term_y := by
  have hr : LinearTermReachable termModel.self termModel.heap :=
    LinearTermReachable.call (some 0) 2
      (LinearTermReachable.newC 1 none (some exampleLabels) exampleHeap
        (by intro L hL; simp only [Option.mem_def, Option.some.injEq] at hL; subst hL; decide))
  have hr2 := LinearTermReachable.call none 2 (LinearTermReachable.call (some 0) 3 hr)
  exact ⟨hr, rfl, rfl, termModel_eq.2.2.2.2.1, hr2, (linear_term_invariant _ _ hr2).1,
    (linear_term_invariant _ _ hr).1, (linear_term_invariant _ _ hr).2.1⟩

/-- C17 on the code, at the object that holds the MKL object at address 7 as its
only holder (reference count 1) and registers the same object again: the call
destroys the object and leaves the core with a pointer to it, while the claim
has the object alive; registering the object at address 8 instead leaves that
one alive with one more reference, and no other field changes. -/
theorem set_callback_function_same_object :
    hookModel.mkl = some 7 ∧ exampleObjects.refcount 7 = 1 ∧ exampleObjects.alive 7 = true ∧
    (set_callback_function hookModel exampleObjects (some 7) (some 2)).1.mkl = some 7 ∧
    (set_callback_function hookModel exampleObjects (some 7) (some 2)).1.callback = some 2 ∧
    (set_callback_function hookModel exampleObjects (some 7) (some 2)).2.alive 7 = false ∧
    (set_callback_function hookModel exampleObjects (some 8) (some 2)).2.alive 8 = true ∧
    (set_callback_function hookModel exampleObjects (some 8) (some 2)).2.refcount 8 = 3 ∧
    (set_callback_function hookModel exampleObjects (some 8) (some 2)).1 =
      { hookModel with mkl := some 8, callback := some 2 } := by
  refine ⟨rfl, by decide, by decide, rfl, rfl, by decide, by decide, by decide, rfl⟩

/-- C18: a freshly constructed model (default construction, `num_sv = 0`) has
`C1 = C2 = 1`, `epsilon = 1e-5`, `tube_epsilon = 1e-2`, `nu = 0.5`,
`qpsize = 41`, the four flags set, `objective = 0`, `svm_loaded = false`, no MKL
reference, no callback, an empty linear term (pointer `NULL`, length 0), no
support vectors and no collaborators; the constructor with `(C, kernel, labels)`
gives the same state except that `C1 = C2 = C` and the kernel and the labels
given are attached. -/
theorem fresh_model_defaults :
    (CSVM.new 0).C1 = 1 ∧ (CSVM.new 0).C2 = 1 ∧
    (CSVM.new 0).epsilon = 1 / 100000 ∧ (CSVM.new 0).tube_epsilon = 1 / 100 ∧
    (CSVM.new 0).nu = 1 / 2 ∧ (CSVM.new 0).qpsize = 41 ∧
    (CSVM.new 0).use_bias = true ∧ (CSVM.new 0).use_shrinking = true ∧
    (CSVM.new 0).use_batch_computation = true ∧ (CSVM.new 0).use_linadd = true ∧
    (CSVM.new 0).objective = 0 ∧ (CSVM.new 0).svm_loaded = false ∧
    (CSVM.new 0).mkl = none ∧ (CSVM.new 0).callback = none ∧
    (CSVM.new 0).linear_term = none ∧ (CSVM.new 0).linear_term_y = 0 ∧
    get_num_support_vectors (CSVM.new 0) = 0 ∧
    (CSVM.new 0).kernel = none ∧ (CSVM.new 0).labels = none ∧
    ∀ (C : ℚ) (k : Option CKernel) (lab : Option CLabels),
      CSVM.newC C k lab = { CSVM.new 0 with C1 := C, C2 := C, kernel := k, labels := lab } :=
  ⟨rfl, rfl, rfl, rfl, rfl, rfl, rfl, rfl, rfl, rfl, rfl, rfl, rfl, rfl, rfl, rfl, rfl, rfl, rfl,
    fun _ _ _ => rfl⟩

/-- C19 on the code, at a model file without the header line and the two prior
states "freshly constructed" and "loaded before with one support vector": both
runs raise the format error of line 1, and they leave different objects behind,
`svm_loaded` false and no support vector in the first run, `svm_loaded` true and
the support vector of the earlier load in the second. -/
theorem load_state_from_stream :
    (load (CSVM.new 0) ⟨headlessText, false⟩).ret = .error (.formatError 1) ∧
    (load loadedModel ⟨headlessText, false⟩).ret = .error (.formatError 1) ∧
    (load (CSVM.new 0) ⟨headlessText, false⟩).self.svm_loaded = false ∧
    (load loadedModel ⟨headlessText, false⟩).self.svm_loaded = true ∧
    get_num_support_vectors (load (CSVM.new 0) ⟨headlessText, false⟩).self = 0 ∧
    get_num_support_vectors (load loadedModel ⟨headlessText, false⟩).self = 1 ∧
    (load (CSVM.new 0) ⟨headlessText, false⟩).self.m_svs = [] ∧
    (load loadedModel ⟨headlessText, false⟩).self.m_svs = [7] := by
  refine ⟨by decide, by decide, by decide, by decide, by decide, by decide, by decide, by decide⟩

/-- C20: in exact arithmetic the two objectives do not depend on the order in
which the support vectors are stored.  For every model with `n` support vectors
and with labels and kernel attached, and every permutation `p` of the positions
`0..n-1`, the model whose position `i` holds the pair `(alpha(p i), idx(p i))`
gives the same value of `compute_svm_dual_objective` and, for the same
classification collaborator, of `compute_svm_primal_objective`, and both
routines succeed; for the empty model both return 0. -/
theorem objective_order_independent (self : CSVM) (L : CLabels) (K : CKernel)
    (classify_example : Int → ℚ) (n : Nat) (p : Equiv.Perm (Fin n))
    (hsize : ModelOfSize self n) (hL : self.labels = some L) (hK : self.kernel = some K) :
    (∀ i : Fin n,
      get_alpha (reorder self n p) ((i : Nat) : Int) = get_alpha self (((p i : Fin n) : Nat) : Int) ∧
      get_support_vector (reorder self n p) ((i : Nat) : Int) =
        get_support_vector self (((p i : Fin n) : Nat) : Int)) ∧
    (compute_svm_dual_objective (reorder self n p)).1 = (compute_svm_dual_objective self).1 ∧
    (compute_svm_primal_objective (reorder self n p) classify_example).1 =
      (compute_svm_primal_objective self classify_example).1 ∧
    (∃ v, (compute_svm_dual_objective self).1 = .ok v) ∧
    (∃ v, (compute_svm_primal_objective self classify_example).1 = .ok v) ∧
    (n = 0 → (compute_svm_dual_objective self).1 = .ok 0 ∧
      (compute_svm_primal_objective self classify_example).1 = .ok 0) := by
  have hsize' := reorder_size self n p hsize
  have hd := dual_objective_eq self L K n hsize hL hK
  have hd' := dual_objective_eq (reorder self n p) L K n hsize' hL hK
  have hp := primal_objective_eq self L K classify_example n hsize hL hK
  have hp' := primal_objective_eq (reorder self n p) L K classify_example n hsize' hL hK
  have hC : (reorder self n p).C1 = self.C1 := rfl
  refine ⟨?_, ?_, ?_, ⟨_, by rw [hd]⟩, ⟨_, hp⟩, ?_⟩
  · intro i
    rw [get_alpha_of_size hsize' i.2, get_alpha_of_size hsize (p i).2,
      get_support_vector_of_size hsize' i.2, get_support_vector_of_size hsize (p i).2,
      reorder_alpha, reorder_svs]
    exact ⟨rfl, rfl⟩
  · rw [hd, hd']
    simp only
    congr 1
    rw [sum_range_perm p
        (fun i => -(self.m_alpha.getD i 0) * L.get_label (self.m_svs.getD i 0))
        (fun i => -((reorder self n p).m_alpha.getD i 0) *
          L.get_label ((reorder self n p).m_svs.getD i 0))
        (fun i => by simp only [reorder_alpha, reorder_svs]),
      sum_range_perm2 p
        (fun i j => 0.5 * self.m_alpha.getD i 0 * self.m_alpha.getD j 0 *
          K.kernel (self.m_svs.getD i 0) (self.m_svs.getD j 0))
        (fun i j => 0.5 * (reorder self n p).m_alpha.getD i 0 *
          (reorder self n p).m_alpha.getD j 0 *
          K.kernel ((reorder self n p).m_svs.getD i 0) ((reorder self n p).m_svs.getD j 0))
        (fun i j => by simp only [reorder_alpha, reorder_svs])]
  · rw [hp, hp', hC]
    congr 1
    rw [sum_range_perm p
        (fun i => -(self.C1 * max 0 (1 - L.get_label (self.m_svs.getD i 0) *
          classify_example (self.m_svs.getD i 0))))
        (fun i => -(self.C1 * max 0 (1 - L.get_label ((reorder self n p).m_svs.getD i 0) *
          classify_example ((reorder self n p).m_svs.getD i 0))))
        (fun i => by simp only [reorder_svs]),
      sum_range_perm2 p
        (fun i j => -(0.5 * self.m_alpha.getD i 0 * self.m_alpha.getD j 0 *
          K.kernel (self.m_svs.getD i 0) (self.m_svs.getD j 0)))
        (fun i j => -(0.5 * (reorder self n p).m_alpha.getD i 0 *
          (reorder self n p).m_alpha.getD j 0 *
          K.kernel ((reorder self n p).m_svs.getD i 0) ((reorder self n p).m_svs.getD j 0)))
        (fun i j => by simp only [reorder_alpha, reorder_svs])]
  · intro h0
    subst h0
    rw [hd, hp]
    simp

/-- C20 at the example model of section 8 with its two support vectors
exchanged: the dual objective is 2 and, with the classifier constantly 0, the
primal objective is -4, as for the model in its stored order. -/
theorem objective_order_independent_witness :
    ModelOfSize exampleModel 2 ∧ exampleModel.labels = some exampleLabels ∧
    exampleModel.kernel = some exampleKernel ∧
    exampleModel.m_svs = [0, 1] ∧
    (reorder exampleModel 2 (Equiv.swap 0 1)).m_svs = [1, 0] ∧
    (compute_svm_dual_objective (reorder exampleModel 2 (Equiv.swap 0 1))).1 = .ok 2 ∧
    (compute_svm_primal_objective (reorder exampleModel 2 (Equiv.swap 0 1)) (fun _ => 0)).1 =
      .ok (-4) := by
  have h := objective_order_independent exampleModel exampleLabels exampleKernel (fun _ => 0) 2
    (Equiv.swap 0 1) exampleModel_size rfl rfl
  have hd : (compute_svm_dual_objective exampleModel).1 = .ok 2 := by
    rw [exampleModel_dual]
  have hp : (compute_svm_primal_objective exampleModel (fun _ => 0)).1 = .ok (-4) := by
    rw [primal_objective_eq exampleModel exampleLabels exampleKernel (fun _ => 0) 2
      exampleModel_size rfl rfl]
    simp [Finset.sum_range_succ, exampleModel, exampleKernel, exampleLabels, CSVM.newC, set_C,
      set_kernel, set_labels, set_defaults]
    norm_num
  refine ⟨exampleModel_size, rfl, rfl, rfl, by decide, ?_, ?_⟩
  · rw [h.2.1, hd]
  · rw [h.2.2.1, hp]

end Shogun
